import Mathlib

/-! # Session subsystem of the user service

A shallow embedding of `user-service/services/auth/session.go`,
`user-service/services/user_service.go`, `user-service/services/auth/logger.go`
and `user-service/repositories/user_repository.go`.

Modelling conventions.

* Time is an integer count of nanoseconds (Go `time.Time`/`time.Duration`);
  one service call reads the clock as a single instant `now`, except that `Register`
  and `Login` stamp the access session `Entropy.elapsed` nanoseconds after the
  refresh session, as the code reads the clock for each.
* Durations are integers. `Register` and `Login` compute the lifetime of a session in
  `int64` (`wrapInt64`). `ttlWithJitter`, `GenerateToken` and the session stamp of
  `RefreshToken` are taken over the integers, which is what the code computes as long
  as nothing leaves the range of `time.Duration` (292 years); `ttlWithJitter.int64` and
  `GenerateToken.int64` are the first two in `int64`, for every input.
* The cache (`*redis.Client`) is a finite map from keys to values; a string value
  carries the instant at which its TTL runs out. `json.Marshal` followed by
  `json.Unmarshal` on a `UserSession` is the identity, so string values
  written by the service are kept as sessions; `RedisValue.raw` stands for
  any string that does not unmarshal.
* The durable store (`gorm` on MySQL) is a record of tables, each a list of rows.
* Failures of the cache or of the durable store that are not caused by the
  data (connection loss, timeouts) are injected through `Faults`; a failure of
  the audit write is the separate flag `auditFails` of `Register` and `Login`.
* Random draws (`math/rand`, `crypto/rand`) are inputs of the calls.
* The session manager works on `Store` (cache and `user_sessions` table), the
  user service on `State` (`Store`, `users` and `login_logs`).
-/

namespace ReadingMicroservices

/-! ## Data model (`models/user.go`) -/

/-- Go `time.Second` in nanoseconds. -/
def timeSecond : Int := 1000000000

/-- Go `time.Hour` in nanoseconds. -/
def timeHour : Int := 3600 * timeSecond

/-- Go's conversion of an integer to `int64`: the value modulo `2^64`, read in two's complement.
It is what a product or sum of `time.Duration` values is when it leaves the range of `int64`. -/
def wrapInt64 (x : Int) : Int := (x + 2 ^ 63) % 2 ^ 64 - 2 ^ 63

/-- The `models.UserSession` record. `IPAddress`, `UserAgent`, `CreatedAt`, `UpdatedAt`
and `AccessExpiresIn` are never read by the session subsystem and are left out. -/
structure UserSession where
  ID : String
  UserID : String
  SessionToken : String
  SessionType : String
  Platform : String
  DeviceID : Option String
  ExpiresAt : Int
  LastActivityAt : Int
  IsActive : Bool
  AccessToken : String
deriving DecidableEq

/-- The `models.User` record, restricted to the columns the session subsystem touches. -/
structure User where
  ID : String
  Username : String
  Email : Option String
  Phone : Option String
  PasswordHash : String
  LoginType : String
  IsActive : Bool
deriving DecidableEq

/-- The `models.LoginLog` record (columns that the login logger fills in). -/
structure LoginLog where
  ID : String
  UserID : String
  LoginType : String
  Platform : String
  DeviceID : Option String
  IsSuccess : Bool
  FailureReason : Option String
  SessionID : Option String
deriving DecidableEq

/-- The `models.UserInfo` record (identity columns). -/
structure UserInfo where
  ID : String
  Username : String
  Email : Option String
  Phone : Option String
deriving DecidableEq

/-- The `models.LoginResponse` record. -/
structure LoginResponse where
  AccessToken : String
  RefreshToken : String
  AccessExpiresIn : Int
  RefreshExpiresIn : Int
  User : UserInfo
deriving DecidableEq

/-- The `models.LoginRequest` record. -/
structure LoginRequest where
  Username : String
  Password : String
  Platform : String
  DeviceID : String
deriving DecidableEq

/-- The `models.RegisterRequest` record. -/
structure RegisterRequest where
  Username : String
  Password : String
  Email : String
  Phone : String
  Platform : String
  DeviceID : String
deriving DecidableEq

/-! ## The cache -/

/-- A value held by the cache under one key. -/
inductive RedisValue where
  /-- A string value that unmarshals to a session; `deadline` is when its TTL runs out. -/
  | json (s : UserSession) (deadline : Int)
  /-- A string value that does not unmarshal to a session. -/
  | raw (bytes : String) (deadline : Int)
  /-- A set of strings (no TTL). -/
  | set (members : List String)
deriving DecidableEq

/-- The cache: what each key holds. -/
abbrev Redis := String → Option RedisValue

/-- What a key holds at instant `now`: string values whose TTL has run out are gone. -/
def Redis.live (r : Redis) (now : Int) (key : String) : Option RedisValue :=
  match r key with
  | some (.json s d) => if now < d then some (.json s d) else none
  | some (.raw b d) => if now < d then some (.raw b d) else none
  | some (.set ms) => some (.set ms)
  | none => none

/-- Reply of `GET`. -/
inductive GetReply where
  /-- The key holds a string that unmarshals to `s` (`err == nil`). -/
  | session (s : UserSession)
  /-- The key holds some other string (`err == nil`, `json.Unmarshal` fails). -/
  | junk (bytes : String)
  /-- The key is missing (`err == redis.Nil`). -/
  | missing
  /-- Any other error. -/
  | failed
deriving DecidableEq

/-- Injected failures of cache and durable-store calls during one service call.
A flag set to `true` makes every call of that kind fail without effect. -/
structure Faults where
  redisGet : Bool
  redisSet : Bool
  redisDel : Bool
  redisSAdd : Bool
  redisSRem : Bool
  redisSMembers : Bool
  /-- Error injected into the `n`-th durable attempt of one `CreateSessionPair`. -/
  dbCreateSession : Nat → Option String
  dbGetActiveSession : Bool
  dbInvalidateSession : Bool
  dbInvalidateAllUserSessions : Bool
  dbUpdateRefreshSession : Bool

/-- No injected failure. -/
def Faults.none : Faults :=
  { redisGet := false, redisSet := false, redisDel := false, redisSAdd := false,
    redisSRem := false, redisSMembers := false, dbCreateSession := fun _ => Option.none,
    dbGetActiveSession := false, dbInvalidateSession := false,
    dbInvalidateAllUserSessions := false, dbUpdateRefreshSession := false }

/-- Redis `GET key`. -/
def redisGet (f : Faults) (r : Redis) (now : Int) (key : String) : GetReply :=
  if f.redisGet then .failed else
  match r.live now key with
  | some (.json s _) => .session s
  | some (.raw b _) => .junk b
  | some (.set _) => .failed
  | none => .missing

/-- Redis `SET key value EX ttl`; `none` when the call fails. -/
def redisSet (f : Faults) (r : Redis) (now : Int) (key : String) (s : UserSession) (ttl : Int) :
    Option Redis :=
  if f.redisSet then none else some (Function.update r key (some (.json s (now + ttl))))

/-- Redis `DEL key`; `none` when the call fails. -/
def redisDel (f : Faults) (r : Redis) (key : String) : Option Redis :=
  if f.redisDel then none else some (Function.update r key Option.none)

/-- Redis `SADD key members...`; `none` when the call fails (also on a key that holds a string). -/
def redisSAdd (f : Faults) (r : Redis) (now : Int) (key : String) (members : List String) :
    Option Redis :=
  if f.redisSAdd then none else
  match r.live now key with
  | some (.set ms) => some (Function.update r key (some (.set (ms ∪ members))))
  | some _ => none
  | none => some (Function.update r key (some (.set members)))

/-- Redis `SREM key member`; an emptied set is removed. -/
def redisSRem (f : Faults) (r : Redis) (now : Int) (key : String) (member : String) :
    Option Redis :=
  if f.redisSRem then none else
  match r.live now key with
  | some (.set ms) =>
      if ms.filter (· ≠ member) = [] then some (Function.update r key Option.none)
      else some (Function.update r key (some (.set (ms.filter (· ≠ member)))))
  | some _ => none
  | none => some r

/-- Redis `SMEMBERS key`; `none` when the call fails (also on a key that holds a string). -/
def redisSMembers (f : Faults) (r : Redis) (now : Int) (key : String) : Option (List String) :=
  if f.redisSMembers then none else
  match r.live now key with
  | some (.set ms) => some ms
  | some _ => none
  | none => some []

/-! ## The durable store (`repositories/user_repository.go`) -/

/-- What the session manager reaches: the cache and the `user_sessions` table. -/
structure Store where
  redis : Redis
  /-- Rows of the `user_sessions` table. -/
  sessions : List UserSession

/-- Cache and durable store together. -/
structure State where
  store : Store
  /-- Rows of the `users` table. -/
  users : List User
  /-- Rows of the `login_logs` table. -/
  loginLogs : List LoginLog

/-- The error `redis.Nil`. -/
def redisNil : String := "redis: nil"

/-- The error `gorm.ErrRecordNotFound`. -/
def recordNotFound : String := "record not found"

/-- The error of a durable-store call that fails for a cause outside the data. -/
def dbUnavailable : String := "invalid connection"

/-- The row `gorm` inserts for a session: `BeforeCreate` fills an empty `ID`, the column
defaults replace zero values (`is_active` default `true`, `session_type` default
`'refresh'`), and `AccessToken` (`gorm:"-"`) is no column. -/
def sessionDefaults (uuid : String) (s : UserSession) : UserSession :=
  { s with
    ID := if s.ID = "" then uuid else s.ID
    SessionType := if s.SessionType = "" then "refresh" else s.SessionType
    IsActive := true }

/-- The function `userRepository.CreateSession`. Returns the error (if any), the table and the
record as `gorm` leaves it. `injected` is a failure from outside the data;
`duplicate` is the driver's message for a violated unique index
(`session_token` is a `uniqueIndex`, `ID` the primary key). -/
def dbCreateSession (injected : Option String) (duplicate : String) (uuid : String)
    (rows : List UserSession) (s : UserSession) :
    Option String × List UserSession × UserSession :=
  let s1 := sessionDefaults uuid s
  match injected with
  | some e => (some e, rows, s1)
  | none =>
    if rows.any (fun row => row.SessionToken = s1.SessionToken ∨ row.ID = s1.ID) then
      (some duplicate, rows, s1)
    else (none, rows ++ [{ s1 with AccessToken := "" }], s1)

/-- The function `userRepository.GetActiveSession`. -/
def dbGetActiveSession (f : Faults) (rows : List UserSession) (token : String) (now : Int) :
    Except String UserSession :=
  if f.dbGetActiveSession then .error dbUnavailable else
  match rows.find? (fun row => row.SessionToken = token ∧ row.IsActive = true ∧ now < row.ExpiresAt) with
  | some row => .ok row
  | none => .error recordNotFound

/-- The function `userRepository.InvalidateSession`. -/
def dbInvalidateSession (f : Faults) (rows : List UserSession) (token : String) :
    Option String × List UserSession :=
  if f.dbInvalidateSession then (some dbUnavailable, rows) else
  (none, rows.map (fun row => if row.SessionToken = token then { row with IsActive := false } else row))

/-- The function `userRepository.InvalidateAllUserSessions`. -/
def dbInvalidateAllUserSessions (f : Faults) (rows : List UserSession) (userID : String) :
    Option String × List UserSession :=
  if f.dbInvalidateAllUserSessions then (some dbUnavailable, rows) else
  (none, rows.map (fun row =>
    if row.UserID = userID ∧ row.IsActive = true then { row with IsActive := false } else row))

/-- The function `userRepository.UpdateRefreshSession`: the update map holds `last_activity_at`
and `updated_at` only; `newAccessToken` is not written. -/
def dbUpdateRefreshSession (f : Faults) (rows : List UserSession) (refreshToken : String)
    (_newAccessToken : String) (lastActivityAt : Int) : Option String × List UserSession :=
  if f.dbUpdateRefreshSession then (some dbUnavailable, rows) else
  let hit := fun (row : UserSession) => row.SessionToken = refreshToken ∧ row.SessionType = "refresh"
  let rows1 := rows.map (fun row => if hit row then { row with LastActivityAt := lastActivityAt } else row)
  if rows.any (fun row => hit row) then (none, rows1) else (some "refresh session not found", rows1)

/-- The function `userRepository.CreateLoginLog` (`BeforeCreate` fills the `ID`); `fails` injects a
failure of the write. The column `is_success` is tagged `gorm:"default:true"` on a plain `bool`
(`models/user.go`, line 93): on insert GORM replaces the zero value `false` by the column default,
so the stored flag is `true` whatever the entry carried. -/
def dbCreateLoginLog (fails : Bool) (logs : List LoginLog) (uuid : String) (entry : LoginLog) :
    Option String × List LoginLog :=
  if fails then (some dbUnavailable, logs) else
  (none, logs ++ [{ entry with
    ID := if entry.ID = "" then uuid else entry.ID
    IsSuccess := if entry.IsSuccess = false then true else entry.IsSuccess }])

/-- The function `userRepository.GetByUsername`. -/
def dbGetByUsername (users : List User) (username : String) : Option User :=
  users.find? (fun u => u.Username = username ∧ u.IsActive = true)

/-- The function `userRepository.GetByID`. -/
def dbGetByID (users : List User) (id : String) : Option User :=
  users.find? (fun u => u.ID = id ∧ u.IsActive = true)

/-! ## `utils/errors.go` -/

/-- The function `contains` of `utils/errors.go`:
`len(s) >= len(substr) && s[:len(substr)] == substr`. -/
def contains (s substr : String) : Bool :=
  decide (substr.data.length ≤ s.data.length) && (s.data.take substr.data.length == substr.data)

/-- The function `utils.IsDuplicateError` on the message of a non-nil error. -/
def IsDuplicateError (err : Option String) : Bool :=
  match err with
  | none => false
  | some msg => contains msg "1062" || contains msg "Duplicate entry" || contains msg "unique constraint"

/-! ## The session manager (`services/auth/session.go`) -/

def accessSessionPrefix : String := "access_session:"

def refreshSessionPrefix : String := "refresh_session:"

def userSessionsPrefix : String := "user_sessions:"

def redisJitterMax : Nat := 300

def accessSessionKey (token : String) : String := accessSessionPrefix ++ token

def refreshSessionKey (token : String) : String := refreshSessionPrefix ++ token

def userSessionsKey (userID : String) : String := userSessionsPrefix ++ userID

/-- Successive results of `rand.Intn(redisJitterMax)` during one call. -/
abbrev Jitter := Nat → Fin 300

/-- The draws that follow the first `k`. -/
def Jitter.drop (jit : Jitter) (k : Nat) : Jitter := fun n => jit (n + k)

/-- The function `ttlWithJitter`, with the clock reading and the random draw made explicit. The
durations are taken over the integers, which is what the code computes as long as the remaining
lifetime and the jitter fit a `time.Duration` (`ttlWithJitter.int64` below is the function for
every expiry). -/
def ttlWithJitter (now : Int) (expiresAt : Int) (draw : Fin 300) : Int :=
  let ttl := expiresAt - now
  if ttl ≤ 0 then timeSecond else ttl + (draw.val : Int) * timeSecond

/-- The largest `time.Duration`, `math.MaxInt64` nanoseconds. -/
def maxDuration : Int := 2 ^ 63 - 1

/-- The smallest `time.Duration`, `math.MinInt64` nanoseconds. -/
def minDuration : Int := -(2 ^ 63)

/-- The function `time.Until(t)` at the instant `now`, that is `t.Sub(now)`: the difference,
saturated at the bounds of `time.Duration`. -/
def timeUntil (now t : Int) : Int :=
  if t - now < minDuration then minDuration
  else if maxDuration < t - now then maxDuration
  else t - now

/-- The function `ttlWithJitter` in the `int64` arithmetic of `time.Duration`: `time.Until`
saturates, the product and the sum wrap around. -/
def ttlWithJitter.int64 (now : Int) (expiresAt : Int) (draw : Fin 300) : Int :=
  let ttl := timeUntil now expiresAt
  if ttl ≤ 0 then timeSecond else wrapInt64 (ttl + wrapInt64 ((draw.val : Int) * timeSecond))

/-- A cache write whose error is only logged: the cache is left as it was. -/
def tolerate (r : Redis) (written : Option Redis) : Redis := written.getD r

/-- Lines 219-222 of `GetSession`: the write-back of a session read from the durable table. -/
def GetSession.writeBack (f : Faults) (now : Int) (jit : Jitter) (r : Redis) (key : String)
    (session : UserSession) : Redis :=
  let r1 := tolerate r (redisSet f r now key session (ttlWithJitter now session.ExpiresAt (jit 0)))
  tolerate r1 (redisSAdd f r1 now (userSessionsKey session.UserID) [key])

/-- Lines 208-228 of `GetSession`: what happens once the cache gave no session. -/
def GetSession.miss (f : Faults) (now : Int) (jit : Jitter) (st : Store) (token : String)
    (isAccessToken : Bool) (key : String) : Except String UserSession × Store :=
  if !isAccessToken then
    match dbGetActiveSession f st.sessions token now with
    | .error e => (.error e, st)
    | .ok session =>
      if session.ExpiresAt < now then
        (.error redisNil, { st with sessions := (dbInvalidateSession f st.sessions token).2 })
      else
        (.ok session, { st with redis := GetSession.writeBack f now jit st.redis key session })
  else (.error redisNil, st)

/-- The method `SessionManager.GetSession`. -/
def GetSession (f : Faults) (now : Int) (jit : Jitter) (st : Store) (token : String)
    (isAccessToken : Bool) : Except String UserSession × Store :=
  let key := if isAccessToken then accessSessionKey token else refreshSessionKey token
  match redisGet f st.redis now key with
  | .session session =>
      if session.ExpiresAt < now then
        (.error redisNil, { st with redis := tolerate st.redis (redisDel f st.redis key) })
      else (.ok session, st)
  | _ => GetSession.miss f now jit st token isAccessToken key

/-- The method `SessionManager.InvalidateSession`. -/
def InvalidateSession (f : Faults) (now : Int) (st : Store) (token : String)
    (isAccessToken : Bool) : Option String × Store :=
  let key := if isAccessToken then accessSessionKey token else refreshSessionKey token
  let r1 := match redisGet f st.redis now key with
    | .session session =>
        tolerate st.redis (redisSRem f st.redis now (userSessionsKey session.UserID) key)
    | _ => st.redis
  let r2 := tolerate r1 (redisDel f r1 key)
  if !isAccessToken then
    let res := dbInvalidateSession f st.sessions token
    (res.1, { st with redis := r2, sessions := res.2 })
  else (none, { st with redis := r2 })

/-- The method `SessionManager.InvalidateAllUserSessions`. -/
def InvalidateAllUserSessions (f : Faults) (now : Int) (st : Store) (userID : String)
    (invalidateDB : Bool) : Option String × Store :=
  let userSessions := userSessionsKey userID
  match redisSMembers f st.redis now userSessions with
  | none => (some "redis: smembers failed", st)
  | some sessionKeys =>
    let r1 := sessionKeys.foldl (fun r key => tolerate r (redisDel f r key)) st.redis
    let r2 := tolerate r1 (redisDel f r1 userSessions)
    if !invalidateDB then (none, { st with redis := r2 })
    else
      let res := dbInvalidateAllUserSessions f st.sessions userID
      (res.1, { st with redis := r2, sessions := res.2 })

/-- The durable-write loop of `CreateSessionPair` (lines 78-94): `fuel` iterations are left,
`i` is the loop counter and `err` the error of the previous iteration. -/
def CreateSessionPair.persist (f : Faults) (duplicate uuid : String) :
    Nat → Nat → List UserSession → UserSession → Option String →
    Option String × List UserSession × UserSession
  | 0, _, rows, s, err => (err, rows, s)
  | fuel + 1, i, rows, s, _ =>
    match dbCreateSession (f.dbCreateSession i) duplicate uuid rows s with
    | (none, rows1, s1) => (none, rows1, s1)
    | (some e, rows1, s1) =>
      if IsDuplicateError (some e) then (some e, rows1, s1)
      else CreateSessionPair.persist f duplicate uuid fuel (i + 1) rows1 s1 (some e)

/-- Lines 96-123 of `CreateSessionPair`: the two sessions are written to the cache and their keys
added to the index of the access session's owner; errors are only logged. -/
def CreateSessionPair.cache (f : Faults) (now : Int) (jit : Jitter) (r : Redis)
    (accessSession refreshSession : UserSession) : Redis :=
  let accessKey := accessSessionKey accessSession.SessionToken
  let r1 := tolerate r (redisSet f r now accessKey accessSession
    (ttlWithJitter now accessSession.ExpiresAt (jit 2)))
  let refreshKey := refreshSessionKey refreshSession.SessionToken
  let r2 := tolerate r1 (redisSet f r1 now refreshKey refreshSession
    (ttlWithJitter now refreshSession.ExpiresAt (jit 3)))
  tolerate r2 (redisSAdd f r2 now (userSessionsKey accessSession.UserID) [accessKey, refreshKey])

/-- The method `SessionManager.CreateSessionPair`. Besides the error and the stores it returns
the refresh record as the durable write leaves it (the caller holds a pointer to it). -/
def CreateSessionPair (f : Faults) (duplicate uuid : String) (now : Int) (jit : Jitter)
    (st : Store) (accessSession refreshSession : UserSession) :
    Option String × Store × UserSession :=
  match GetSession f now jit st accessSession.SessionToken true with
  | (.ok _, st1) => (some "access session already exists", st1, refreshSession)
  | (.error _, st1) =>
    match GetSession f now (jit.drop 1) st1 refreshSession.SessionToken false with
    | (.ok _, st2) => (some "refresh session already exists", st2, refreshSession)
    | (.error _, st2) =>
      match CreateSessionPair.persist f duplicate uuid 2 0 st2.sessions refreshSession none with
      | (some e, rows, rs) => (some e, { st2 with sessions := rows }, rs)
      | (none, rows, rs) =>
        (none, { redis := CreateSessionPair.cache f now jit st2.redis accessSession rs,
                 sessions := rows }, rs)

/-- Lines 152-178 of `RefreshSession`: the updated refresh session and the new access session are
written to the cache and the access key is added to the index of the access session's owner;
errors are only logged. -/
def RefreshSession.cache (f : Faults) (now : Int) (jit : Jitter) (r : Redis)
    (accessSession existing1 : UserSession) (refreshToken : String) : Redis :=
  let refreshKey := refreshSessionKey refreshToken
  let r1 := tolerate r (redisSet f r now refreshKey existing1
    (ttlWithJitter now existing1.ExpiresAt (jit 2)))
  let accessKey := accessSessionKey accessSession.SessionToken
  let r2 := tolerate r1 (redisSet f r1 now accessKey accessSession
    (ttlWithJitter now accessSession.ExpiresAt (jit 3)))
  tolerate r2 (redisSAdd f r2 now (userSessionsKey accessSession.UserID) [accessKey])

/-- The method `SessionManager.RefreshSession`. -/
def RefreshSession (f : Faults) (now : Int) (jit : Jitter) (st : Store)
    (accessSession : UserSession) (refreshToken : String) : Option String × Store :=
  match GetSession f now jit st accessSession.SessionToken true with
  | (.ok _, st1) => (some "access session already exists", st1)
  | (.error _, st1) =>
    match GetSession f now (jit.drop 1) st1 refreshToken false with
    | (.error e, st2) => (some ("refresh session not found: " ++ e), st2)
    | (.ok existingRefreshSession, st2) =>
      let existing1 := { existingRefreshSession with
        AccessToken := accessSession.SessionToken, LastActivityAt := now }
      match dbUpdateRefreshSession f st2.sessions refreshToken accessSession.SessionToken now with
      | (some e, rows) =>
        (some ("failed to update refresh session in database: " ++ e), { st2 with sessions := rows })
      | (none, rows) =>
        (none, { redis := RefreshSession.cache f now jit st2.redis accessSession existing1
                   refreshToken,
                 sessions := rows })

/-- The method `SessionManager.RefreshSessionPair`. -/
def RefreshSessionPair (f : Faults) (now : Int) (jit : Jitter) (st : Store)
    (newAccessSession newRefreshSession : UserSession) : Option String × Store :=
  let st1 := (InvalidateAllUserSessions f now st newRefreshSession.UserID false).2
  RefreshSession f now jit st1 newAccessSession newRefreshSession.SessionToken

/-- The method `SessionManager.UpdateRefreshSession`. -/
def UpdateRefreshSession (f : Faults) (now : Int) (jit : Jitter) (st : Store)
    (refreshToken newAccessToken : String) : Option String × Store :=
  let refreshKey := refreshSessionKey refreshToken
  match redisGet f st.redis now refreshKey with
  | .session refreshSession =>
    let refreshSession1 := { refreshSession with
      AccessToken := newAccessToken, LastActivityAt := now }
    match redisSet f st.redis now refreshKey refreshSession1
        (ttlWithJitter now refreshSession1.ExpiresAt (jit 0)) with
    | none => (some "redis update refresh session failed", st)
    | some r1 =>
      let res := dbUpdateRefreshSession f st.sessions refreshToken newAccessToken now
      (res.1, { st with redis := r1, sessions := res.2 })
  | .junk _ => (some "invalid refresh session data", st)
  | _ => (some "refresh session not found in redis", st)

/-- The method `SessionManager.InvalidateSessionPairByAccessToken`. -/
def InvalidateSessionPairByAccessToken (f : Faults) (now : Int) (st : Store)
    (accessToken : String) : Option String × Store :=
  match redisGet f st.redis now (accessSessionKey accessToken) with
  | .missing => (some "access session not found", st)
  | .failed => (some "failed to get access session", st)
  | .junk _ => (some "invalid access session data", st)
  | .session accessSession =>
    if accessSession.UserID = "" then (some "user ID not found in access session", st)
    else InvalidateAllUserSessions f now st accessSession.UserID true

/-! ## Credentials (`services/auth/manager.go`, `shared/utils/jwt.go`) -/

/-- The `utils.Claims` record. -/
structure Claims where
  UserID : String
  Username : String
  Random : String
  ExpiresAt : Int
  IssuedAt : Int
deriving DecidableEq

/-- The libraries the service links against, as functions. -/
structure Lib where
  /-- Whether `bcrypt.CompareHashAndPassword(hash, password)` returns `nil`. -/
  compareHashAndPassword : String → String → Bool
  /-- The result of `bcrypt.GenerateFromPassword(password, DefaultCost)` for a given salt;
  `none` is an error. -/
  generateFromPassword : String → String → Option String
  /-- The result of `jwt.NewWithClaims(HS256, claims).SignedString(secret)`. -/
  signedString : String → Claims → String
  /-- The result of `jwt.ParseWithClaims(token, ..)` with key `secret` at instant `now`:
  the claims when the token is valid, `none` otherwise. -/
  parseWithClaims : String → String → Int → Option Claims
  /-- The message of the driver error for a violated unique index. -/
  duplicateEntry : String

/-- The function `utils.GenerateToken`; `nonce` is the hex of `rand.Read` (`none` when it fails).
`jwt.NewNumericDate` truncates to whole seconds. The lifetime is taken over the integers, which
is what the code computes as long as `expiresIn` seconds fit a `time.Duration`
(`GenerateToken.int64` below is the function for every `expiresIn`). -/
def GenerateToken (lib : Lib) (now : Int) (nonce : Option String) (userID username secret : String)
    (expiresIn : Int) : Except String String :=
  match nonce with
  | none => .error "crypto/rand: read failed"
  | some randomSuffix =>
    .ok (lib.signedString secret
      { UserID := userID, Username := username, Random := randomSuffix,
        ExpiresAt := (now + expiresIn * timeSecond) / timeSecond * timeSecond,
        IssuedAt := now / timeSecond * timeSecond })

/-- The function `utils.GenerateToken` in the `int64` arithmetic of `time.Duration`: the product
`time.Duration(expiresIn) * time.Second` wraps around. -/
def GenerateToken.int64 (lib : Lib) (now : Int) (nonce : Option String)
    (userID username secret : String) (expiresIn : Int) : Except String String :=
  match nonce with
  | none => .error "crypto/rand: read failed"
  | some randomSuffix =>
    .ok (lib.signedString secret
      { UserID := userID, Username := username, Random := randomSuffix,
        ExpiresAt := (now + wrapInt64 (expiresIn * timeSecond)) / timeSecond * timeSecond,
        IssuedAt := now / timeSecond * timeSecond })

/-- The function `utils.ParseToken`. -/
def ParseToken (lib : Lib) (now : Int) (token secret : String) : Except String Claims :=
  match lib.parseWithClaims secret token now with
  | some claims => .ok claims
  | none => .error "token is invalid"

/-- Go's `v, _ := f()` for a string result: the zero value when `f` fails. -/
def orEmpty (r : Except String String) : String :=
  match r with
  | .ok v => v
  | .error _ => ""

/-! ## The login logger (`services/auth/logger.go`) -/

/-- The method `LoginLogger.LogSuccess` on the `login_logs` table; it returns nothing, the error
of the write is only logged. `auditFails` injects a failure of the write. -/
def LogSuccess (auditFails : Bool) (uuid : String) (logs : List LoginLog) (userID : String)
    (sessionID : String) (platform deviceID : String) : List LoginLog :=
  let logEntry : LoginLog :=
    { ID := "", UserID := userID, SessionID := some sessionID, LoginType := "password",
      Platform := platform, IsSuccess := true, FailureReason := none,
      DeviceID := if deviceID ≠ "" then some deviceID else none }
  (dbCreateLoginLog auditFails logs uuid logEntry).2

/-- The method `LoginLogger.LogFailure` on the `login_logs` table; it returns nothing, the error
of the write is only logged. `auditFails` injects a failure of the write. -/
def LogFailure (auditFails : Bool) (uuid : String) (logs : List LoginLog) (userID reason : String)
    (platform deviceID : String) : List LoginLog :=
  let logEntry : LoginLog :=
    { ID := "", UserID := userID, SessionID := none, LoginType := "password",
      Platform := platform, IsSuccess := false, FailureReason := some reason,
      DeviceID := if deviceID ≠ "" then some deviceID else none }
  (dbCreateLoginLog auditFails logs uuid logEntry).2

/-! ## The user service (`services/user_service.go`) -/

/-- The `UserService` record: the injected collaborators and the two lifetimes (seconds). -/
structure UserService where
  lib : Lib
  jwtSecret : String
  accessExpiresIn : Int
  refreshExpiresIn : Int

/-- What one service call draws from outside its arguments: the random values, in the order the
call makes them, and the advance of the clock between the two readings that stamp a session
pair. -/
structure Entropy where
  /-- Successive results of `rand.Read` in `GenerateToken`. -/
  nonce : Nat → Option String
  /-- Successive results of `generateUUID`. -/
  uuid : Nat → String
  /-- The salt drawn by `bcrypt.GenerateFromPassword`. -/
  salt : String
  /-- Successive results of `rand.Intn(redisJitterMax)`. -/
  jitter : Jitter
  /-- Nanoseconds from the `time.Now()` that stamps the refresh session's `ExpiresAt` in
  `Register` and `Login` to the later `time.Now()` that stamps the access session's. -/
  elapsed : Int

/-- The function `convertToUserInfo`. -/
def convertToUserInfo (user : User) : UserInfo :=
  { ID := user.ID, Username := user.Username, Email := user.Email, Phone := user.Phone }

/-- The function `userRepository.Create`: `BeforeCreate` fills an empty `ID`, `is_active` defaults to
`true`; `username`, `email` and `phone` are unique indexes and `ID` the primary key. -/
def dbCreateUser (duplicate uuid : String) (users : List User) (user : User) :
    Except String (List User × User) :=
  let user1 := { user with ID := if user.ID = "" then uuid else user.ID, IsActive := true }
  if users.any (fun u => u.ID = user1.ID ∨ u.Username = user1.Username ∨
      (user1.Email.isSome ∧ u.Email = user1.Email) ∨ (user1.Phone.isSome ∧ u.Phone = user1.Phone)) then
    .error duplicate
  else .ok (users ++ [user1], user1)

/-- The method `UserService.Register`. The refresh session is stamped at the clock reading `now`
(line 78), the access session `ent.elapsed` later (line 91). -/
def Register (svc : UserService) (f : Faults) (auditFails : Bool) (now : Int) (ent : Entropy)
    (st : State) (req : RegisterRequest) : Except String LoginResponse × State :=
  let hashedPassword := (svc.lib.generateFromPassword req.Password ent.salt).getD ""
  let user : User :=
    { ID := "", Username := req.Username, PasswordHash := hashedPassword, LoginType := "password",
      Email := if req.Email ≠ "" then some req.Email else none,
      Phone := if req.Phone ≠ "" then some req.Phone else none,
      IsActive := false }
  match dbCreateUser svc.lib.duplicateEntry (ent.uuid 0) st.users user with
  | .error e => (.error e, st)
  | .ok (users, user) =>
    let accessToken := orEmpty
      (GenerateToken svc.lib now (ent.nonce 0) user.ID user.Username svc.jwtSecret svc.accessExpiresIn)
    let refreshToken := orEmpty
      (GenerateToken svc.lib now (ent.nonce 1) user.ID user.Username svc.jwtSecret svc.refreshExpiresIn)
    let refreshSession : UserSession :=
      { ID := "", UserID := user.ID, SessionToken := refreshToken, SessionType := "refresh",
        Platform := req.Platform, ExpiresAt := now + wrapInt64 (svc.refreshExpiresIn * timeSecond),
        LastActivityAt := now, IsActive := false, AccessToken := "",
        DeviceID := if req.DeviceID ≠ "" then some req.DeviceID else none }
    let accessSession : UserSession :=
      { ID := "", UserID := user.ID, SessionToken := accessToken, SessionType := "access",
        Platform := req.Platform, ExpiresAt := now + ent.elapsed + wrapInt64 (svc.accessExpiresIn * timeSecond),
        LastActivityAt := now, IsActive := false, AccessToken := "",
        DeviceID := if req.DeviceID ≠ "" then some req.DeviceID else none }
    match CreateSessionPair f svc.lib.duplicateEntry (ent.uuid 1) now ent.jitter st.store
        accessSession refreshSession with
    | (some e, store1, _) => (.error e, { st with store := store1, users := users })
    | (none, store1, refreshSession1) =>
      (.ok { AccessToken := accessToken, RefreshToken := refreshToken,
             AccessExpiresIn := svc.accessExpiresIn, RefreshExpiresIn := svc.refreshExpiresIn,
             User := convertToUserInfo user },
        { store := store1, users := users,
          loginLogs := LogSuccess auditFails (ent.uuid 2) st.loginLogs user.ID refreshSession1.ID
            req.Platform req.DeviceID })

/-- The retry loop of `Login` (lines 180-197): `fuel` iterations are left and `i` is the loop
counter. On success it returns the two tokens and the refresh record. -/
def Login.create (svc : UserService) (f : Faults) (now : Int) (ent : Entropy) (user : User) :
    Nat → Nat → Store → String → String → UserSession → UserSession →
    Except String (String × String × UserSession) × Store
  | 0, _, st, accessToken, refreshToken, _, refreshSession =>
    (.ok (accessToken, refreshToken, refreshSession), st)
  | fuel + 1, i, st, accessToken, refreshToken, accessSession, refreshSession =>
    match CreateSessionPair f svc.lib.duplicateEntry (ent.uuid 0) now (ent.jitter.drop (4 * i)) st
        accessSession refreshSession with
    | (none, st1, refreshSession1) => (.ok (accessToken, refreshToken, refreshSession1), st1)
    | (some e, st1, refreshSession1) =>
      if IsDuplicateError (some e) && decide (i < 3 - 1) then
        let accessToken1 := orEmpty (GenerateToken svc.lib now (ent.nonce (2 * i + 2))
          user.ID user.Username svc.jwtSecret svc.accessExpiresIn)
        let refreshToken1 := orEmpty (GenerateToken svc.lib now (ent.nonce (2 * i + 3))
          user.ID user.Username svc.jwtSecret svc.refreshExpiresIn)
        Login.create svc f now ent user fuel (i + 1) st1 accessToken1 refreshToken1
          { accessSession with SessionToken := accessToken1 }
          { refreshSession1 with SessionToken := refreshToken1 }
      else (.error e, st1)

/-- The method `UserService.Login` (the per-username mutex serialises calls and has no
sequential effect). The refresh session is stamped at the clock reading `now` (line 159), the
access session `ent.elapsed` later (line 171). -/
def Login (svc : UserService) (f : Faults) (auditFails : Bool) (now : Int) (ent : Entropy)
    (st : State) (req : LoginRequest) : Except String LoginResponse × State :=
  match dbGetByUsername st.users req.Username with
  | none => (.error "invalid username or password", st)
  | some user =>
    if !svc.lib.compareHashAndPassword user.PasswordHash req.Password then
      (.error "invalid username or password",
        { st with
          loginLogs := LogFailure auditFails (ent.uuid 1) st.loginLogs user.ID "invalid password"
            req.Platform req.DeviceID })
    else
      match GenerateToken svc.lib now (ent.nonce 0) user.ID user.Username svc.jwtSecret
          svc.accessExpiresIn with
      | .error _ => (.error "failed to generate access token", st)
      | .ok accessToken =>
        match GenerateToken svc.lib now (ent.nonce 1) user.ID user.Username svc.jwtSecret
            svc.refreshExpiresIn with
        | .error _ => (.error "failed to generate refresh token", st)
        | .ok refreshToken =>
          let inv := InvalidateAllUserSessions f now st.store user.ID true
          let logs1 := if inv.1.isSome then
              LogFailure auditFails (ent.uuid 2) st.loginLogs user.ID
                "warning: failed to invalidate old sessions" req.Platform req.DeviceID
            else st.loginLogs
          let refreshSession : UserSession :=
            { ID := "", UserID := user.ID, SessionToken := refreshToken, SessionType := "refresh",
              Platform := req.Platform, ExpiresAt := now + wrapInt64 (svc.refreshExpiresIn * timeSecond),
              LastActivityAt := now, IsActive := false, AccessToken := accessToken,
              DeviceID := if req.DeviceID ≠ "" then some req.DeviceID else none }
          let accessSession : UserSession :=
            { ID := "", UserID := user.ID, SessionToken := accessToken, SessionType := "access",
              Platform := req.Platform, ExpiresAt := now + ent.elapsed + wrapInt64 (svc.accessExpiresIn * timeSecond),
              LastActivityAt := now, IsActive := false, AccessToken := "",
              DeviceID := if req.DeviceID ≠ "" then some req.DeviceID else none }
          match Login.create svc f now ent user 3 0 inv.2 accessToken refreshToken
              accessSession refreshSession with
          | (.error e, store2) => (.error e, { st with store := store2, loginLogs := logs1 })
          | (.ok (accessToken1, refreshToken1, refreshSession1), store2) =>
            (.ok { AccessToken := accessToken1, RefreshToken := refreshToken1,
                   AccessExpiresIn := svc.accessExpiresIn,
                   RefreshExpiresIn := svc.refreshExpiresIn,
                   User := convertToUserInfo user },
              { st with
                store := store2
                loginLogs := LogSuccess auditFails (ent.uuid 1) logs1 user.ID refreshSession1.ID
                  req.Platform req.DeviceID })

/-- The method `UserService.Logout`. -/
def Logout (f : Faults) (now : Int) (st : State) (accessToken : String) : Option String × State :=
  let res := InvalidateSessionPairByAccessToken f now st.store accessToken
  (res.1, { st with store := res.2 })

/-- The method `UserService.RefreshToken`. -/
def RefreshToken (svc : UserService) (f : Faults) (now : Int) (ent : Entropy) (st : State)
    (refreshToken : String) : Except String LoginResponse × State :=
  match ParseToken svc.lib now refreshToken svc.jwtSecret with
  | .error _ => (.error "invalid refresh token", st)
  | .ok claims =>
    match GetSession f now ent.jitter st.store refreshToken false with
    | (.error _, store1) => (.error "refresh session expired or invalid", { st with store := store1 })
    | (.ok refreshSession, store1) =>
      if refreshSession.ExpiresAt - now < 1 * timeHour then
        (.error "refresh token is about to expire, please login again", { st with store := store1 })
      else
        let newAccessToken := orEmpty
          (GenerateToken svc.lib now (ent.nonce 0) claims.UserID "" svc.jwtSecret svc.accessExpiresIn)
        let newAccessSession : UserSession :=
          { ID := "", UserID := claims.UserID, SessionToken := newAccessToken,
            SessionType := "access", Platform := refreshSession.Platform,
            ExpiresAt := now + svc.accessExpiresIn * timeSecond, LastActivityAt := now,
            IsActive := false, AccessToken := "", DeviceID := refreshSession.DeviceID }
        let refreshSession1 := { refreshSession with
          AccessToken := newAccessToken, LastActivityAt := now }
        match RefreshSessionPair f now (ent.jitter.drop 1) store1 newAccessSession refreshSession1 with
        | (some _, store2) => (.error "refresh session failed", { st with store := store2 })
        | (none, store2) =>
          let store3 :=
            (UpdateRefreshSession f now (ent.jitter.drop 5) store2 refreshToken newAccessToken).2
          match dbGetByID st.users claims.UserID with
          | none => (.error "user not found", { st with store := store3 })
          | some user =>
            (.ok { AccessToken := newAccessToken, RefreshToken := refreshToken,
                   AccessExpiresIn := svc.accessExpiresIn,
                   RefreshExpiresIn := Int.tdiv (refreshSession.ExpiresAt - now) timeSecond,
                   User := convertToUserInfo user }, { st with store := store3 })

/-- The method `UserService.ValidateToken`. -/
def ValidateToken (f : Faults) (now : Int) (jit : Jitter) (st : State) (accessToken : String) :
    Except String UserSession × State :=
  match GetSession f now jit st.store accessToken true with
  | (.error _, store1) => (.error "invalid or expired access token", { st with store := store1 })
  | (.ok session, store1) => (.ok session, { st with store := store1 })

/-! ## Concrete inputs used to exercise the model -/

/-- The constant jitter source that always draws `0`. -/
def jitter0 : Jitter := fun _ => ⟨0, by decide⟩

/-- The empty cache and empty tables. -/
def emptyState : State :=
  { store := { redis := fun _ => none, sessions := [] }, users := [], loginLogs := [] }

/-- An access session as `Login` builds it (`IsActive` is never set). -/
def sampleAccess : UserSession :=
  { ID := "", UserID := "u1", SessionToken := "tokA", SessionType := "access", Platform := "web",
    DeviceID := none, ExpiresAt := 100, LastActivityAt := 0, IsActive := false, AccessToken := "" }

/-- A cache that holds `sampleAccess` under its access key, listed in the owner's index. -/
def sampleCache : State :=
  { emptyState with
    store :=
      { redis := fun k =>
          if k = "access_session:tokA" then some (.json sampleAccess 200)
          else if k = "user_sessions:u1" then some (.set ["access_session:tokA"])
          else none
        sessions := [] } }

/-- A toy credential library: the hash of a password is the password itself and a token is its
claims' nonce; the tokens that parse are `refreshA` (of user `u1`) and `ax` (of user `ida`). -/
def sampleLib : Lib :=
  { compareHashAndPassword := fun hash password => hash == password
    generateFromPassword := fun password _ => some password
    signedString := fun _ claims => claims.Random
    parseWithClaims := fun _ token _ =>
      if token = "refreshA" then
        some { UserID := "u1", Username := "alice", Random := "refreshA", ExpiresAt := 0, IssuedAt := 0 }
      else if token = "ax" then
        some { UserID := "ida", Username := "alice", Random := "ax", ExpiresAt := 0, IssuedAt := 0 }
      else none
    duplicateEntry := "Error 1062 (23000): Duplicate entry" }

/-- The service as `main.go` configures it: two hours and seven days. -/
def sampleService : UserService :=
  { lib := sampleLib, jwtSecret := "secret", accessExpiresIn := 7200, refreshExpiresIn := 604800 }

/-- The user `alice` with password `pw`. -/
def alice : User :=
  { ID := "u1", Username := "alice", Email := none, Phone := none, PasswordHash := "pw",
    LoginType := "password", IsActive := true }

/-- A store that knows `alice` only. -/
def aliceState : State := { emptyState with users := [alice] }

/-- Draws for one call: the `n`-th token nonce is `tok` followed by `n` letters `x`, the `n`-th
UUID is `id`, then `tok`, then `n` letters `x`. -/
def sampleEntropy (tok : String) : Entropy :=
  { nonce := fun n => some (tok ++ String.mk (List.replicate n 'x'))
    uuid := fun n => "id" ++ tok ++ String.mk (List.replicate n 'x')
    salt := "salt"
    jitter := jitter0
    elapsed := 0 }

/-- Draws like `sampleEntropy "b"`, with the clock advancing by 1119 nanoseconds between the
two readings that stamp the session pair. -/
def lateEntropy : Entropy := { sampleEntropy "b" with elapsed := 1119 }

/-- A refresh session of `alice` that expires at instant `100`. -/
def sampleRefresh : UserSession :=
  { ID := "s1", UserID := "u1", SessionToken := "refreshA", SessionType := "refresh",
    Platform := "web", DeviceID := none, ExpiresAt := 100, LastActivityAt := 0, IsActive := true,
    AccessToken := "tokA" }

/-- A store that holds `sampleRefresh` in both tiers. -/
def sampleRefreshState : State :=
  { store :=
      { redis := fun k =>
          if k = "refresh_session:refreshA" then some (.json sampleRefresh 200)
          else if k = "user_sessions:u1" then some (.set ["refresh_session:refreshA"])
          else none
        sessions := [{ sampleRefresh with AccessToken := "" }] }
    users := [alice]
    loginLogs := [] }

/-! ## Consistency of the two tiers -/

/-- A cache key under which the session manager stores a session. -/
def isSessionKey (k : String) : Prop :=
  ∃ t, k = accessSessionKey t ∨ k = refreshSessionKey t

/-- The consistency the session manager maintains between the cache, the per-user index sets and
the `user_sessions` table. -/
structure Inv (st : Store) : Prop where
  /-- Every cached session is listed in the index set of its owner. -/
  indexed : ∀ k s d, st.redis k = some (.json s d) →
    ∃ ms, st.redis (userSessionsKey s.UserID) = some (.set ms) ∧ k ∈ ms
  /-- The index sets list session keys only. -/
  members : ∀ u ms k, st.redis (userSessionsKey u) = some (.set ms) → k ∈ ms → isSessionKey k
  /-- An index key holds a set, if anything. -/
  typed : ∀ u v, st.redis (userSessionsKey u) = some v → ∃ ms, v = .set ms
  /-- Every cached refresh session mirrors an active row of the `user_sessions` table. -/
  durable : ∀ t s d, st.redis (refreshSessionKey t) = some (.json s d) →
    ∃ row ∈ st.sessions, row.SessionToken = t ∧ row.UserID = s.UserID ∧ row.IsActive = true ∧
      row.ExpiresAt = s.ExpiresAt
  /-- A session cached under a refresh key carries the token of that key. -/
  keyed : ∀ t s d, st.redis (refreshSessionKey t) = some (.json s d) → s.SessionToken = t
  /-- Every row of the `user_sessions` table is of kind refresh. -/
  kind : ∀ row ∈ st.sessions, row.SessionType = "refresh"
  /-- The rows of the `user_sessions` table carry pairwise different tokens. -/
  unique : st.sessions.Pairwise (fun a b => a.SessionToken ≠ b.SessionToken)

/-- The members `SMEMBERS` returns for an index key of a consistent cache. -/
def indexMembers (r : Redis) (u : String) : List String :=
  match r (userSessionsKey u) with
  | some (.set ms) => ms
  | _ => []

/-- The cache after `InvalidateAllUserSessions`: the listed keys and the index are gone. -/
def purge (r : Redis) (u : String) : Redis :=
  fun k => if k = userSessionsKey u ∨ k ∈ indexMembers r u then none else r k

/-- The states the service reaches from empty stores through `Register`, `Login`, `Logout`,
`RefreshToken` and `ValidateToken`, with cache and durable-store calls that do not fail for
outside causes (the audit write may fail). -/
inductive Reachable (svc : UserService) : State → Prop where
  | init : Reachable svc emptyState
  | register (st : State) (auditFails : Bool) (now : Int) (ent : Entropy) (req : RegisterRequest) :
      Reachable svc st → Reachable svc (Register svc Faults.none auditFails now ent st req).2
  | login (st : State) (auditFails : Bool) (now : Int) (ent : Entropy) (req : LoginRequest) :
      Reachable svc st → Reachable svc (Login svc Faults.none auditFails now ent st req).2
  | logout (st : State) (now : Int) (accessToken : String) :
      Reachable svc st → Reachable svc (Logout Faults.none now st accessToken).2
  | refresh (st : State) (now : Int) (ent : Entropy) (refreshToken : String) :
      Reachable svc st → Reachable svc (RefreshToken svc Faults.none now ent st refreshToken).2
  | validate (st : State) (now : Int) (jit : Jitter) (accessToken : String) :
      Reachable svc st → Reachable svc (ValidateToken Faults.none now jit st accessToken).2

/-- The registration of `alice` with password `pw`. -/
def registerAlice : RegisterRequest :=
  { Username := "alice", Password := "pw", Email := "", Phone := "", Platform := "web",
    DeviceID := "" }

/-- The state after `alice` has registered at instant `0` on empty stores. -/
def registeredState : State :=
  (Register sampleService Faults.none false 0 (sampleEntropy "a") emptyState registerAlice).2

/-- A login of `alice` with her password. -/
def loginAlice : LoginRequest :=
  { Username := "alice", Password := "pw", Platform := "web", DeviceID := "" }

/-- The response to a login of `alice` whose token nonces start with `tok`. -/
def aliceResponse (tok : String) : LoginResponse :=
  { AccessToken := tok, RefreshToken := tok ++ "x", AccessExpiresIn := 7200,
    RefreshExpiresIn := 604800,
    User := { ID := "ida", Username := "alice", Email := none, Phone := none } }

/-- The refresh session that the registration of `alice` caches and persists. -/
def aliceRefresh : UserSession :=
  { ID := "idax", UserID := "ida", SessionToken := "ax", SessionType := "refresh",
    Platform := "web", DeviceID := none, ExpiresAt := 604800 * timeSecond, LastActivityAt := 0,
    IsActive := true, AccessToken := "" }

/-- The row of `alice` in the `users` table after her registration. -/
def aliceRow : User :=
  { ID := "ida", Username := "alice", Email := none, Phone := none, PasswordHash := "pw",
    LoginType := "password", IsActive := true }

/-! ## Password change (`services/user_service.go`, lines 334-345) -/

/-- The request body of `ChangePassword`. -/
structure ChangePasswordRequest where
  OldPassword : String
  NewPassword : String

/-- The function `userRepository.Update` (`db.Save`): the row with the primary key of `user` is
replaced; `fails` injects a failure of the write. -/
def dbUpdateUser (fails : Bool) (users : List User) (user : User) : Option String × List User :=
  if fails then (some dbUnavailable, users)
  else (none, users.map (fun u => if u.ID = user.ID then user else u))

/-- The method `UserService.ChangePassword`; `salt` is the draw of `bcrypt.GenerateFromPassword`. -/
def ChangePassword (svc : UserService) (updateFails : Bool) (salt : String) (st : State)
    (userID : String) (req : ChangePasswordRequest) : Option String × State :=
  match dbGetByID st.users userID with
  | none => (some recordNotFound, st)
  | some user =>
    if !svc.lib.compareHashAndPassword user.PasswordHash req.OldPassword then
      (some "invalid old password", st)
    else
      let hashed := (svc.lib.generateFromPassword req.NewPassword salt).getD ""
      let res := dbUpdateUser updateFails st.users { user with PasswordHash := hashed }
      (res.1, { st with users := res.2 })

/-- The error `ErrSessionExpired` of `utils/errors.go`: declared there and used nowhere. -/
def ErrSessionExpired : String := "session expired"

/-- A new access session of the registered `alice`, as `RefreshToken` builds it at instant `10`. -/
def sampleNewAccess : UserSession :=
  { ID := "", UserID := "ida", SessionToken := "new", SessionType := "access", Platform := "web",
    DeviceID := none, ExpiresAt := 10 + 7200 * timeSecond, LastActivityAt := 10, IsActive := false,
    AccessToken := "" }

/-- The constructor `NewUserService` (lines 28-45): it stores its arguments as they come; the
credential library and the signing secret stand for the injected `AuthManager`. -/
def NewUserService (lib : Lib) (jwtSecret : String) (accessExpiresIn refreshExpiresIn : Int) :
    UserService :=
  { lib := lib, jwtSecret := jwtSecret, accessExpiresIn := accessExpiresIn,
    refreshExpiresIn := refreshExpiresIn }

/-- The claims of a token of `alice` minted at instant `0` for two hours with nonce `n1`. -/
def sampleClaims : Claims :=
  { UserID := "u1", Username := "alice", Random := "n1", ExpiresAt := 7200 * timeSecond,
    IssuedAt := 0 }

/-- A toy token codec: a token is its claims' nonce, and the token `n1` parses to `sampleClaims`
until these expire. -/
def sampleCodec : Lib :=
  { sampleLib with
    signedString := fun _ claims => claims.Random
    parseWithClaims := fun _ token now =>
      if token = "n1" then (if now < 7200 * timeSecond then some sampleClaims else none)
      else none }

/-- The claims of a token minted at instant `0` for 10000000000 seconds: the nanoseconds of that
lifetime wrap around in `int64`. -/
def wrappedClaims : Claims :=
  { UserID := "u1", Username := "alice", Random := "n1",
    ExpiresAt := (0 + wrapInt64 (10000000000 * timeSecond)) / timeSecond * timeSecond,
    IssuedAt := 0 }

/-- A toy token codec: a token is its claims' nonce, and the token `n1` parses to `wrappedClaims`
until these expire. -/
def wrappedCodec : Lib :=
  { sampleLib with
    signedString := fun _ claims => claims.Random
    parseWithClaims := fun _ token now =>
      if token = "n1" then (if now < wrappedClaims.ExpiresAt then some wrappedClaims else none)
      else none }

/-! ## What the durable table can hold -/

/-- The kind and the token of a row of the `user_sessions` table. -/
def rowKind (row : UserSession) : String × String := (row.SessionType, row.SessionToken)

/-- A token that `GenerateToken` can return to this service for the lifetime `expiresIn`. -/
def mintedWith (svc : UserService) (expiresIn : Int) (token : String) : Prop :=
  ∃ (now : Int) (nonce userID username : String),
    GenerateToken svc.lib now (some nonce) userID username svc.jwtSecret expiresIn = .ok token

/-- The states the service reaches from empty stores through `Register`, `Login`, `Logout`,
`RefreshToken` and `ValidateToken`, whichever cache and durable-store calls fail, as long as the
token nonces of `Register` and `Login` are drawn without failure. -/
inductive ReachableFaulty (svc : UserService) : State → Prop where
  | init : ReachableFaulty svc emptyState
  | register (st : State) (f : Faults) (auditFails : Bool) (now : Int) (ent : Entropy)
      (req : RegisterRequest) (hent : ∀ n, ent.nonce n ≠ none) :
      ReachableFaulty svc st → ReachableFaulty svc (Register svc f auditFails now ent st req).2
  | login (st : State) (f : Faults) (auditFails : Bool) (now : Int) (ent : Entropy)
      (req : LoginRequest) (hent : ∀ n, ent.nonce n ≠ none) :
      ReachableFaulty svc st → ReachableFaulty svc (Login svc f auditFails now ent st req).2
  | logout (st : State) (f : Faults) (now : Int) (accessToken : String) :
      ReachableFaulty svc st → ReachableFaulty svc (Logout f now st accessToken).2
  | refresh (st : State) (f : Faults) (now : Int) (ent : Entropy) (refreshToken : String) :
      ReachableFaulty svc st → ReachableFaulty svc (RefreshToken svc f now ent st refreshToken).2
  | validate (st : State) (f : Faults) (now : Int) (jit : Jitter) (accessToken : String) :
      ReachableFaulty svc st → ReachableFaulty svc (ValidateToken f now jit st accessToken).2

/-- A toy credential library whose tokens show the lifetime they were minted for: the letter `A`
for two hours, the letter `R` otherwise, followed by the nonce. -/
def kindLib : Lib :=
  { sampleLib with
    signedString := fun _ claims =>
      (if claims.ExpiresAt - claims.IssuedAt = 7200 * timeSecond then "A" else "R")
        ++ claims.Random }

/-- The service of `main.go` over `kindLib`. -/
def kindService : UserService :=
  { lib := kindLib, jwtSecret := "secret", accessExpiresIn := 7200, refreshExpiresIn := 604800 }

/-- A durable store whose first insert fails for a cause other than the data and whose next
insert works. -/
def flakyInsert : Faults :=
  { Faults.none with
    dbCreateSession := fun n => if n = 0 then some "driver: bad connection" else none }

/-- A durable store whose first insert reports a duplicate in a message that
`IsDuplicateError` recognises and whose next insert would work. -/
def duplicateInsert : Faults :=
  { Faults.none with
    dbCreateSession := fun n =>
      if n = 0 then some "Duplicate entry 'refreshA' for key 'session_token'" else none }

/-- A cache whose `SMEMBERS` fails while every other call works. -/
def indexReadFails : Faults := { Faults.none with redisSMembers := true }

/-! ## The gateway's authentication (`api-gateway/middleware/auth.go`) -/

/-- What `AuthMiddleware` does with a request. -/
inductive Forwarded where
  /-- The request is answered with status 401 and aborted. -/
  | unauthorized (message : String)
  /-- The request goes on with the headers `X-User-ID` and `X-Username` set. -/
  | next (userID username : String)
deriving DecidableEq

/-- Lines 19-21 of `AuthMiddleware`: a leading `Bearer ` (in any case) is cut off. -/
def bearerToken (authorization : String) : String :=
  if 7 < authorization.data.length ∧
      String.mk ((authorization.data.take 7).map Char.toUpper) = "BEARER " then
    String.mk (authorization.data.drop 7)
  else authorization

/-- The handler that `AuthMiddleware(jwtSecret)` returns, on the `Authorization` header of a
request that arrives at instant `now`. -/
def AuthMiddleware (lib : Lib) (now : Int) (jwtSecret : String) (authorization : String) :
    Forwarded :=
  if authorization = "" then .unauthorized "Authorization required"
  else
    match ParseToken lib now (bearerToken authorization) jwtSecret with
    | .error _ => .unauthorized "Invalid token"
    | .ok claims => .next claims.UserID claims.Username

/-- A toy token codec for the registered `alice`: a token is its claims' nonce; her refresh token
`ax` parses to her claims, and the token `n` parses, until its expiry at two hours, to the claims
that `RefreshToken` builds for her at instant `10`. -/
def refreshCodec : Lib :=
  { sampleLib with
    signedString := fun _ claims => claims.Random
    parseWithClaims := fun _ token now =>
      if token = "ax" then
        some { UserID := "ida", Username := "alice", Random := "ax", ExpiresAt := 0, IssuedAt := 0 }
      else if token = "n" then
        (if now < 7200 * timeSecond then
          some { UserID := "ida", Username := "", Random := "n", ExpiresAt := 7200 * timeSecond,
                 IssuedAt := 0 }
        else none)
      else none }

/-- The service of `main.go` over `refreshCodec`. -/
def refreshService : UserService :=
  { lib := refreshCodec, jwtSecret := "secret", accessExpiresIn := 7200,
    refreshExpiresIn := 604800 }

/-- A toy credential library with the length limit of `bcrypt`: the hash of a password is the
password itself, and hashing fails for a password of more than 72 bytes. -/
def strictLib : Lib :=
  { sampleLib with
    generateFromPassword := fun password _ =>
      if 72 < password.utf8ByteSize then none else some password }

/-- The service of `main.go` over `strictLib`. -/
def strictService : UserService :=
  { lib := strictLib, jwtSecret := "secret", accessExpiresIn := 7200, refreshExpiresIn := 604800 }

/-- A change of the password of `alice` from `pw` to 73 letters `a`. -/
def longPasswordChange : ChangePasswordRequest :=
  { OldPassword := "pw", NewPassword := String.mk (List.replicate 73 'a') }

/-- The service of `main.go` over a credential library whose duplicate message starts with
`Duplicate entry`, the one shape of message that `IsDuplicateError` recognises. -/
def recognisedService : UserService :=
  { sampleService with
    lib := { sampleLib with duplicateEntry := "Duplicate entry 'ax' for key 'session_token'" } }

/-! ## The per-username lock of `Login` (`services/user_service.go`, lines 117-123) -/

/-- Steps 1 to 4 of `Login` (lines 125-151): look the user up, verify the password, generate
both tokens and invalidate the old sessions. On success it hands on the user and the tokens. -/
def Login.prepare (svc : UserService) (f : Faults) (auditFails : Bool) (now : Int) (ent : Entropy)
    (st : State) (req : LoginRequest) : Except String (User × String × String) × State :=
  match dbGetByUsername st.users req.Username with
  | none => (.error "invalid username or password", st)
  | some user =>
    if !svc.lib.compareHashAndPassword user.PasswordHash req.Password then
      (.error "invalid username or password",
        { st with
          loginLogs := LogFailure auditFails (ent.uuid 1) st.loginLogs user.ID "invalid password"
            req.Platform req.DeviceID })
    else
      match GenerateToken svc.lib now (ent.nonce 0) user.ID user.Username svc.jwtSecret
          svc.accessExpiresIn with
      | .error _ => (.error "failed to generate access token", st)
      | .ok accessToken =>
        match GenerateToken svc.lib now (ent.nonce 1) user.ID user.Username svc.jwtSecret
            svc.refreshExpiresIn with
        | .error _ => (.error "failed to generate refresh token", st)
        | .ok refreshToken =>
          let inv := InvalidateAllUserSessions f now st.store user.ID true
          let logs1 := if inv.1.isSome then
              LogFailure auditFails (ent.uuid 2) st.loginLogs user.ID
                "warning: failed to invalidate old sessions" req.Platform req.DeviceID
            else st.loginLogs
          (.ok (user, accessToken, refreshToken), { st with store := inv.2, loginLogs := logs1 })

/-- Steps 5 to 7 of `Login` (lines 153-210): build the two sessions, run the retry loop, write
the audit entry and answer. -/
def Login.complete (svc : UserService) (f : Faults) (auditFails : Bool) (now : Int)
    (ent : Entropy) (st : State) (req : LoginRequest) (user : User)
    (accessToken refreshToken : String) : Except String LoginResponse × State :=
  let refreshSession : UserSession :=
    { ID := "", UserID := user.ID, SessionToken := refreshToken, SessionType := "refresh",
      Platform := req.Platform, ExpiresAt := now + wrapInt64 (svc.refreshExpiresIn * timeSecond),
      LastActivityAt := now, IsActive := false, AccessToken := accessToken,
      DeviceID := if req.DeviceID ≠ "" then some req.DeviceID else none }
  let accessSession : UserSession :=
    { ID := "", UserID := user.ID, SessionToken := accessToken, SessionType := "access",
      Platform := req.Platform, ExpiresAt := now + ent.elapsed + wrapInt64 (svc.accessExpiresIn * timeSecond),
      LastActivityAt := now, IsActive := false, AccessToken := "",
      DeviceID := if req.DeviceID ≠ "" then some req.DeviceID else none }
  match Login.create svc f now ent user 3 0 st.store accessToken refreshToken
      accessSession refreshSession with
  | (.error e, store2) => (.error e, { st with store := store2 })
  | (.ok (accessToken1, refreshToken1, refreshSession1), store2) =>
    (.ok { AccessToken := accessToken1, RefreshToken := refreshToken1,
           AccessExpiresIn := svc.accessExpiresIn,
           RefreshExpiresIn := svc.refreshExpiresIn,
           User := convertToUserInfo user },
      { st with
        store := store2
        loginLogs := LogSuccess auditFails (ent.uuid 1) st.loginLogs user.ID refreshSession1.ID
          req.Platform req.DeviceID })

/-- One `Login` call in flight: its request, its clock reading and its random draws. -/
structure LoginCall where
  req : LoginRequest
  now : Int
  ent : Entropy

/-- Where a `Login` call stands. -/
inductive LoginPc where
  /-- Before `loginLocks.LoadOrStore`. -/
  | start
  /-- It holds the pointer to mutex `m`; `mutex.Lock()` has not returned. -/
  | waiting (m : Nat)
  /-- The call `mutex.Lock()` has returned; the body begins. -/
  | locked (m : Nat)
  /-- Steps 1 to 4 of the body are done. -/
  | prepared (m : Nat) (user : User) (accessToken refreshToken : String)
  /-- The body has returned `result`; the deferred calls are pending. -/
  | finished (m : Nat) (result : Except String LoginResponse)
  /-- The deferred `loginLocks.Delete` has run; the deferred `mutex.Unlock()` is pending. -/
  | unlocking (m : Nat) (result : Except String LoginResponse)
  /-- The call has returned `result`. -/
  | returned (result : Except String LoginResponse)

/-- A call that is between the return of `mutex.Lock()` and its `mutex.Unlock()`. -/
def LoginPc.holdsLock : LoginPc → Bool
  | .locked _ => true
  | .prepared _ _ _ _ => true
  | .finished _ _ => true
  | .unlocking _ _ => true
  | _ => false

/-- A call whose body is running: it has the lock and has not returned from the body. -/
def LoginPc.inBody : LoginPc → Bool
  | .locked _ => true
  | .prepared _ _ _ _ => true
  | _ => false

/-- The user service with `Login` calls in flight: the `loginLocks` map, the mutexes allocated
so far (`true` is locked), the position of each call, and the stores. -/
structure Concurrent where
  loginLocks : String → Option Nat
  mutexes : List Bool
  pcs : List LoginPc
  state : State

/-- One atomic step of call `g`: `LoadOrStore`, `Lock` (no step while the mutex is held), steps
1 to 4 of the body, steps 5 to 7, the deferred `Delete`, the deferred `Unlock` (deferred calls
run last-in first-out). -/
def Concurrent.step (svc : UserService) (calls : List LoginCall) (s : Concurrent) (g : Nat) :
    Concurrent :=
  match calls.get? g, s.pcs.get? g with
  | some call, some .start =>
    match s.loginLocks call.req.Username with
    | some m => { s with pcs := s.pcs.set g (.waiting m) }
    | none =>
      { s with
        loginLocks := Function.update s.loginLocks call.req.Username (some s.mutexes.length)
        mutexes := s.mutexes ++ [false]
        pcs := s.pcs.set g (.waiting s.mutexes.length) }
  | some _, some (.waiting m) =>
    if s.mutexes.getD m true then s
    else { s with mutexes := s.mutexes.set m true, pcs := s.pcs.set g (.locked m) }
  | some call, some (.locked m) =>
    match Login.prepare svc Faults.none false call.now call.ent s.state call.req with
    | (.error e, st1) => { s with state := st1, pcs := s.pcs.set g (.finished m (.error e)) }
    | (.ok (user, accessToken, refreshToken), st1) =>
      { s with state := st1, pcs := s.pcs.set g (.prepared m user accessToken refreshToken) }
  | some call, some (.prepared m user accessToken refreshToken) =>
    match Login.complete svc Faults.none false call.now call.ent s.state call.req user
        accessToken refreshToken with
    | (result, st1) => { s with state := st1, pcs := s.pcs.set g (.finished m result) }
  | some call, some (.finished m result) =>
    { s with
      loginLocks := Function.update s.loginLocks call.req.Username none
      pcs := s.pcs.set g (.unlocking m result) }
  | some _, some (.unlocking m result) =>
    { s with mutexes := s.mutexes.set m false, pcs := s.pcs.set g (.returned result) }
  | _, _ => s

/-- The steps of a schedule, one call index after the other. -/
def Concurrent.run (svc : UserService) (calls : List LoginCall) (schedule : List Nat)
    (s : Concurrent) : Concurrent :=
  schedule.foldl (Concurrent.step svc calls) s

/-- Three logins of `alice`, at instants `10`, `11` and `12`. -/
def threeLogins : List LoginCall :=
  [{ req := loginAlice, now := 10, ent := sampleEntropy "b" },
   { req := loginAlice, now := 11, ent := sampleEntropy "c" },
   { req := loginAlice, now := 12, ent := sampleEntropy "d" }]

/-- The service with `alice` registered, no lock held, and three calls about to start. -/
def threeLoginsStart : Concurrent :=
  { loginLocks := fun _ => none, mutexes := [], pcs := [.start, .start, .start],
    state := registeredState }

/-- A schedule: the first call runs while the second already holds its mutex pointer; after the
first call has deleted the map entry and unlocked, the second call locks the old mutex and the
third call stores and locks a new one. -/
def overlapOpening : List Nat := [0, 1, 0, 0, 0, 0, 0, 1, 2, 2]

/-- The rest of the schedule: the bodies of the second and third call, interleaved, then their
deferred calls. -/
def overlapRest : List Nat := [1, 2, 1, 2, 1, 1, 2, 2]

/-! ## Cache and durable calls that fail -/

/-- The bulk `UPDATE` of `InvalidateAllUserSessions` fails; every other call succeeds. -/
def bulkUpdateFails : Faults := { Faults.none with dbInvalidateAllUserSessions := true }

/-- Every `SADD` fails; every other call succeeds. -/
def indexWriteFails : Faults := { Faults.none with redisSAdd := true }

/-- Every `DEL` fails; every other call succeeds. -/
def deleteFails : Faults := { Faults.none with redisDel := true }

/-- The state after `alice` has registered at instant `0` on empty stores while `SADD` failed:
her two sessions are cached, her index set was not written. -/
def unindexedState : State :=
  (Register sampleService indexWriteFails false 0 (sampleEntropy "a") emptyState registerAlice).2

/-- Draws like `sampleEntropy "c"`, except that the first token nonce is `b` again. -/
def repeatedNonce : Entropy :=
  { sampleEntropy "c" with
    nonce := fun n => if n = 0 then some "b" else (sampleEntropy "c").nonce n }

/-! # Theorems -/

/-! ## Cache keys -/

theorem accessSessionKey_inj {a b : String} : accessSessionKey a = accessSessionKey b ↔ a = b := by
  constructor
  · intro h
    have h1 := congrArg String.data h
    simp only [accessSessionKey, String.data_append, List.append_cancel_left_eq] at h1
    exact String.ext h1
  · rintro rfl; rfl

theorem refreshSessionKey_inj {a b : String} :
    refreshSessionKey a = refreshSessionKey b ↔ a = b := by
  constructor
  · intro h
    have h1 := congrArg String.data h
    simp only [refreshSessionKey, String.data_append, List.append_cancel_left_eq] at h1
    exact String.ext h1
  · rintro rfl; rfl

theorem userSessionsKey_inj {a b : String} : userSessionsKey a = userSessionsKey b ↔ a = b := by
  constructor
  · intro h
    have h1 := congrArg String.data h
    simp only [userSessionsKey, String.data_append, List.append_cancel_left_eq] at h1
    exact String.ext h1
  · rintro rfl; rfl

theorem accessSessionKey_ne_refresh (a b : String) : accessSessionKey a ≠ refreshSessionKey b := by
  intro h
  have h1 := congrArg String.data h
  simp [accessSessionKey, refreshSessionKey, accessSessionPrefix, refreshSessionPrefix] at h1

theorem accessSessionKey_ne_user (a b : String) : accessSessionKey a ≠ userSessionsKey b := by
  intro h
  have h1 := congrArg String.data h
  simp [accessSessionKey, userSessionsKey, accessSessionPrefix, userSessionsPrefix] at h1

theorem refreshSessionKey_ne_user (a b : String) : refreshSessionKey a ≠ userSessionsKey b := by
  intro h
  have h1 := congrArg String.data h
  simp [refreshSessionKey, userSessionsKey, refreshSessionPrefix, userSessionsPrefix] at h1

/-! ## Reading the cache -/

theorem redisGet_session_iff (f : Faults) (r : Redis) (now : Int) (key : String) (s : UserSession) :
    redisGet f r now key = .session s ↔
      f.redisGet = false ∧ ∃ d, r key = some (.json s d) ∧ now < d := by
  unfold redisGet Redis.live
  cases hf : f.redisGet <;> simp
  cases hk : r key with
  | none => simp
  | some v =>
    cases v with
    | json s1 d1 =>
      by_cases hd : now < d1 <;> simp [hd]
      · constructor
        · rintro rfl; exact ⟨d1, ⟨rfl, rfl⟩, hd⟩
        · rintro ⟨d, ⟨h1, _⟩, _⟩; exact h1
      · intro _; omega
    | raw b d1 => by_cases hd : now < d1 <;> simp [hd]
    | set ms => simp

/-- The access-kind lookup: `GetSession token true` returns a session exactly when `GET` on the
access key yields one that is not past its expiry. -/
theorem GetSession_access_ok_iff (f : Faults) (now : Int) (jit : Jitter) (st : Store)
    (token : String) (s : UserSession) :
    (GetSession f now jit st token true).1 = .ok s ↔
      redisGet f st.redis now (accessSessionKey token) = .session s ∧ now ≤ s.ExpiresAt := by
  unfold GetSession
  simp only [if_true]
  cases hg : redisGet f st.redis now (accessSessionKey token) with
  | session s1 =>
    by_cases he : s1.ExpiresAt < now
    · simp only [he, if_true]
      constructor
      · intro h; cases h
      · rintro ⟨h1, h2⟩
        cases h1
        omega
    · simp only [he, if_false]
      constructor
      · intro h
        cases h
        exact ⟨rfl, by omega⟩
      · rintro ⟨h1, _⟩
        cases h1
        rfl
  | junk b => simp [GetSession.miss]
  | missing => simp [GetSession.miss]
  | failed => simp [GetSession.miss]

/-- C1 (as the code has it): when the cache answers, `ValidateToken t` succeeds exactly when the
cache holds, under the access key of `t`, a session whose expiry is not before `now`; the session
returned is the cached one. Neither the session's `IsActive` flag nor the token's signature is
consulted. -/
theorem C1_ValidateToken_iff (f : Faults) (hf : f.redisGet = false) (now : Int) (jit : Jitter)
    (st : State) (t : String) (s : UserSession) :
    (ValidateToken f now jit st t).1 = .ok s ↔
      (∃ d, st.store.redis (accessSessionKey t) = some (.json s d) ∧ now < d) ∧
        now ≤ s.ExpiresAt := by
  have h := GetSession_access_ok_iff f now jit st.store t s
  rw [redisGet_session_iff] at h
  unfold ValidateToken
  cases hg : GetSession f now jit st.store t true with
  | mk res st1 =>
    rw [hg] at h
    cases res with
    | error e =>
      simp only at h ⊢
      constructor
      · intro h1; cases h1
      · intro h1
        exact absurd (h.mpr ⟨⟨hf, h1.1⟩, h1.2⟩) (by simp)
    | ok s1 =>
      simp only at h ⊢
      constructor
      · intro h1
        have := h.mp h1
        exact ⟨this.1.2, this.2⟩
      · intro h1
        exact h.mpr ⟨⟨hf, h1.1⟩, h1.2⟩

/-- C1, witness: the cached sample session validates at instant `5`. -/
theorem C1_ValidateToken_iff_witness :
    (ValidateToken Faults.none 5 jitter0 sampleCache "tokA").1 = .ok sampleAccess ↔
      (∃ d, sampleCache.store.redis (accessSessionKey "tokA") = some (.json sampleAccess d) ∧
        (5 : Int) < d) ∧ (5 : Int) ≤ sampleAccess.ExpiresAt :=
  C1_ValidateToken_iff Faults.none rfl 5 jitter0 sampleCache "tokA" sampleAccess

/-- C1 as stated fails: a cached access session whose `IsActive` flag is `false` (as every access
session built by `Login` is) validates. -/
theorem C1_counterexample :
    (ValidateToken Faults.none 5 jitter0 sampleCache "tokA").1 = .ok sampleAccess ∧
      sampleAccess.IsActive = false := by
  constructor
  · rfl
  · rfl

/-! ## Login failures -/

/-- C5: a login for a username that is unknown and a login for a known username whose password
does not verify both return no response and the same error message. -/
theorem C5_login_failures_indistinguishable (svc : UserService) (f1 f2 : Faults) (a1 a2 : Bool)
    (now1 now2 : Int) (ent1 ent2 : Entropy) (st1 st2 : State) (req1 req2 : LoginRequest)
    (user : User)
    (hunknown : dbGetByUsername st1.users req1.Username = none)
    (hknown : dbGetByUsername st2.users req2.Username = some user)
    (hwrong : svc.lib.compareHashAndPassword user.PasswordHash req2.Password = false) :
    (Login svc f1 a1 now1 ent1 st1 req1).1 = .error "invalid username or password" ∧
      (Login svc f2 a2 now2 ent2 st2 req2).1 = (Login svc f1 a1 now1 ent1 st1 req1).1 := by
  have h1 : (Login svc f1 a1 now1 ent1 st1 req1).1 = .error "invalid username or password" := by
    unfold Login
    rw [hunknown]
  have h2 : (Login svc f2 a2 now2 ent2 st2 req2).1 = .error "invalid username or password" := by
    unfold Login
    rw [hknown]
    simp [hwrong]
  exact ⟨h1, h2.trans h1.symm⟩

/-- C5, witness: `bob` is unknown, `alice` is known and `bad` is not her password. -/
theorem C5_login_failures_indistinguishable_witness :
    (Login sampleService Faults.none false 0 (sampleEntropy "a") aliceState
        { Username := "bob", Password := "pw", Platform := "web", DeviceID := "" }).1
      = .error "invalid username or password" ∧
    (Login sampleService Faults.none false 0 (sampleEntropy "a") aliceState
        { Username := "alice", Password := "bad", Platform := "web", DeviceID := "" }).1
      = (Login sampleService Faults.none false 0 (sampleEntropy "a") aliceState
        { Username := "bob", Password := "pw", Platform := "web", DeviceID := "" }).1 :=
  C5_login_failures_indistinguishable sampleService Faults.none Faults.none false false 0 0
    (sampleEntropy "a") (sampleEntropy "a") aliceState aliceState
    { Username := "bob", Password := "pw", Platform := "web", DeviceID := "" }
    { Username := "alice", Password := "bad", Platform := "web", DeviceID := "" } alice
    (by decide) (by decide) (by decide)

/-- C9: a login for a known user whose password does not verify fails with the generic
credentials error, appends (the audit write succeeding) exactly one audit entry, which carries
the user's id, the request's platform and the reason `invalid password`, and leaves the cache,
the session table and the user table as they were. The stored entry carries `IsSuccess = true`:
`LogFailure` writes `IsSuccess: false`, and the insert replaces that zero value by the default
`true` of the column. -/
theorem C9_wrong_password (svc : UserService) (f : Faults) (now : Int) (ent : Entropy) (st : State)
    (req : LoginRequest) (user : User)
    (hknown : dbGetByUsername st.users req.Username = some user)
    (hwrong : svc.lib.compareHashAndPassword user.PasswordHash req.Password = false) :
    (Login svc f false now ent st req).1 = .error "invalid username or password" ∧
    (Login svc f false now ent st req).2.loginLogs = st.loginLogs ++
      [{ ID := ent.uuid 1, UserID := user.ID, LoginType := "password", Platform := req.Platform,
         DeviceID := if req.DeviceID ≠ "" then some req.DeviceID else none,
         IsSuccess := true, FailureReason := some "invalid password", SessionID := none }] ∧
    (Login svc f false now ent st req).2.store = st.store ∧
    (Login svc f false now ent st req).2.users = st.users := by
  unfold Login
  rw [hknown]
  simp [hwrong, LogFailure, dbCreateLoginLog]

/-- C9, witness: `alice` logs in with the password `bad`; the entry of the failed attempt is
stored with `IsSuccess = true`. -/
theorem C9_wrong_password_witness :
    (Login sampleService Faults.none false 0 (sampleEntropy "a") aliceState
        { Username := "alice", Password := "bad", Platform := "web", DeviceID := "" }).1
      = .error "invalid username or password" ∧
    (Login sampleService Faults.none false 0 (sampleEntropy "a") aliceState
        { Username := "alice", Password := "bad", Platform := "web", DeviceID := "" }).2.loginLogs
      = aliceState.loginLogs ++
      [{ ID := (sampleEntropy "a").uuid 1, UserID := alice.ID, LoginType := "password",
         Platform := "web", DeviceID := if ("" : String) ≠ "" then some "" else none,
         IsSuccess := true, FailureReason := some "invalid password", SessionID := none }] ∧
    (Login sampleService Faults.none false 0 (sampleEntropy "a") aliceState
        { Username := "alice", Password := "bad", Platform := "web", DeviceID := "" }).2.store
      = aliceState.store ∧
    (Login sampleService Faults.none false 0 (sampleEntropy "a") aliceState
        { Username := "alice", Password := "bad", Platform := "web", DeviceID := "" }).2.users
      = aliceState.users :=
  C9_wrong_password sampleService Faults.none 0 (sampleEntropy "a") aliceState
    { Username := "alice", Password := "bad", Platform := "web", DeviceID := "" } alice
    (by decide) (by decide)

/-! ## Audit writes -/

/-- C8: for every store, fault pattern and request, `Login` and `Register` return the same
response or error, and leave the same cache, session table and user table, whether the audit
write `CreateLoginLog` fails or succeeds; `LogSuccess` and `LogFailure` return no error at all. -/
theorem C8_audit_failure_not_propagated (svc : UserService) (f : Faults) (now : Int)
    (ent : Entropy) (st : State) (req : LoginRequest) (reg : RegisterRequest) :
    ((Login svc f true now ent st req).1 = (Login svc f false now ent st req).1 ∧
      (Login svc f true now ent st req).2.store = (Login svc f false now ent st req).2.store ∧
      (Login svc f true now ent st req).2.users = (Login svc f false now ent st req).2.users) ∧
    ((Register svc f true now ent st reg).1 = (Register svc f false now ent st reg).1 ∧
      (Register svc f true now ent st reg).2.store = (Register svc f false now ent st reg).2.store ∧
      (Register svc f true now ent st reg).2.users = (Register svc f false now ent st reg).2.users) := by
  constructor
  · unfold Login
    cases dbGetByUsername st.users req.Username with
    | none => exact ⟨rfl, rfl, rfl⟩
    | some user =>
      simp only []
      cases svc.lib.compareHashAndPassword user.PasswordHash req.Password with
      | false => exact ⟨rfl, rfl, rfl⟩
      | true =>
        simp only [Bool.not_true, Bool.false_eq_true, if_false]
        cases GenerateToken svc.lib now (ent.nonce 0) user.ID user.Username svc.jwtSecret
            svc.accessExpiresIn with
        | error e => exact ⟨rfl, rfl, rfl⟩
        | ok accessToken =>
          simp only []
          cases GenerateToken svc.lib now (ent.nonce 1) user.ID user.Username svc.jwtSecret
              svc.refreshExpiresIn with
          | error e => exact ⟨rfl, rfl, rfl⟩
          | ok refreshToken =>
            simp only []
            split
            · exact ⟨rfl, rfl, rfl⟩
            · exact ⟨rfl, rfl, rfl⟩
  · unfold Register
    simp only []
    split
    · exact ⟨rfl, rfl, rfl⟩
    · split
      · exact ⟨rfl, rfl, rfl⟩
      · exact ⟨rfl, rfl, rfl⟩

/-! ## Cache primitives -/

theorem redisGet_congr (f : Faults) (r1 r2 : Redis) (now : Int) (key : String)
    (h : r1 key = r2 key) : redisGet f r1 now key = redisGet f r2 now key := by
  unfold redisGet Redis.live
  rw [h]

theorem tolerate_redisSet_apply (f : Faults) (r : Redis) (now : Int) (key : String)
    (s : UserSession) (ttl : Int) (k : String) :
    tolerate r (redisSet f r now key s ttl) k =
      if f.redisSet = false ∧ k = key then some (.json s (now + ttl)) else r k := by
  unfold tolerate redisSet
  cases hf : f.redisSet
  · by_cases hk : k = key
    · subst hk; simp
    · simp [hk, Function.update_noteq hk]
  · simp

theorem tolerate_redisDel_apply (f : Faults) (r : Redis) (key : String) (k : String) :
    tolerate r (redisDel f r key) k = if f.redisDel = false ∧ k = key then none else r k := by
  unfold tolerate redisDel
  cases hf : f.redisDel
  · by_cases hk : k = key
    · subst hk; simp
    · simp [hk, Function.update_noteq hk]
  · simp

theorem tolerate_redisSAdd_apply_ne (f : Faults) (r : Redis) (now : Int) (key : String)
    (ms : List String) (k : String) (hk : k ≠ key) :
    tolerate r (redisSAdd f r now key ms) k = r k := by
  unfold tolerate redisSAdd
  cases hf : f.redisSAdd
  · simp only [Bool.false_eq_true, if_false]
    cases r.live now key with
    | none => simp [Function.update_noteq hk]
    | some v =>
      cases v with
      | json s d => simp
      | raw b d => simp
      | set ms1 => simp [Function.update_noteq hk]
  · simp

theorem tolerate_redisSRem_apply_ne (f : Faults) (r : Redis) (now : Int) (key : String)
    (m : String) (k : String) (hk : k ≠ key) :
    tolerate r (redisSRem f r now key m) k = r k := by
  unfold tolerate redisSRem
  cases hf : f.redisSRem
  · simp only [Bool.false_eq_true, if_false]
    cases r.live now key with
    | none => simp
    | some v =>
      cases v with
      | json s d => simp
      | raw b d => simp
      | set ms1 =>
        simp only []
        split <;> simp [Function.update_noteq hk]
  · simp

/-! ## Durable lookups -/

theorem dbGetActiveSession_ok (f : Faults) (rows : List UserSession) (token : String) (now : Int)
    (row : UserSession) (h : dbGetActiveSession f rows token now = .ok row) :
    row ∈ rows ∧ row.SessionToken = token ∧ row.IsActive = true ∧ now < row.ExpiresAt := by
  unfold dbGetActiveSession at h
  cases hf : f.dbGetActiveSession
  · simp only [hf, Bool.false_eq_true, if_false] at h
    cases hfind : rows.find? (fun row =>
        decide (row.SessionToken = token ∧ row.IsActive = true ∧ now < row.ExpiresAt)) with
    | none => rw [hfind] at h; cases h
    | some r =>
      rw [hfind] at h
      cases h
      have h1 := List.find?_some hfind
      have h2 := List.mem_of_find?_eq_some hfind
      simp only [decide_eq_true_eq] at h1
      exact ⟨h2, h1⟩
  · simp [hf] at h

/-! ## Lookups -/

/-- What `GetSession` returns is fixed by what `GET` answers and by the session table. -/
theorem GetSession_fst_congr (f : Faults) (now : Int) (jit1 jit2 : Jitter) (st1 st2 : Store)
    (token : String) (a : Bool)
    (hget : redisGet f st1.redis now (if a then accessSessionKey token else refreshSessionKey token)
      = redisGet f st2.redis now (if a then accessSessionKey token else refreshSessionKey token))
    (hrows : st1.sessions = st2.sessions) :
    (GetSession f now jit1 st1 token a).1 = (GetSession f now jit2 st2 token a).1 := by
  unfold GetSession GetSession.miss
  simp only []
  rw [hget, hrows]
  split
  · split <;> rfl
  · split
    · split
      · rfl
      · split <;> rfl
    · rfl

/-- The session table is not changed by `GetSession`. -/
theorem GetSession_sessions (f : Faults) (now : Int) (jit : Jitter) (st : Store)
    (token : String) (a : Bool) :
    (GetSession f now jit st token a).2.sessions = st.sessions := by
  unfold GetSession GetSession.miss
  simp only []
  split
  · split <;> rfl
  · split
    · split
      · rfl
      · rename_i session hdb
        have := dbGetActiveSession_ok f st.sessions token now session hdb
        split
        · omega
        · rfl
    · rfl

theorem ttlWithJitter_pos (now expiresAt : Int) (draw : Fin 300) :
    0 < ttlWithJitter now expiresAt draw := by
  unfold ttlWithJitter timeSecond
  simp only []
  split
  · decide
  · have := draw.isLt
    omega

/-- The write-back touches the session's own key and the owner's index only. -/
theorem writeBack_apply (f : Faults) (now : Int) (jit : Jitter) (r : Redis) (key : String)
    (session : UserSession) (k : String) (hk : k ≠ userSessionsKey session.UserID) :
    GetSession.writeBack f now jit r key session k =
      if f.redisSet = false ∧ k = key then
        some (.json session (now + ttlWithJitter now session.ExpiresAt (jit 0)))
      else r k := by
  unfold GetSession.writeBack
  rw [tolerate_redisSAdd_apply_ne _ _ _ _ _ _ hk, tolerate_redisSet_apply]

/-- How a refresh-kind lookup can succeed: from the cache, leaving the stores as they are, or from
the durable table, followed by the write-back. -/
theorem GetSession_refresh_ok_cases (f : Faults) (now : Int) (jit : Jitter) (st st1 : Store)
    (token : String) (rs : UserSession)
    (h : GetSession f now jit st token false = (.ok rs, st1)) :
    (redisGet f st.redis now (refreshSessionKey token) = .session rs ∧ now ≤ rs.ExpiresAt ∧
        st1 = st) ∨
    ((∀ s, redisGet f st.redis now (refreshSessionKey token) ≠ .session s) ∧
      dbGetActiveSession f st.sessions token now = .ok rs ∧
      st1 = { st with
        redis := GetSession.writeBack f now jit st.redis (refreshSessionKey token) rs }) := by
  unfold GetSession at h
  simp only [Bool.false_eq_true, if_false] at h
  have hmiss : ∀ (_ : ∀ s, redisGet f st.redis now (refreshSessionKey token) ≠ .session s),
      GetSession.miss f now jit st token false (refreshSessionKey token) = (.ok rs, st1) →
      dbGetActiveSession f st.sessions token now = .ok rs ∧
      st1 = { st with
        redis := GetSession.writeBack f now jit st.redis (refreshSessionKey token) rs } := by
    intro _ hm
    unfold GetSession.miss at hm
    simp only [Bool.not_false, if_true] at hm
    cases hdb : dbGetActiveSession f st.sessions token now with
    | error e => rw [hdb] at hm; cases hm
    | ok session =>
      rw [hdb] at hm
      simp only [] at hm
      by_cases he : session.ExpiresAt < now
      · rw [if_pos he] at hm; cases hm
      · rw [if_neg he] at hm
        cases hm
        exact ⟨rfl, rfl⟩
  cases hg : redisGet f st.redis now (refreshSessionKey token) with
  | session s =>
    rw [hg] at h
    simp only [] at h
    by_cases he : s.ExpiresAt < now
    · rw [if_pos he] at h; cases h
    · rw [if_neg he] at h
      cases h
      left
      exact ⟨rfl, by omega, rfl⟩
  | junk b =>
    rw [hg] at h
    right
    have := hmiss (by intro s hs; rw [hg] at hs; cases hs) h
    exact ⟨(by intro s hs; cases hs), this⟩
  | missing =>
    rw [hg] at h
    right
    have := hmiss (by intro s hs; rw [hg] at hs; cases hs) h
    exact ⟨(by intro s hs; cases hs), this⟩
  | failed =>
    rw [hg] at h
    right
    have := hmiss (by intro s hs; rw [hg] at hs; cases hs) h
    exact ⟨(by intro s hs; cases hs), this⟩

/-- A successful refresh-kind lookup changes nothing that a later lookup can observe: every token
resolves afterwards as it did before. -/
theorem GetSession_refresh_ok_resolves (f : Faults) (now : Int) (jit : Jitter) (st st1 : Store)
    (token : String) (rs : UserSession)
    (h : GetSession f now jit st token false = (.ok rs, st1)) (t : String) (a : Bool)
    (jit1 : Jitter) :
    (GetSession f now jit1 st1 t a).1 = (GetSession f now jit1 st t a).1 := by
  have hrows : st1.sessions = st.sessions := by
    have := GetSession_sessions f now jit st token false
    rw [h] at this
    exact this
  rcases GetSession_refresh_ok_cases f now jit st st1 token rs h with ⟨_, _, h1⟩ | ⟨hnot, hdb, h1⟩
  · rw [h1]
  · by_cases hkey : (if a then accessSessionKey t else refreshSessionKey t) = refreshSessionKey token
    · -- the looked-up token itself
      have ha : a = false := by
        cases a
        · rfl
        · simp only [if_true] at hkey
          exact absurd hkey (accessSessionKey_ne_refresh _ _)
      subst ha
      simp only [Bool.false_eq_true, if_false] at hkey
      have ht : t = token := refreshSessionKey_inj.mp hkey
      subst ht
      have hbefore : (GetSession f now jit1 st t false).1 = .ok rs := by
        have := GetSession_fst_congr f now jit1 jit st st t false rfl rfl
        rw [this, h]
      rw [hbefore]
      have hlive := (dbGetActiveSession_ok f st.sessions t now rs hdb).2.2.2
      have hval : st1.redis (refreshSessionKey t) =
          if f.redisSet = false then
            some (.json rs (now + ttlWithJitter now rs.ExpiresAt (jit 0)))
          else st.redis (refreshSessionKey t) := by
        rw [h1]
        simp only []
        rw [writeBack_apply _ _ _ _ _ _ _ (refreshSessionKey_ne_user _ _)]
        simp
      cases hset : f.redisSet
      · cases hgetf : f.redisGet
        · have hpos := ttlWithJitter_pos now rs.ExpiresAt (jit 0)
          have hg : redisGet f st1.redis now (refreshSessionKey t) = .session rs := by
            rw [redisGet_session_iff]
            refine ⟨hgetf, now + ttlWithJitter now rs.ExpiresAt (jit 0), ?_, ?_⟩
            · rw [hval]; simp [hset]
            · omega
          unfold GetSession
          simp only [Bool.false_eq_true, if_false]
          rw [hg]
          simp only []
          rw [if_neg (by omega)]
        · rw [← hbefore]
          apply GetSession_fst_congr _ _ _ _ _ _ _ _ _ hrows
          simp only [Bool.false_eq_true, if_false]
          unfold redisGet
          simp [hgetf]
      · rw [← hbefore]
        apply GetSession_fst_congr _ _ _ _ _ _ _ _ _ hrows
        simp only [Bool.false_eq_true, if_false]
        apply redisGet_congr
        rw [hval]
        simp [hset]
    · apply GetSession_fst_congr _ _ _ _ _ _ _ _ _ hrows
      apply redisGet_congr
      rw [h1]
      simp only []
      have hne : (if a then accessSessionKey t else refreshSessionKey t) ≠ userSessionsKey rs.UserID := by
        cases a
        · simpa using refreshSessionKey_ne_user _ _
        · simpa using accessSessionKey_ne_user _ _
      rw [writeBack_apply _ _ _ _ _ _ _ hne]
      simp [hkey]

/-! ## Refresh close to expiry -/

/-- C7: when the refresh token parses and its session is found with less than one hour left,
`RefreshToken` returns no response but the fixed error; the stores are those the lookup left:
the session table is unchanged, no access key of the cache is changed, and every token resolves
as before (no session installed, none invalidated). -/
theorem C7_refresh_near_expiry (svc : UserService) (f : Faults) (now : Int) (ent : Entropy)
    (st : State) (r : String) (claims : Claims) (rs : UserSession) (store1 : Store)
    (hparse : ParseToken svc.lib now r svc.jwtSecret = .ok claims)
    (hfound : GetSession f now ent.jitter st.store r false = (.ok rs, store1))
    (hnear : rs.ExpiresAt - now < timeHour) :
    RefreshToken svc f now ent st r =
      (.error "refresh token is about to expire, please login again", { st with store := store1 }) ∧
    store1.sessions = st.store.sessions ∧
    (∀ t, store1.redis (accessSessionKey t) = st.store.redis (accessSessionKey t)) ∧
    (∀ t a jit, (GetSession f now jit store1 t a).1 = (GetSession f now jit st.store t a).1) := by
  refine ⟨?_, ?_, ?_, ?_⟩
  · unfold RefreshToken
    rw [hparse]
    simp only []
    rw [hfound]
    simp only [one_mul]
    rw [if_pos hnear]
  · have := GetSession_sessions f now ent.jitter st.store r false
    rw [hfound] at this
    exact this
  · intro t
    rcases GetSession_refresh_ok_cases f now ent.jitter st.store store1 r rs hfound with
      ⟨_, _, h1⟩ | ⟨_, _, h1⟩
    · rw [h1]
    · rw [h1]
      simp only []
      rw [writeBack_apply _ _ _ _ _ _ _ (accessSessionKey_ne_user _ _)]
      simp [accessSessionKey_ne_refresh]
  · intro t a jit
    exact GetSession_refresh_ok_resolves f now ent.jitter st.store store1 r rs hfound t a jit

/-- C7, witness: at instant `5` the sample refresh session has `95` nanoseconds left. -/
theorem C7_refresh_near_expiry_witness :
    RefreshToken sampleService Faults.none 5 (sampleEntropy "a") sampleRefreshState "refreshA" =
      (.error "refresh token is about to expire, please login again",
        { sampleRefreshState with store := sampleRefreshState.store }) ∧
    sampleRefreshState.store.sessions = sampleRefreshState.store.sessions ∧
    (∀ t, sampleRefreshState.store.redis (accessSessionKey t) =
      sampleRefreshState.store.redis (accessSessionKey t)) ∧
    (∀ t a jit, (GetSession Faults.none 5 jit sampleRefreshState.store t a).1 =
      (GetSession Faults.none 5 jit sampleRefreshState.store t a).1) :=
  C7_refresh_near_expiry sampleService Faults.none 5 (sampleEntropy "a") sampleRefreshState
    "refreshA"
    { UserID := "u1", Username := "alice", Random := "refreshA", ExpiresAt := 0, IssuedAt := 0 }
    sampleRefresh sampleRefreshState.store rfl rfl (by decide)

/-- An access-kind lookup, whatever it returns, changes nothing that a later lookup can observe. -/
theorem GetSession_access_resolves (f : Faults) (now : Int) (jit : Jitter) (st : Store)
    (token : String) (t : String) (a : Bool) (jit1 : Jitter) :
    (GetSession f now jit1 (GetSession f now jit st token true).2 t a).1 =
      (GetSession f now jit1 st t a).1 := by
  have hrows := GetSession_sessions f now jit st token true
  cases hg : redisGet f st.redis now (accessSessionKey token) with
  | session s =>
    by_cases he : s.ExpiresAt < now
    · have hst : (GetSession f now jit st token true).2 =
          { st with redis := tolerate st.redis (redisDel f st.redis (accessSessionKey token)) } := by
        unfold GetSession
        simp only [if_true]
        rw [hg]
        simp only []
        rw [if_pos he]
      rw [hst]
      by_cases hkey : (if a then accessSessionKey t else refreshSessionKey t) = accessSessionKey token
      · have ha : a = true := by
          cases a
          · simp only [Bool.false_eq_true, if_false] at hkey
            exact absurd hkey.symm (accessSessionKey_ne_refresh _ _)
          · rfl
        subst ha
        simp only [if_true] at hkey
        have ht : t = token := accessSessionKey_inj.mp hkey
        subst ht
        have hgetf : f.redisGet = false := ((redisGet_session_iff f st.redis now _ s).mp hg).1
        cases hdel : f.redisDel
        · have hafter : redisGet f (tolerate st.redis (redisDel f st.redis (accessSessionKey t))) now
              (accessSessionKey t) = .missing := by
            unfold redisGet Redis.live
            rw [tolerate_redisDel_apply]
            simp [hgetf, hdel]
          unfold GetSession GetSession.miss
          simp only [if_true]
          rw [hafter, hg]
          simp only []
          rw [if_pos he]
          simp
        · refine GetSession_fst_congr f now jit1 jit1 _ st t true ?_ rfl
          apply redisGet_congr
          simp only [if_true]
          rw [tolerate_redisDel_apply]
          simp [hdel]
      · refine GetSession_fst_congr f now jit1 jit1 _ st t a ?_ rfl
        apply redisGet_congr
        simp only []
        rw [tolerate_redisDel_apply]
        simp [hkey]
    · have hst : (GetSession f now jit st token true).2 = st := by
        unfold GetSession
        simp only [if_true]
        rw [hg]
        simp only []
        rw [if_neg he]
      rw [hst]
  | junk b =>
    have hst : (GetSession f now jit st token true).2 = st := by
      unfold GetSession GetSession.miss
      simp only [if_true]
      rw [hg]
      simp
    rw [hst]
  | missing =>
    have hst : (GetSession f now jit st token true).2 = st := by
      unfold GetSession GetSession.miss
      simp only [if_true]
      rw [hg]
      simp
    rw [hst]
  | failed =>
    have hst : (GetSession f now jit st token true).2 = st := by
      unfold GetSession GetSession.miss
      simp only [if_true]
      rw [hg]
      simp
    rw [hst]

/-- A successful access-kind lookup leaves the stores as they are. -/
theorem GetSession_access_ok_store (f : Faults) (now : Int) (jit : Jitter) (st st1 : Store)
    (token : String) (s : UserSession)
    (h : GetSession f now jit st token true = (.ok s, st1)) : st1 = st := by
  unfold GetSession GetSession.miss at h
  simp only [if_true] at h
  cases hg : redisGet f st.redis now (accessSessionKey token) with
  | session s1 =>
    rw [hg] at h
    simp only [] at h
    by_cases he : s1.ExpiresAt < now
    · rw [if_pos he] at h; cases h
    · rw [if_neg he] at h; cases h; rfl
  | junk b => rw [hg] at h; simp at h
  | missing => rw [hg] at h; simp at h
  | failed => rw [hg] at h; simp at h

/-! ## Token collisions -/

/-- C10: when the access token already resolves to a live access session, or the refresh token
to a live refresh session, `CreateSessionPair` returns an error, leaves the session table as it
was (no durable write), and every token, the colliding one included, resolves afterwards to
the session it resolved to before (nothing is overwritten). -/
theorem C10_collision_rejected (f : Faults) (dup uuid : String) (now : Int) (jit : Jitter)
    (st : Store) (acc rs : UserSession)
    (hlive : (∃ s, (GetSession f now jit st acc.SessionToken true).1 = .ok s) ∨
      (∃ s, (GetSession f now jit st rs.SessionToken false).1 = .ok s)) :
    ((CreateSessionPair f dup uuid now jit st acc rs).1 = some "access session already exists" ∨
      (CreateSessionPair f dup uuid now jit st acc rs).1 = some "refresh session already exists") ∧
    (CreateSessionPair f dup uuid now jit st acc rs).2.1.sessions = st.sessions ∧
    (∀ t a jit1, (GetSession f now jit1 (CreateSessionPair f dup uuid now jit st acc rs).2.1 t a).1 =
      (GetSession f now jit1 st t a).1) := by
  unfold CreateSessionPair
  cases h1 : GetSession f now jit st acc.SessionToken true with
  | mk res1 st1 =>
    cases res1 with
    | ok s1 =>
      have hst := GetSession_access_ok_store f now jit st st1 acc.SessionToken s1 h1
      subst hst
      exact ⟨Or.inl rfl, rfl, fun _ _ _ => rfl⟩
    | error e1 =>
      simp only []
      have hst1 : st1 = (GetSession f now jit st acc.SessionToken true).2 := by rw [h1]
      have hres1 : ∀ t a jit1, (GetSession f now jit1 st1 t a).1 = (GetSession f now jit1 st t a).1 := by
        intro t a jit1
        rw [hst1]
        exact GetSession_access_resolves f now jit st acc.SessionToken t a jit1
      have hrows1 : st1.sessions = st.sessions := by
        rw [hst1]
        exact GetSession_sessions f now jit st acc.SessionToken true
      have hrefresh : ∃ s, (GetSession f now (jit.drop 1) st1 rs.SessionToken false).1 = .ok s := by
        rcases hlive with ⟨s, hs⟩ | ⟨s, hs⟩
        · rw [h1] at hs; cases hs
        · refine ⟨s, ?_⟩
          rw [hres1]
          rw [← hs]
          exact GetSession_fst_congr f now _ _ st st rs.SessionToken false rfl rfl
      cases h2 : GetSession f now (jit.drop 1) st1 rs.SessionToken false with
      | mk res2 st2 =>
        cases res2 with
        | error e2 =>
          rcases hrefresh with ⟨s, hs⟩
          rw [h2] at hs
          cases hs
        | ok s2 =>
          refine ⟨Or.inr rfl, ?_, ?_⟩
          · have := GetSession_sessions f now (jit.drop 1) st1 rs.SessionToken false
            rw [h2] at this
            exact this.trans hrows1
          · intro t a jit1
            rw [GetSession_refresh_ok_resolves f now (jit.drop 1) st1 st2 rs.SessionToken s2 h2]
            exact hres1 t a jit1

/-- C10, witness: a pair whose access token is the cached `tokA` is rejected at instant `5`. -/
theorem C10_collision_rejected_witness :
    ((CreateSessionPair Faults.none "dup" "id" 5 jitter0 sampleCache.store sampleAccess
        sampleRefresh).1 = some "access session already exists" ∨
      (CreateSessionPair Faults.none "dup" "id" 5 jitter0 sampleCache.store sampleAccess
        sampleRefresh).1 = some "refresh session already exists") ∧
    (CreateSessionPair Faults.none "dup" "id" 5 jitter0 sampleCache.store sampleAccess
        sampleRefresh).2.1.sessions = sampleCache.store.sessions ∧
    (∀ t a jit1, (GetSession Faults.none 5 jit1 (CreateSessionPair Faults.none "dup" "id" 5 jitter0
        sampleCache.store sampleAccess sampleRefresh).2.1 t a).1 =
      (GetSession Faults.none 5 jit1 sampleCache.store t a).1) :=
  C10_collision_rejected Faults.none "dup" "id" 5 jitter0 sampleCache.store sampleAccess
    sampleRefresh (Or.inl ⟨sampleAccess, rfl⟩)

/-! ## Consistency is preserved -/

theorem not_isSessionKey_user (u : String) : ¬ isSessionKey (userSessionsKey u) := by
  rintro ⟨t, h | h⟩
  · exact accessSessionKey_ne_user t u h.symm
  · exact refreshSessionKey_ne_user t u h.symm

theorem Inv_empty : Inv { redis := fun _ => none, sessions := [] } where
  indexed := by intro k s d h; cases h
  members := by intro u ms k h; cases h
  typed := by intro u v h; cases h
  durable := by intro t s d h; cases h
  keyed := by intro t s d h; cases h
  kind := by intro row h; cases h
  unique := List.Pairwise.nil

/-- Writing sessions of one user `u` under session keys listed in the index of `u`, and nothing
else, preserves consistency. -/
theorem Inv_write (st : Store) (hInv : Inv st) (r1 : Redis) (u : String) (ms1 : List String)
    (hidx : r1 (userSessionsKey u) = some (.set ms1))
    (hms : ∀ x ∈ ms1, isSessionKey x)
    (hold : ∀ ms x, st.redis (userSessionsKey u) = some (.set ms) → x ∈ ms → x ∈ ms1)
    (hother : ∀ k, k ≠ userSessionsKey u → r1 k = st.redis k ∨
      (isSessionKey k ∧ k ∈ ms1 ∧ ∃ s d, r1 k = some (.json s d) ∧ s.UserID = u ∧
        (∀ t, k = refreshSessionKey t → s.SessionToken = t ∧
          ∃ row ∈ st.sessions, row.SessionToken = t ∧
            row.UserID = s.UserID ∧ row.IsActive = true ∧ row.ExpiresAt = s.ExpiresAt))) :
    Inv { redis := r1, sessions := st.sessions } where
  indexed := by
    intro k s d hk
    simp only [] at hk ⊢
    have hne : k ≠ userSessionsKey u := by
      intro he
      rw [he, hidx] at hk
      cases hk
    have hown : ∀ ms, st.redis (userSessionsKey s.UserID) = some (.set ms) → k ∈ ms →
        ∃ ms2, r1 (userSessionsKey s.UserID) = some (.set ms2) ∧ k ∈ ms2 := by
      intro ms h1 h2
      by_cases hu : s.UserID = u
      · rw [hu] at h1 ⊢
        exact ⟨ms1, hidx, hold ms k h1 h2⟩
      · have hne2 : userSessionsKey s.UserID ≠ userSessionsKey u :=
          fun he => hu (userSessionsKey_inj.mp he)
        rcases hother _ hne2 with h3 | ⟨h3, _⟩
        · exact ⟨ms, by rw [h3]; exact h1, h2⟩
        · exact absurd h3 (not_isSessionKey_user _)
    rcases hother k hne with h1 | ⟨_, h2, s1, d1, h3, h4, _⟩
    · rw [h1] at hk
      rcases hInv.indexed k s d hk with ⟨ms, h5, h6⟩
      exact hown ms h5 h6
    · rw [h3] at hk
      cases hk
      rw [h4]
      exact ⟨ms1, hidx, h2⟩
  members := by
    intro u1 ms k h1 h2
    simp only [] at h1
    by_cases hu : u1 = u
    · rw [hu, hidx] at h1
      cases h1
      exact hms k h2
    · have hne2 : userSessionsKey u1 ≠ userSessionsKey u :=
        fun he => hu (userSessionsKey_inj.mp he)
      rcases hother _ hne2 with h3 | ⟨h3, _⟩
      · rw [h3] at h1
        exact hInv.members u1 ms k h1 h2
      · exact absurd h3 (not_isSessionKey_user _)
  typed := by
    intro u1 v h1
    simp only [] at h1
    by_cases hu : u1 = u
    · rw [hu, hidx] at h1
      cases h1
      exact ⟨ms1, rfl⟩
    · have hne2 : userSessionsKey u1 ≠ userSessionsKey u :=
        fun he => hu (userSessionsKey_inj.mp he)
      rcases hother _ hne2 with h3 | ⟨h3, _⟩
      · rw [h3] at h1
        exact hInv.typed u1 v h1
      · exact absurd h3 (not_isSessionKey_user _)
  durable := by
    intro t s d hk
    simp only [] at hk ⊢
    rcases hother _ (refreshSessionKey_ne_user t u) with h1 | ⟨_, _, s1, d1, h3, _, h5⟩
    · rw [h1] at hk
      exact hInv.durable t s d hk
    · rw [h3] at hk
      cases hk
      exact (h5 t rfl).2
  keyed := by
    intro t s d hk
    simp only [] at hk ⊢
    rcases hother _ (refreshSessionKey_ne_user t u) with h1 | ⟨_, _, s1, d1, h3, _, h5⟩
    · rw [h1] at hk
      exact hInv.keyed t s d hk
    · rw [h3] at hk
      cases hk
      exact (h5 t rfl).1
  kind := hInv.kind
  unique := hInv.unique

/-- Replacing the session table by one that keeps, for every old row, a row with the same token,
owner, flag and expiry preserves consistency. -/
theorem Inv_rows (st : Store) (hInv : Inv st) (rows : List UserSession)
    (hkind : ∀ row ∈ rows, row.SessionType = "refresh")
    (huniq : rows.Pairwise (fun a b => a.SessionToken ≠ b.SessionToken))
    (hkeep : ∀ row ∈ st.sessions, ∃ row1 ∈ rows, row1.SessionToken = row.SessionToken ∧
      row1.UserID = row.UserID ∧ row1.IsActive = row.IsActive ∧ row1.ExpiresAt = row.ExpiresAt) :
    Inv { redis := st.redis, sessions := rows } where
  indexed := hInv.indexed
  members := hInv.members
  typed := hInv.typed
  durable := by
    intro t s d hk
    rcases hInv.durable t s d hk with ⟨row, h1, h2, h3, h4, h5⟩
    rcases hkeep row h1 with ⟨row1, g1, g2, g3, g4, g5⟩
    exact ⟨row1, g1, g2.trans h2, g3.trans h3, g4.trans h4, g5.trans h5⟩
  keyed := hInv.keyed
  kind := hkind
  unique := huniq

/-- Deleting a key that is no index key preserves consistency. -/
theorem Inv_del (st : Store) (hInv : Inv st) (key : String) (hkey : ∀ u, key ≠ userSessionsKey u) :
    Inv { redis := Function.update st.redis key none, sessions := st.sessions } where
  indexed := by
    intro k s d hk
    simp only [] at hk ⊢
    by_cases he : k = key
    · rw [he, Function.update_same] at hk
      cases hk
    · rw [Function.update_noteq he] at hk
      rw [Function.update_noteq (fun h => hkey _ h.symm)]
      exact hInv.indexed k s d hk
  members := by
    intro u ms k h1 h2
    simp only [] at h1
    rw [Function.update_noteq (fun h => hkey _ h.symm)] at h1
    exact hInv.members u ms k h1 h2
  typed := by
    intro u v h1
    simp only [] at h1
    rw [Function.update_noteq (fun h => hkey _ h.symm)] at h1
    exact hInv.typed u v h1
  durable := by
    intro t s d hk
    simp only [] at hk ⊢
    by_cases he : refreshSessionKey t = key
    · rw [← he, Function.update_same] at hk
      cases hk
    · rw [Function.update_noteq he] at hk
      exact hInv.durable t s d hk
  keyed := by
    intro t s d hk
    simp only [] at hk ⊢
    by_cases he : refreshSessionKey t = key
    · rw [← he, Function.update_same] at hk
      cases hk
    · rw [Function.update_noteq he] at hk
      exact hInv.keyed t s d hk
  kind := hInv.kind
  unique := hInv.unique

theorem redisSAdd_none_index (r : Redis) (now : Int) (u : String) (keys : List String)
    (htyped : ∀ v, r (userSessionsKey u) = some v → ∃ ms, v = .set ms) :
    ∃ ms1, tolerate r (redisSAdd Faults.none r now (userSessionsKey u) keys) (userSessionsKey u)
        = some (.set ms1) ∧
      ∀ x, x ∈ ms1 ↔ (x ∈ keys ∨ ∃ ms, r (userSessionsKey u) = some (.set ms) ∧ x ∈ ms) := by
  unfold tolerate redisSAdd Redis.live
  simp only [Faults.none, Bool.false_eq_true, if_false]
  cases hr : r (userSessionsKey u) with
  | none =>
    refine ⟨keys, by simp, ?_⟩
    intro x
    simp
  | some v =>
    rcases htyped v hr with ⟨ms, rfl⟩
    refine ⟨ms ∪ keys, by simp, ?_⟩
    intro x
    simp only [List.mem_union_iff]
    constructor
    · rintro (h | h)
      · exact Or.inr ⟨ms, rfl, h⟩
      · exact Or.inl h
    · rintro (h | ⟨ms2, h1, h2⟩)
      · exact Or.inr h
      · cases h1
        exact Or.inl h2

/-- Overwriting session keys with sessions of one user and then adding those keys to the user's
index preserves consistency. -/
theorem Inv_sadd (st : Store) (hInv : Inv st) (r1 : Redis) (now : Int) (u : String)
    (keys : List String) (hkeys : ∀ k ∈ keys, isSessionKey k)
    (hr1 : ∀ k, r1 k = st.redis k ∨ (k ∈ keys ∧ ∃ s d, r1 k = some (.json s d) ∧ s.UserID = u ∧
        (∀ t, k = refreshSessionKey t → s.SessionToken = t ∧
          ∃ row ∈ st.sessions, row.SessionToken = t ∧
            row.UserID = s.UserID ∧ row.IsActive = true ∧ row.ExpiresAt = s.ExpiresAt))) :
    Inv { redis := tolerate r1 (redisSAdd Faults.none r1 now (userSessionsKey u) keys),
          sessions := st.sessions } := by
  have hsame : r1 (userSessionsKey u) = st.redis (userSessionsKey u) := by
    rcases hr1 (userSessionsKey u) with h | ⟨h, _⟩
    · exact h
    · exact absurd (hkeys _ h) (not_isSessionKey_user u)
  have htyped : ∀ v, r1 (userSessionsKey u) = some v → ∃ ms, v = .set ms := by
    intro v hv
    rw [hsame] at hv
    exact hInv.typed u v hv
  rcases redisSAdd_none_index r1 now u keys htyped with ⟨ms1, h1, h2⟩
  refine Inv_write st hInv _ u ms1 h1 ?_ ?_ ?_
  · intro x hx
    rcases (h2 x).mp hx with h | ⟨ms, h3, h4⟩
    · exact hkeys x h
    · rw [hsame] at h3
      exact hInv.members u ms x h3 h4
  · intro ms x h3 h4
    exact (h2 x).mpr (Or.inr ⟨ms, by rw [hsame]; exact h3, h4⟩)
  · intro k hk
    rw [tolerate_redisSAdd_apply_ne _ _ _ _ _ _ hk]
    rcases hr1 k with h | ⟨h3, h4⟩
    · exact Or.inl h
    · exact Or.inr ⟨hkeys k h3, (h2 k).mpr (Or.inl h3), h4⟩

/-- Replacing a cached session by one with the same owner and expiry preserves consistency. -/
theorem Inv_replace (st : Store) (hInv : Inv st) (k : String) (s s1 : UserSession) (d d1 : Int)
    (hk : st.redis k = some (.json s d)) (hU : s1.UserID = s.UserID)
    (hE : s1.ExpiresAt = s.ExpiresAt) (hT : s1.SessionToken = s.SessionToken) :
    Inv { redis := Function.update st.redis k (some (.json s1 d1)), sessions := st.sessions } := by
  rcases hInv.indexed k s d hk with ⟨ms, h1, h2⟩
  have hne : k ≠ userSessionsKey s.UserID := by
    intro he
    rw [he, h1] at hk
    cases hk
  refine Inv_write st hInv _ s.UserID ms ?_ ?_ ?_ ?_
  · rw [Function.update_noteq (Ne.symm hne)]
    exact h1
  · intro x hx
    exact hInv.members _ ms x h1 hx
  · intro ms2 x h3 h4
    rw [h1] at h3
    cases h3
    exact h4
  · intro k1 _
    by_cases he : k1 = k
    · subst he
      refine Or.inr ⟨hInv.members _ ms k1 h1 h2, h2, s1, d1, by simp, hU, ?_⟩
      intro t ht
      subst ht
      rcases hInv.durable t s d hk with ⟨row, g1, g2, g3, g4, g5⟩
      exact ⟨hT.trans (hInv.keyed t s d hk),
        row, g1, g2, by rw [hU]; exact g3, g4, by rw [hE]; exact g5⟩
    · exact Or.inl (Function.update_noteq he _ _)

theorem foldl_redisDel_apply (keys : List String) (r : Redis) (k : String) :
    (keys.foldl (fun r key => tolerate r (redisDel Faults.none r key)) r) k =
      if k ∈ keys then none else r k := by
  induction keys generalizing r with
  | nil => simp
  | cons key rest ih =>
    simp only [List.foldl_cons, List.mem_cons]
    rw [ih, tolerate_redisDel_apply]
    by_cases h1 : k ∈ rest
    · simp [h1]
    · by_cases h2 : k = key
      · simp [h1, h2, Faults.none]
      · simp [h1, h2]

theorem redisSMembers_none (st : Store) (hInv : Inv st) (now : Int) (u : String) :
    redisSMembers Faults.none st.redis now (userSessionsKey u) = some (indexMembers st.redis u) := by
  unfold redisSMembers Redis.live indexMembers
  simp only [Faults.none, Bool.false_eq_true, if_false]
  cases hr : st.redis (userSessionsKey u) with
  | none => rfl
  | some v =>
    rcases hInv.typed u v hr with ⟨ms, rfl⟩
    rfl

theorem InvalidateAllUserSessions_none (st : Store) (hInv : Inv st) (now : Int) (u : String)
    (invalidateDB : Bool) :
    InvalidateAllUserSessions Faults.none now st u invalidateDB =
      (none, { redis := purge st.redis u,
               sessions := if invalidateDB then
                   st.sessions.map (fun row =>
                     if row.UserID = u ∧ row.IsActive = true then { row with IsActive := false }
                     else row)
                 else st.sessions }) := by
  unfold InvalidateAllUserSessions
  simp only []
  rw [redisSMembers_none st hInv]
  simp only []
  have hr : tolerate (List.foldl (fun r key => tolerate r (redisDel Faults.none r key)) st.redis
        (indexMembers st.redis u))
      (redisDel Faults.none (List.foldl (fun r key => tolerate r (redisDel Faults.none r key))
        st.redis (indexMembers st.redis u)) (userSessionsKey u)) = purge st.redis u := by
    funext k
    rw [tolerate_redisDel_apply, foldl_redisDel_apply]
    unfold purge
    by_cases h1 : k = userSessionsKey u
    · simp [h1, Faults.none]
    · simp [h1]
  rw [hr]
  cases invalidateDB
  · rfl
  · simp [dbInvalidateAllUserSessions, Faults.none]

/-- After the purge no cached session belongs to the purged user. -/
theorem purge_owner (st : Store) (hInv : Inv st) (u : String) (k : String) (s : UserSession)
    (d : Int) (h : purge st.redis u k = some (.json s d)) :
    st.redis k = some (.json s d) ∧ s.UserID ≠ u := by
  unfold purge at h
  by_cases hc : k = userSessionsKey u ∨ k ∈ indexMembers st.redis u
  · rw [if_pos hc] at h
    cases h
  · rw [if_neg hc] at h
    refine ⟨h, ?_⟩
    intro hu
    rcases hInv.indexed k s d h with ⟨ms, h1, h2⟩
    apply hc
    right
    unfold indexMembers
    rw [← hu, h1]
    exact h2

theorem purge_index_ne (st : Store) (hInv : Inv st) (u u1 : String) (hne : u1 ≠ u) :
    purge st.redis u (userSessionsKey u1) = st.redis (userSessionsKey u1) := by
  unfold purge
  rw [if_neg]
  rintro (h | h)
  · exact hne (userSessionsKey_inj.mp h)
  · unfold indexMembers at h
    cases hr : st.redis (userSessionsKey u) with
    | none => rw [hr] at h; cases h
    | some v =>
      rcases hInv.typed u v hr with ⟨ms, rfl⟩
      rw [hr] at h
      exact not_isSessionKey_user u1 (hInv.members u ms _ hr h)

/-- The purge of one user's cached sessions, with or without the durable update, preserves
consistency. -/
theorem Inv_purge (st : Store) (hInv : Inv st) (u : String) (invalidateDB : Bool) :
    Inv { redis := purge st.redis u,
          sessions := if invalidateDB then
              st.sessions.map (fun row =>
                if row.UserID = u ∧ row.IsActive = true then { row with IsActive := false }
                else row)
            else st.sessions } where
  indexed := by
    intro k s d hk
    simp only [] at hk ⊢
    rcases purge_owner st hInv u k s d hk with ⟨h1, h2⟩
    rcases hInv.indexed k s d h1 with ⟨ms, h3, h4⟩
    refine ⟨ms, ?_, h4⟩
    rw [purge_index_ne st hInv u s.UserID h2]
    exact h3
  members := by
    intro u1 ms k h1 h2
    simp only [] at h1
    unfold purge at h1
    split at h1
    · cases h1
    · exact hInv.members u1 ms k h1 h2
  typed := by
    intro u1 v h1
    simp only [] at h1
    unfold purge at h1
    split at h1
    · cases h1
    · exact hInv.typed u1 v h1
  durable := by
    intro t s d hk
    simp only [] at hk ⊢
    rcases purge_owner st hInv u _ s d hk with ⟨h1, h2⟩
    rcases hInv.durable t s d h1 with ⟨row, g1, g2, g3, g4, g5⟩
    refine ⟨row, ?_, g2, g3, g4, g5⟩
    cases invalidateDB
    · exact g1
    · simp only [if_true]
      rw [List.mem_map]
      refine ⟨row, g1, ?_⟩
      rw [if_neg]
      rintro ⟨h5, _⟩
      exact h2 (g3.symm.trans h5)
  keyed := by
    intro t s d hk
    simp only [] at hk
    exact hInv.keyed t s d (purge_owner st hInv u _ s d hk).1
  kind := by
    intro row hrow
    simp only [] at hrow
    cases invalidateDB
    · exact hInv.kind row hrow
    · simp only [if_true] at hrow
      rw [List.mem_map] at hrow
      rcases hrow with ⟨row0, h1, h2⟩
      have := hInv.kind row0 h1
      split at h2
      · rw [← h2]; exact this
      · rw [← h2]; exact this
  unique := by
    cases invalidateDB
    · exact hInv.unique
    · simp only [if_true]
      rw [List.pairwise_map]
      refine hInv.unique.imp ?_
      intro a b hab
      split <;> split <;> exact hab

theorem isSessionKey_kind (token : String) (a : Bool) :
    isSessionKey (if a then accessSessionKey token else refreshSessionKey token) := by
  cases a
  · exact ⟨token, Or.inr rfl⟩
  · exact ⟨token, Or.inl rfl⟩

/-- The write-back of an active row preserves consistency. -/
theorem Inv_writeBack (st : Store) (hInv : Inv st) (now : Int) (jit : Jitter) (token : String)
    (session : UserSession) (hrow : session ∈ st.sessions) (htok : session.SessionToken = token)
    (hact : session.IsActive = true) :
    Inv { redis := GetSession.writeBack Faults.none now jit st.redis (refreshSessionKey token) session,
          sessions := st.sessions } := by
  unfold GetSession.writeBack
  refine Inv_sadd st hInv _ now session.UserID [refreshSessionKey token] ?_ ?_
  · intro k hk
    simp only [List.mem_singleton] at hk
    exact ⟨token, Or.inr hk⟩
  · intro k
    rw [tolerate_redisSet_apply]
    by_cases hk : k = refreshSessionKey token
    · right
      refine ⟨by simp [hk], session, now + ttlWithJitter now session.ExpiresAt (jit 0),
        by simp [hk, Faults.none], rfl, ?_⟩
      intro t ht
      rw [hk] at ht
      have := refreshSessionKey_inj.mp ht
      subst this
      exact ⟨htok, session, hrow, htok, rfl, hact, rfl⟩
    · left
      simp [hk]

/-- Lookups preserve consistency. -/
theorem GetSession_Inv (st : Store) (hInv : Inv st) (now : Int) (jit : Jitter) (token : String)
    (a : Bool) : Inv (GetSession Faults.none now jit st token a).2 := by
  unfold GetSession GetSession.miss
  simp only []
  split
  · split
    · refine Inv_del st hInv _ ?_
      intro u he
      exact not_isSessionKey_user u (he ▸ isSessionKey_kind token a)
    · exact hInv
  · split
    · split
      · exact hInv
      · rename_i session hdb
        have hok := dbGetActiveSession_ok Faults.none st.sessions token now session hdb
        split
        · omega
        · have ha : a = false := by
            cases a
            · rfl
            · rename_i h1 h2 h3
              simp at h3
          subst ha
          exact Inv_writeBack st hInv now jit token session hok.1 hok.2.1 hok.2.2.1
    · exact hInv

/-- After a successful refresh-kind lookup the cache holds the session under the refresh key. -/
theorem GetSession_refresh_ok_cached (st st1 : Store) (now : Int) (jit : Jitter) (token : String)
    (rs : UserSession) (h : GetSession Faults.none now jit st token false = (.ok rs, st1)) :
    ∃ d, st1.redis (refreshSessionKey token) = some (.json rs d) ∧ now < d := by
  rcases GetSession_refresh_ok_cases Faults.none now jit st st1 token rs h with
    ⟨h1, _, h2⟩ | ⟨_, _, h2⟩
  · rw [h2]
    exact ((redisGet_session_iff _ _ _ _ _).mp h1).2
  · rw [h2]
    refine ⟨now + ttlWithJitter now rs.ExpiresAt (jit 0), ?_, ?_⟩
    · simp only []
      rw [writeBack_apply _ _ _ _ _ _ _ (refreshSessionKey_ne_user _ _)]
      simp [Faults.none]
    · have := ttlWithJitter_pos now rs.ExpiresAt (jit 0)
      omega

/-! ## The durable write -/

theorem dbCreateSession_spec (injected : Option String) (dup uuid : String)
    (rows : List UserSession) (s : UserSession) :
    (dbCreateSession injected dup uuid rows s).2.2 = sessionDefaults uuid s ∧
    (((dbCreateSession injected dup uuid rows s).1 = none ∧
        (dbCreateSession injected dup uuid rows s).2.1 =
          rows ++ [{ sessionDefaults uuid s with AccessToken := "" }] ∧
        ∀ row ∈ rows, row.SessionToken ≠ s.SessionToken) ∨
      ((dbCreateSession injected dup uuid rows s).1 ≠ none ∧
        (dbCreateSession injected dup uuid rows s).2.1 = rows)) := by
  unfold dbCreateSession
  cases injected with
  | some e => exact ⟨rfl, Or.inr ⟨by simp, rfl⟩⟩
  | none =>
    simp only []
    split
    · exact ⟨rfl, Or.inr ⟨by simp, rfl⟩⟩
    · rename_i h
      refine ⟨rfl, Or.inl ⟨rfl, rfl, ?_⟩⟩
      intro row hrow he
      apply h
      rw [List.any_eq_true]
      exact ⟨row, hrow, by simp [he, sessionDefaults]⟩

/-- What the durable-write loop returns: on success the table has gained one row, the record as
`gorm` left it (without `AccessToken`), whose token was not in the table; on an error the table
is unchanged. The record keeps its token, owner, expiry and a non-empty kind. -/
theorem persist_spec (f : Faults) (dup uuid : String) (fuel i : Nat) (rows : List UserSession)
    (s : UserSession) (e0 : Option String) :
    (((CreateSessionPair.persist f dup uuid fuel i rows s e0).1 = none ∧
        ((fuel = 0 ∧ e0 = none ∧ (CreateSessionPair.persist f dup uuid fuel i rows s e0).2.1 = rows) ∨
          ((CreateSessionPair.persist f dup uuid fuel i rows s e0).2.1 =
              rows ++ [{ (CreateSessionPair.persist f dup uuid fuel i rows s e0).2.2 with
                AccessToken := "" }] ∧
            (∀ row ∈ rows, row.SessionToken ≠ s.SessionToken) ∧
            (CreateSessionPair.persist f dup uuid fuel i rows s e0).2.2.IsActive = true))) ∨
      ((CreateSessionPair.persist f dup uuid fuel i rows s e0).1 ≠ none ∧
        (CreateSessionPair.persist f dup uuid fuel i rows s e0).2.1 = rows)) ∧
    (CreateSessionPair.persist f dup uuid fuel i rows s e0).2.2.SessionToken = s.SessionToken ∧
    (CreateSessionPair.persist f dup uuid fuel i rows s e0).2.2.UserID = s.UserID ∧
    (CreateSessionPair.persist f dup uuid fuel i rows s e0).2.2.ExpiresAt = s.ExpiresAt ∧
    (s.SessionType ≠ "" →
      (CreateSessionPair.persist f dup uuid fuel i rows s e0).2.2.SessionType = s.SessionType) := by
  induction fuel generalizing i rows s e0 with
  | zero =>
    have hp : CreateSessionPair.persist f dup uuid 0 i rows s e0 = (e0, rows, s) := rfl
    rw [hp]
    refine ⟨?_, rfl, rfl, rfl, fun _ => rfl⟩
    cases e0 with
    | none => exact Or.inl ⟨rfl, Or.inl ⟨rfl, rfl, rfl⟩⟩
    | some e => exact Or.inr ⟨by simp, rfl⟩
  | succ n ih =>
    have hdb := dbCreateSession_spec (f.dbCreateSession i) dup uuid rows s
    have hdef : ∀ (s1 : UserSession), s1 = sessionDefaults uuid s →
        s1.SessionToken = s.SessionToken ∧ s1.UserID = s.UserID ∧ s1.ExpiresAt = s.ExpiresAt ∧
        s1.IsActive = true ∧ (s.SessionType ≠ "" → s1.SessionType = s.SessionType) := by
      intro s1 h1
      subst h1
      refine ⟨rfl, rfl, rfl, rfl, ?_⟩
      intro hne
      simp [sessionDefaults, hne]
    cases h : dbCreateSession (f.dbCreateSession i) dup uuid rows s with
    | mk e rest =>
      cases rest with
      | mk rows1 s1 =>
        rw [h] at hdb
        simp only [] at hdb
        rcases hdef s1 hdb.1 with ⟨d1, d2, d3, d4, d5⟩
        cases e with
        | none =>
          have hp : CreateSessionPair.persist f dup uuid (n + 1) i rows s e0 = (none, rows1, s1) := by
            simp only [CreateSessionPair.persist, h]
          rw [hp]
          refine ⟨Or.inl ⟨rfl, Or.inr ?_⟩, d1, d2, d3, d5⟩
          rcases hdb.2 with ⟨_, h2, h3⟩ | ⟨h2, _⟩
          · refine ⟨?_, h3, d4⟩
            rw [h2, hdb.1]
          · exact absurd rfl h2
        | some e =>
          have hrows1 : rows1 = rows := by
            rcases hdb.2 with ⟨h2, _⟩ | ⟨_, h2⟩
            · cases h2
            · exact h2
          subst hrows1
          have hp : CreateSessionPair.persist f dup uuid (n + 1) i rows1 s e0 =
              if IsDuplicateError (some e) then (some e, rows1, s1)
              else CreateSessionPair.persist f dup uuid n (i + 1) rows1 s1 (some e) := by
            simp only [CreateSessionPair.persist, h]
          rw [hp]
          split
          · exact ⟨Or.inr ⟨by simp, rfl⟩, d1, d2, d3, d5⟩
          · have ih1 := ih (i + 1) rows1 s1 (some e)
            rcases ih1 with ⟨ih2, g1, g2, g3, g4⟩
            refine ⟨?_, g1.trans d1, g2.trans d2, g3.trans d3, ?_⟩
            · rcases ih2 with ⟨k1, k2⟩ | k1
              · left
                refine ⟨k1, Or.inr ?_⟩
                rcases k2 with ⟨_, k3, _⟩ | ⟨k3, k4, k5⟩
                · cases k3
                · exact ⟨k3, by rw [← d1]; exact k4, k5⟩
              · exact Or.inr k1
            · intro hne
              have := d5 hne
              rw [g4 (by rw [this]; exact hne), this]

/-- How `CreateSessionPair` ends: with an error and the stores as the two lookups left them, or
with success, one new row in the session table and the two sessions in the cache. The refresh
record keeps its token, owner, expiry and kind. -/
theorem CreateSessionPair_cases (f : Faults) (dup uuid : String) (now : Int) (jit : Jitter)
    (st : Store) (acc rs : UserSession) :
    (((CreateSessionPair f dup uuid now jit st acc rs).1 ≠ none ∧
        ((CreateSessionPair f dup uuid now jit st acc rs).2.1 =
            (GetSession f now jit st acc.SessionToken true).2 ∨
          (CreateSessionPair f dup uuid now jit st acc rs).2.1 =
            (GetSession f now (jit.drop 1) (GetSession f now jit st acc.SessionToken true).2
              rs.SessionToken false).2)) ∨
      ((CreateSessionPair f dup uuid now jit st acc rs).1 = none ∧
        (CreateSessionPair f dup uuid now jit st acc rs).2.1 =
          { redis := CreateSessionPair.cache f now jit
              (GetSession f now (jit.drop 1) (GetSession f now jit st acc.SessionToken true).2
                rs.SessionToken false).2.redis acc
              (CreateSessionPair f dup uuid now jit st acc rs).2.2,
            sessions := st.sessions ++
              [{ (CreateSessionPair f dup uuid now jit st acc rs).2.2 with AccessToken := "" }] } ∧
        (∀ row ∈ st.sessions, row.SessionToken ≠ rs.SessionToken) ∧
        (CreateSessionPair f dup uuid now jit st acc rs).2.2.IsActive = true)) ∧
    (CreateSessionPair f dup uuid now jit st acc rs).2.2.SessionToken = rs.SessionToken ∧
    (CreateSessionPair f dup uuid now jit st acc rs).2.2.UserID = rs.UserID ∧
    (CreateSessionPair f dup uuid now jit st acc rs).2.2.ExpiresAt = rs.ExpiresAt ∧
    (rs.SessionType ≠ "" →
      (CreateSessionPair f dup uuid now jit st acc rs).2.2.SessionType = rs.SessionType) := by
  unfold CreateSessionPair
  cases h1 : GetSession f now jit st acc.SessionToken true with
  | mk res1 st1 =>
    have hrows1 : st1.sessions = st.sessions := by
      have := GetSession_sessions f now jit st acc.SessionToken true
      rw [h1] at this
      exact this
    cases res1 with
    | ok s1 => exact ⟨Or.inl ⟨by simp, Or.inl rfl⟩, rfl, rfl, rfl, fun _ => rfl⟩
    | error e1 =>
      simp only []
      cases h2 : GetSession f now (jit.drop 1) st1 rs.SessionToken false with
      | mk res2 st2 =>
        have hrows2 : st2.sessions = st.sessions := by
          have := GetSession_sessions f now (jit.drop 1) st1 rs.SessionToken false
          rw [h2] at this
          exact this.trans hrows1
        cases res2 with
        | ok s2 => exact ⟨Or.inl ⟨by simp, Or.inr rfl⟩, rfl, rfl, rfl, fun _ => rfl⟩
        | error e2 =>
          simp only []
          have hp := persist_spec f dup uuid 2 0 st2.sessions rs none
          cases h3 : CreateSessionPair.persist f dup uuid 2 0 st2.sessions rs none with
          | mk e rest =>
            cases rest with
            | mk rows rs1 =>
              rw [h3] at hp
              simp only [] at hp
              rcases hp with ⟨hp1, g1, g2, g3, g4⟩
              cases e with
              | some e =>
                refine ⟨Or.inl ⟨by simp, Or.inr ?_⟩, g1, g2, g3, g4⟩
                rcases hp1 with ⟨k1, _⟩ | ⟨_, k2⟩
                · cases k1
                · simp only []
                  rw [k2]
              | none =>
                refine ⟨Or.inr ⟨rfl, ?_⟩, g1, g2, g3, g4⟩
                rcases hp1 with ⟨_, k2⟩ | ⟨k1, _⟩
                · rcases k2 with ⟨k3, _⟩ | ⟨k3, k4, k5⟩
                  · cases k3
                  · simp only []
                    rw [hrows2] at k3 k4
                    exact ⟨by rw [k3], k4, k5⟩
                · exact absurd rfl k1

/-- Writing a session pair of one user, whose refresh half has an active row, preserves
consistency. -/
theorem Inv_CreateSessionPair_cache (st : Store) (hInv : Inv st) (now : Int) (jit : Jitter)
    (acc rs : UserSession) (hU : rs.UserID = acc.UserID)
    (hrow : ∃ row ∈ st.sessions, row.SessionToken = rs.SessionToken ∧ row.UserID = rs.UserID ∧
      row.IsActive = true ∧ row.ExpiresAt = rs.ExpiresAt) :
    Inv { redis := CreateSessionPair.cache Faults.none now jit st.redis acc rs,
          sessions := st.sessions } := by
  unfold CreateSessionPair.cache
  refine Inv_sadd st hInv _ now acc.UserID
    [accessSessionKey acc.SessionToken, refreshSessionKey rs.SessionToken] ?_ ?_
  · intro k hk
    simp only [List.mem_cons, List.mem_singleton, List.not_mem_nil, or_false] at hk
    rcases hk with hk | hk
    · exact ⟨_, Or.inl hk⟩
    · exact ⟨_, Or.inr hk⟩
  · intro k
    rw [tolerate_redisSet_apply, tolerate_redisSet_apply]
    by_cases hk2 : k = refreshSessionKey rs.SessionToken
    · right
      refine ⟨by simp [hk2], rs, now + ttlWithJitter now rs.ExpiresAt (jit 3),
        by simp [hk2, Faults.none], hU, ?_⟩
      intro t ht
      rw [hk2] at ht
      have := refreshSessionKey_inj.mp ht
      subst this
      exact ⟨rfl, hrow⟩
    · by_cases hk1 : k = accessSessionKey acc.SessionToken
      · right
        refine ⟨by simp [hk1], acc, now + ttlWithJitter now acc.ExpiresAt (jit 2),
          by simp [hk1, Faults.none, accessSessionKey_ne_refresh], rfl, ?_⟩
        intro t ht
        rw [hk1] at ht
        exact absurd ht (accessSessionKey_ne_refresh _ _)
      · left
        simp [hk1, hk2]

/-- Under fault-free stores `CreateSessionPair` preserves consistency, for a pair of one user
whose refresh half is of kind refresh. -/
theorem CreateSessionPair_Inv (st : Store) (hInv : Inv st) (dup uuid : String) (now : Int)
    (jit : Jitter) (acc rs : UserSession) (hU : rs.UserID = acc.UserID)
    (hT : rs.SessionType = "refresh") :
    Inv (CreateSessionPair Faults.none dup uuid now jit st acc rs).2.1 := by
  have hInv1 := GetSession_Inv st hInv now jit acc.SessionToken true
  have hInv2 := GetSession_Inv _ hInv1 now (jit.drop 1) rs.SessionToken false
  have hrows2 : (GetSession Faults.none now (jit.drop 1)
      (GetSession Faults.none now jit st acc.SessionToken true).2 rs.SessionToken false).2.sessions
      = st.sessions := by
    rw [GetSession_sessions, GetSession_sessions]
  have hc := CreateSessionPair_cases Faults.none dup uuid now jit st acc rs
  generalize CreateSessionPair Faults.none dup uuid now jit st acc rs = out at hc ⊢
  generalize (GetSession Faults.none now (jit.drop 1)
      (GetSession Faults.none now jit st acc.SessionToken true).2 rs.SessionToken false).2 = st2
    at hc hInv2 hrows2
  rcases hc with ⟨⟨_, h2 | h2⟩ | ⟨_, h2, h3, h4⟩, g1, g2, g3, g4⟩
  · rw [h2]; exact hInv1
  · rw [h2]; exact hInv2
  · rw [h2]
    have hT1 := g4 (by rw [hT]; decide)
    have hrowsInv : Inv
        { redis := st2.redis
          sessions := st.sessions ++ [{ out.2.snd with AccessToken := "" }] } := by
      refine Inv_rows _ hInv2 _ ?_ ?_ ?_
      · intro row hrow
        rw [List.mem_append, List.mem_singleton] at hrow
        rcases hrow with hrow | hrow
        · exact hInv.kind row hrow
        · rw [hrow]
          simp only []
          rw [hT1, hT]
      · rw [List.pairwise_append]
        refine ⟨hInv.unique, List.pairwise_singleton _ _, ?_⟩
        intro a ha b hb
        rw [List.mem_singleton] at hb
        rw [hb]
        simp only []
        rw [g1]
        exact h3 a ha
      · intro row hrow
        rw [hrows2] at hrow
        exact ⟨row, List.mem_append_left _ hrow, rfl, rfl, rfl, rfl⟩
    refine Inv_CreateSessionPair_cache _ hrowsInv now jit acc _ (g2.trans hU) ?_
    exact ⟨_, List.mem_append_right _ (List.mem_singleton_self _), rfl, rfl, h4, rfl⟩

theorem tolerate_redisSet_none (r : Redis) (now : Int) (k : String) (s : UserSession) (ttl : Int) :
    tolerate r (redisSet Faults.none r now k s ttl) =
      Function.update r k (some (.json s (now + ttl))) := rfl

/-- The durable update of a refresh session keeps every row's token, owner, flag, expiry and
kind, so it preserves consistency. -/
theorem Inv_dbUpdateRefreshSession (st : Store) (hInv : Inv st) (f : Faults)
    (refreshToken newAccessToken : String) (t : Int) :
    Inv { redis := st.redis,
          sessions := (dbUpdateRefreshSession f st.sessions refreshToken newAccessToken t).2 } := by
  unfold dbUpdateRefreshSession
  cases f.dbUpdateRefreshSession
  · simp only [Bool.false_eq_true, if_false]
    have hrows : ∀ (e1 e2 : Option String) (rows : List UserSession) (c : Prop) [Decidable c],
        (if c then (e1, rows) else (e2, rows)).2 = rows := by
      intro e1 e2 rows c _
      split <;> rfl
    rw [hrows]
    refine Inv_rows st hInv _ ?_ ?_ ?_
    · intro row hrow
      rw [List.mem_map] at hrow
      rcases hrow with ⟨row0, h1, h2⟩
      have := hInv.kind row0 h1
      split at h2
      · rw [← h2]; exact this
      · rw [← h2]; exact this
    · rw [List.pairwise_map]
      refine hInv.unique.imp ?_
      intro a b hab
      split <;> split <;> exact hab
    · intro row hrow
      refine ⟨_, List.mem_map_of_mem _ hrow, ?_⟩
      split <;> exact ⟨rfl, rfl, rfl, rfl⟩
  · exact hInv

/-- Under fault-free stores `RefreshSession` preserves consistency. -/
theorem RefreshSession_Inv (st : Store) (hInv : Inv st) (now : Int) (jit : Jitter)
    (acc : UserSession) (refreshToken : String) :
    Inv (RefreshSession Faults.none now jit st acc refreshToken).2 := by
  unfold RefreshSession
  have hInv1 := GetSession_Inv st hInv now jit acc.SessionToken true
  cases h1 : GetSession Faults.none now jit st acc.SessionToken true with
  | mk res1 st1 =>
    rw [h1] at hInv1
    cases res1 with
    | ok s1 => exact hInv1
    | error e1 =>
      simp only []
      have hInv2 := GetSession_Inv st1 hInv1 now (jit.drop 1) refreshToken false
      cases h2 : GetSession Faults.none now (jit.drop 1) st1 refreshToken false with
      | mk res2 st2 =>
        rw [h2] at hInv2
        cases res2 with
        | error e2 => exact hInv2
        | ok existing =>
          simp only []
          have hrowsInv := Inv_dbUpdateRefreshSession st2 hInv2 Faults.none refreshToken
            acc.SessionToken now
          cases h3 : dbUpdateRefreshSession Faults.none st2.sessions refreshToken
              acc.SessionToken now with
          | mk e rows =>
            rw [h3] at hrowsInv
            cases e with
            | some e => exact hrowsInv
            | none =>
              simp only []
              rcases GetSession_refresh_ok_cached st1 st2 now (jit.drop 1) refreshToken existing h2
                with ⟨d, hd, _⟩
              have hA := Inv_replace _ hrowsInv (refreshSessionKey refreshToken) existing
                { existing with AccessToken := acc.SessionToken, LastActivityAt := now } d
                (now + ttlWithJitter now existing.ExpiresAt (jit 2)) hd rfl rfl rfl
              unfold RefreshSession.cache
              refine Inv_sadd _ hA _ now acc.UserID [accessSessionKey acc.SessionToken] ?_ ?_
              · intro k hk
                rw [List.mem_singleton] at hk
                exact ⟨_, Or.inl hk⟩
              · intro k
                rw [tolerate_redisSet_apply]
                by_cases hk : k = accessSessionKey acc.SessionToken
                · right
                  refine ⟨by simp [hk], acc, now + ttlWithJitter now acc.ExpiresAt (jit 3),
                    by simp [hk, Faults.none], rfl, ?_⟩
                  intro t ht
                  rw [hk] at ht
                  exact absurd ht (accessSessionKey_ne_refresh _ _)
                · left
                  simp [hk]
                  rfl

/-- Under fault-free stores `UpdateRefreshSession` preserves consistency. -/
theorem UpdateRefreshSession_Inv (st : Store) (hInv : Inv st) (now : Int) (jit : Jitter)
    (refreshToken newAccessToken : String) :
    Inv (UpdateRefreshSession Faults.none now jit st refreshToken newAccessToken).2 := by
  unfold UpdateRefreshSession
  simp only []
  cases h1 : redisGet Faults.none st.redis now (refreshSessionKey refreshToken) with
  | session rs =>
    simp only []
    rcases ((redisGet_session_iff _ _ _ _ _).mp h1).2 with ⟨d, hd, _⟩
    have hrowsInv := Inv_dbUpdateRefreshSession st hInv Faults.none refreshToken newAccessToken now
    exact Inv_replace _ hrowsInv (refreshSessionKey refreshToken) rs
      { rs with AccessToken := newAccessToken, LastActivityAt := now } d
      (now + ttlWithJitter now rs.ExpiresAt (jit 0)) hd rfl rfl rfl
  | junk b => exact hInv
  | missing => exact hInv
  | failed => exact hInv

/-- Under fault-free stores `InvalidateAllUserSessions` preserves consistency. -/
theorem InvalidateAllUserSessions_Inv (st : Store) (hInv : Inv st) (now : Int) (u : String)
    (invalidateDB : Bool) :
    Inv (InvalidateAllUserSessions Faults.none now st u invalidateDB).2 := by
  rw [InvalidateAllUserSessions_none st hInv]
  exact Inv_purge st hInv u invalidateDB

/-- Under fault-free stores `RefreshSessionPair` preserves consistency. -/
theorem RefreshSessionPair_Inv (st : Store) (hInv : Inv st) (now : Int) (jit : Jitter)
    (acc rs : UserSession) : Inv (RefreshSessionPair Faults.none now jit st acc rs).2 := by
  unfold RefreshSessionPair
  exact RefreshSession_Inv _ (InvalidateAllUserSessions_Inv st hInv now rs.UserID false) now jit
    acc rs.SessionToken

/-- Under fault-free stores `InvalidateSessionPairByAccessToken` preserves consistency. -/
theorem InvalidateSessionPairByAccessToken_Inv (st : Store) (hInv : Inv st) (now : Int)
    (accessToken : String) :
    Inv (InvalidateSessionPairByAccessToken Faults.none now st accessToken).2 := by
  unfold InvalidateSessionPairByAccessToken
  split
  · exact hInv
  · exact hInv
  · exact hInv
  · split
    · exact hInv
    · exact InvalidateAllUserSessions_Inv st hInv now _ true

/-! ## What the operations do to access keys -/

/-- The three ways a lookup can leave the stores. -/
theorem GetSession_store_cases (f : Faults) (now : Int) (jit : Jitter) (st : Store)
    (token : String) (a : Bool) :
    (GetSession f now jit st token a).2 = st ∨
    (GetSession f now jit st token a).2 =
      { st with
        redis := tolerate st.redis
          (redisDel f st.redis (if a then accessSessionKey token else refreshSessionKey token)) } ∨
    (a = false ∧ ∃ session, (GetSession f now jit st token a).2 =
      { st with
        redis := GetSession.writeBack f now jit st.redis (refreshSessionKey token) session }) := by
  cases a
  · unfold GetSession GetSession.miss
    simp only [Bool.false_eq_true, if_false, Bool.not_false, if_true]
    split
    · split
      · exact Or.inr (Or.inl rfl)
      · exact Or.inl rfl
    · split
      · exact Or.inl rfl
      · rename_i session hdb
        have hok := dbGetActiveSession_ok f st.sessions token now session hdb
        split
        · omega
        · exact Or.inr (Or.inr ⟨trivial, session, rfl⟩)
  · unfold GetSession GetSession.miss
    simp only [if_true, Bool.not_true, Bool.false_eq_true, if_false]
    split
    · split
      · exact Or.inr (Or.inl rfl)
      · exact Or.inl rfl
    · exact Or.inl rfl

/-- A lookup leaves every access key as it was, or deletes it. -/
theorem GetSession_access_frame (f : Faults) (now : Int) (jit : Jitter) (st : Store)
    (token : String) (a : Bool) (t : String) :
    (GetSession f now jit st token a).2.redis (accessSessionKey t) = st.redis (accessSessionKey t) ∨
    (GetSession f now jit st token a).2.redis (accessSessionKey t) = none := by
  rcases GetSession_store_cases f now jit st token a with h | h | ⟨ha, session, h⟩
  · rw [h]; exact Or.inl rfl
  · rw [h]
    simp only []
    rw [tolerate_redisDel_apply]
    by_cases hc : f.redisDel = false ∧
        accessSessionKey t = (if a then accessSessionKey token else refreshSessionKey token)
    · rw [if_pos hc]; exact Or.inr rfl
    · rw [if_neg hc]; exact Or.inl rfl
  · rw [h]
    simp only []
    rw [writeBack_apply _ _ _ _ _ _ _ (accessSessionKey_ne_user _ _)]
    rw [if_neg (by
      rintro ⟨_, h2⟩
      exact accessSessionKey_ne_refresh _ _ h2)]
    exact Or.inl rfl

theorem CreateSessionPair_cache_access (f : Faults) (now : Int) (jit : Jitter) (r : Redis)
    (acc rs : UserSession) (t : String) :
    CreateSessionPair.cache f now jit r acc rs (accessSessionKey t) =
      if f.redisSet = false ∧ t = acc.SessionToken then
        some (.json acc (now + ttlWithJitter now acc.ExpiresAt (jit 2)))
      else r (accessSessionKey t) := by
  unfold CreateSessionPair.cache
  rw [tolerate_redisSAdd_apply_ne _ _ _ _ _ _ (accessSessionKey_ne_user _ _),
    tolerate_redisSet_apply, tolerate_redisSet_apply]
  rw [if_neg (by
    rintro ⟨_, h2⟩
    exact accessSessionKey_ne_refresh _ _ h2)]
  simp only [accessSessionKey_inj]

/-- `CreateSessionPair` leaves an access key as it was or deletes it, unless it succeeds and the
key is that of the new access token; then the key holds the new access session. -/
theorem CreateSessionPair_access_frame (f : Faults) (dup uuid : String) (now : Int) (jit : Jitter)
    (st : Store) (acc rs : UserSession) (t : String) :
    ((CreateSessionPair f dup uuid now jit st acc rs).2.1.redis (accessSessionKey t) =
        st.redis (accessSessionKey t) ∨
      (CreateSessionPair f dup uuid now jit st acc rs).2.1.redis (accessSessionKey t) = none) ∨
    ((CreateSessionPair f dup uuid now jit st acc rs).1 = none ∧ t = acc.SessionToken ∧
      (CreateSessionPair f dup uuid now jit st acc rs).2.1.redis (accessSessionKey t) =
        some (.json acc (now + ttlWithJitter now acc.ExpiresAt (jit 2)))) := by
  have hc := (CreateSessionPair_cases f dup uuid now jit st acc rs).1
  have h1 := GetSession_access_frame f now jit st acc.SessionToken true t
  have h2 := GetSession_access_frame f now (jit.drop 1)
    (GetSession f now jit st acc.SessionToken true).2 rs.SessionToken false t
  have h12 : (GetSession f now (jit.drop 1) (GetSession f now jit st acc.SessionToken true).2
        rs.SessionToken false).2.redis (accessSessionKey t) = st.redis (accessSessionKey t) ∨
      (GetSession f now (jit.drop 1) (GetSession f now jit st acc.SessionToken true).2
        rs.SessionToken false).2.redis (accessSessionKey t) = none := by
    rcases h2 with h2 | h2
    · rw [h2]; exact h1
    · exact Or.inr h2
  generalize CreateSessionPair f dup uuid now jit st acc rs = out at hc ⊢
  generalize (GetSession f now (jit.drop 1) (GetSession f now jit st acc.SessionToken true).2
    rs.SessionToken false).2 = st2 at hc h12
  rcases hc with ⟨_, k | k⟩ | ⟨k0, k, _, _⟩
  · rw [k]; exact Or.inl h1
  · rw [k]; exact Or.inl h12
  · rw [k]
    simp only []
    rw [CreateSessionPair_cache_access]
    split
    · rename_i hh
      exact Or.inr ⟨k0, hh.2, rfl⟩
    · exact Or.inl h12

/-- The retry loop of `Login`, started with `fuel + i = 3`: on an error the session table is as
before; on success it has gained exactly one row, that of the returned refresh record, which is
active and carries the returned refresh token and the owner of the record the loop started with.
The cache then holds an access session of the given owner under the returned access token, and
every other access key is as before or deleted. -/
theorem Login_create_spec (svc : UserService) (f : Faults) (now : Int) (ent : Entropy)
    (user : User) (fuel i : Nat) (hfuel : fuel + i = 3) (hi2 : i ≤ 2) (st : Store)
    (accessToken refreshToken : String) (acc rs : UserSession)
    (hacc : acc.SessionToken = accessToken) (hrs : rs.SessionToken = refreshToken) :
    (∀ e, (Login.create svc f now ent user fuel i st accessToken refreshToken acc rs).1 = .error e →
      (Login.create svc f now ent user fuel i st accessToken refreshToken acc rs).2.sessions
        = st.sessions) ∧
    (∀ a1 r1 rs1,
      (Login.create svc f now ent user fuel i st accessToken refreshToken acc rs).1
        = .ok (a1, r1, rs1) →
      (Login.create svc f now ent user fuel i st accessToken refreshToken acc rs).2.sessions
        = st.sessions ++ [{ rs1 with AccessToken := "" }] ∧
      rs1.SessionToken = r1 ∧ rs1.UserID = rs.UserID ∧ rs1.IsActive = true ∧
      (rs.SessionType ≠ "" → rs1.SessionType = rs.SessionType) ∧
      (f.redisSet = false → ∃ acc1 d,
        (Login.create svc f now ent user fuel i st accessToken refreshToken acc rs).2.redis
          (accessSessionKey a1) = some (.json acc1 d) ∧ now < d ∧ acc1.UserID = acc.UserID ∧
        acc1.ExpiresAt = acc.ExpiresAt) ∧
      (∀ t, t ≠ a1 → st.redis (accessSessionKey t) = none →
        (Login.create svc f now ent user fuel i st accessToken refreshToken acc rs).2.redis
          (accessSessionKey t) = none)) := by
  induction fuel generalizing i st accessToken refreshToken acc rs with
  | zero => omega
  | succ n ih =>
    have hc := CreateSessionPair_cases f svc.lib.duplicateEntry (ent.uuid 0) now
      (ent.jitter.drop (4 * i)) st acc rs
    have hfr := CreateSessionPair_access_frame f svc.lib.duplicateEntry (ent.uuid 0) now
      (ent.jitter.drop (4 * i)) st acc rs
    have hs1 := GetSession_sessions f now (ent.jitter.drop (4 * i)) st acc.SessionToken true
    have hs2 := GetSession_sessions f now ((ent.jitter.drop (4 * i)).drop 1)
      (GetSession f now (ent.jitter.drop (4 * i)) st acc.SessionToken true).2 rs.SessionToken false
    rw [hs1] at hs2
    cases hcsp : CreateSessionPair f svc.lib.duplicateEntry (ent.uuid 0) now
        (ent.jitter.drop (4 * i)) st acc rs with
    | mk e rest =>
      cases rest with
      | mk st1 rs1 =>
        rw [hcsp] at hc hfr
        simp only [] at hc hfr
        rcases hc with ⟨hc1, g1, g2, g3, g4⟩
        cases e with
        | none =>
          have hp : Login.create svc f now ent user (n + 1) i st accessToken refreshToken acc rs
              = (.ok (accessToken, refreshToken, rs1), st1) := by
            simp only [Login.create, hcsp]
          rw [hp]
          rcases hc1 with ⟨k1, _⟩ | ⟨_, k2, k3, k4⟩
          · exact absurd rfl k1
          · refine ⟨fun e he => (by cases he), ?_⟩
            intro a1 r1 rs2 hok
            simp only [Except.ok.injEq, Prod.mk.injEq] at hok
            rcases hok with ⟨rfl, rfl, rfl⟩
            refine ⟨by rw [k2], g1.trans hrs, g2, k4, g4, ?_, ?_⟩
            · intro hset
              refine ⟨acc, now + ttlWithJitter now acc.ExpiresAt ((ent.jitter.drop (4 * i)) 2),
                ?_, ?_, rfl, rfl⟩
              · rw [k2]
                simp only []
                rw [CreateSessionPair_cache_access]
                simp [hset, hacc]
              · have := ttlWithJitter_pos now acc.ExpiresAt ((ent.jitter.drop (4 * i)) 2)
                omega
            · intro t ht hnone
              rcases hfr t with (h | h) | ⟨_, h, _⟩
              · rw [h]; exact hnone
              · exact h
              · exact absurd (h.trans hacc) ht
        | some e =>
          have hst1 : st1.sessions = st.sessions := by
            rcases hc1 with ⟨_, k | k⟩ | ⟨k1, _⟩
            · rw [k]; exact hs1
            · rw [k]; exact hs2
            · cases k1
          have hfr1 : ∀ t, st.redis (accessSessionKey t) = none →
              st1.redis (accessSessionKey t) = none := by
            intro t hnone
            rcases hfr t with (h | h) | ⟨h, _⟩
            · rw [h]; exact hnone
            · exact h
            · cases h
          by_cases hretry : (IsDuplicateError (some e) && decide (i < 3 - 1)) = true
          · have hp : Login.create svc f now ent user (n + 1) i st accessToken refreshToken acc rs
                = Login.create svc f now ent user n (i + 1) st1
                  (orEmpty (GenerateToken svc.lib now (ent.nonce (2 * i + 2))
                    user.ID user.Username svc.jwtSecret svc.accessExpiresIn))
                  (orEmpty (GenerateToken svc.lib now (ent.nonce (2 * i + 3))
                    user.ID user.Username svc.jwtSecret svc.refreshExpiresIn))
                  { acc with SessionToken := orEmpty (GenerateToken svc.lib now
                      (ent.nonce (2 * i + 2)) user.ID user.Username svc.jwtSecret
                      svc.accessExpiresIn) }
                  { rs1 with SessionToken := orEmpty (GenerateToken svc.lib now
                      (ent.nonce (2 * i + 3)) user.ID user.Username svc.jwtSecret
                      svc.refreshExpiresIn) } := by
              simp only [Login.create, hcsp, hretry, if_true]
            rw [hp]
            have hi : i < 2 := by
              simp only [Bool.and_eq_true, decide_eq_true_eq] at hretry
              omega
            generalize orEmpty (GenerateToken svc.lib now (ent.nonce (2 * i + 2))
              user.ID user.Username svc.jwtSecret svc.accessExpiresIn) = tA
            generalize orEmpty (GenerateToken svc.lib now (ent.nonce (2 * i + 3))
              user.ID user.Username svc.jwtSecret svc.refreshExpiresIn) = tR
            have ih1 := ih (i + 1) (by omega) (by omega) st1 tA tR
              { acc with SessionToken := tA } { rs1 with SessionToken := tR } rfl rfl
            rw [hst1] at ih1
            refine ⟨ih1.1, ?_⟩
            intro a1 r1 rs2 hok
            rcases ih1.2 a1 r1 rs2 hok with ⟨q1, q2, q3, q4, q5, q6, q7⟩
            refine ⟨q1, q2, q3.trans g2, q4, ?_, q6, ?_⟩
            · intro hne
              have h4 := g4 hne
              have := q5 (by simp only []; rw [h4]; exact hne)
              rw [this]
              exact h4
            · intro t ht hnone
              exact q7 t ht (hfr1 t hnone)
          · have hp : Login.create svc f now ent user (n + 1) i st accessToken refreshToken acc rs
                = (.error e, st1) := by
              simp only [Login.create, hcsp, hretry]
              simp
            rw [hp]
            refine ⟨fun _ _ => hst1, ?_⟩
            intro a1 r1 rs2 hok
            cases hok

/-- Under fault-free stores the retry loop of `Login` preserves consistency. -/
theorem Login_create_Inv (svc : UserService) (now : Int) (ent : Entropy) (user : User)
    (fuel i : Nat) (st : Store) (hInv : Inv st) (accessToken refreshToken : String)
    (acc rs : UserSession) (hU : rs.UserID = acc.UserID) (hT : rs.SessionType = "refresh") :
    Inv (Login.create svc Faults.none now ent user fuel i st accessToken refreshToken acc rs).2 := by
  induction fuel generalizing i st accessToken refreshToken acc rs with
  | zero => exact hInv
  | succ n ih =>
    have hInv1 := CreateSessionPair_Inv st hInv svc.lib.duplicateEntry (ent.uuid 0) now
      (ent.jitter.drop (4 * i)) acc rs hU hT
    have hc := CreateSessionPair_cases Faults.none svc.lib.duplicateEntry (ent.uuid 0) now
      (ent.jitter.drop (4 * i)) st acc rs
    cases hcsp : CreateSessionPair Faults.none svc.lib.duplicateEntry (ent.uuid 0) now
        (ent.jitter.drop (4 * i)) st acc rs with
    | mk e rest =>
      cases rest with
      | mk st1 rs1 =>
        rw [hcsp] at hc hInv1
        simp only [] at hc hInv1
        rcases hc with ⟨_, _, g2, _, g4⟩
        cases e with
        | none =>
          have hp : Login.create svc Faults.none now ent user (n + 1) i st accessToken
              refreshToken acc rs = (.ok (accessToken, refreshToken, rs1), st1) := by
            simp only [Login.create, hcsp]
          rw [hp]
          exact hInv1
        | some e =>
          by_cases hretry : (IsDuplicateError (some e) && decide (i < 3 - 1)) = true
          · generalize htA : orEmpty (GenerateToken svc.lib now (ent.nonce (2 * i + 2))
              user.ID user.Username svc.jwtSecret svc.accessExpiresIn) = tA
            generalize htR : orEmpty (GenerateToken svc.lib now (ent.nonce (2 * i + 3))
              user.ID user.Username svc.jwtSecret svc.refreshExpiresIn) = tR
            have hp : Login.create svc Faults.none now ent user (n + 1) i st accessToken
                refreshToken acc rs
                = Login.create svc Faults.none now ent user n (i + 1) st1 tA tR
                  { acc with SessionToken := tA } { rs1 with SessionToken := tR } := by
              simp only [Login.create, hcsp, hretry, if_true, htA, htR]
            rw [hp]
            refine ih (i + 1) st1 hInv1 tA tR _ _ (g2.trans hU) ?_
            simp only []
            rw [g4 (by rw [hT]; decide)]
            exact hT
          · have hp : Login.create svc Faults.none now ent user (n + 1) i st accessToken
                refreshToken acc rs = (.error e, st1) := by
              simp only [Login.create, hcsp, hretry]
              simp
            rw [hp]
            exact hInv1

/-- How `Login` ends: early, with an error and the stores untouched apart from the audit table,
or through the retry loop run on the stores that `InvalidateAllUserSessions` left. -/
theorem Login_cases (svc : UserService) (f : Faults) (a : Bool) (now : Int) (ent : Entropy)
    (st : State) (req : LoginRequest) :
    ((∃ e, (Login svc f a now ent st req).1 = .error e) ∧
      (Login svc f a now ent st req).2.store = st.store ∧
      (Login svc f a now ent st req).2.users = st.users) ∨
    (∃ user accessToken refreshToken acc rs,
      dbGetByUsername st.users req.Username = some user ∧
      acc.UserID = user.ID ∧ rs.UserID = user.ID ∧ rs.SessionType = "refresh" ∧
      acc.SessionToken = accessToken ∧ rs.SessionToken = refreshToken ∧
      acc.ExpiresAt = now + ent.elapsed + wrapInt64 (svc.accessExpiresIn * timeSecond) ∧
      (Login svc f a now ent st req).2.store =
        (Login.create svc f now ent user 3 0 (InvalidateAllUserSessions f now st.store user.ID true).2
          accessToken refreshToken acc rs).2 ∧
      (Login svc f a now ent st req).2.users = st.users ∧
      (∀ e, (Login.create svc f now ent user 3 0
          (InvalidateAllUserSessions f now st.store user.ID true).2
          accessToken refreshToken acc rs).1 = .error e →
        (Login svc f a now ent st req).1 = .error e) ∧
      (∀ a1 r1 rs1, (Login.create svc f now ent user 3 0
          (InvalidateAllUserSessions f now st.store user.ID true).2
          accessToken refreshToken acc rs).1 = .ok (a1, r1, rs1) →
        (Login svc f a now ent st req).1 = .ok
          { AccessToken := a1, RefreshToken := r1, AccessExpiresIn := svc.accessExpiresIn,
            RefreshExpiresIn := svc.refreshExpiresIn, User := convertToUserInfo user })) := by
  unfold Login
  cases hu : dbGetByUsername st.users req.Username with
  | none => exact Or.inl ⟨⟨_, rfl⟩, rfl, rfl⟩
  | some user =>
    simp only []
    cases svc.lib.compareHashAndPassword user.PasswordHash req.Password with
    | false => exact Or.inl ⟨⟨_, rfl⟩, rfl, rfl⟩
    | true =>
      simp only [Bool.not_true, Bool.false_eq_true, if_false]
      cases GenerateToken svc.lib now (ent.nonce 0) user.ID user.Username svc.jwtSecret
          svc.accessExpiresIn with
      | error e => exact Or.inl ⟨⟨_, rfl⟩, rfl, rfl⟩
      | ok accessToken =>
        simp only []
        cases GenerateToken svc.lib now (ent.nonce 1) user.ID user.Username svc.jwtSecret
            svc.refreshExpiresIn with
        | error e => exact Or.inl ⟨⟨_, rfl⟩, rfl, rfl⟩
        | ok refreshToken =>
          simp only []
          right
          refine ⟨user, accessToken, refreshToken,
            { ID := "", UserID := user.ID, SessionToken := accessToken,
              SessionType := "access", Platform := req.Platform,
              ExpiresAt := now + ent.elapsed + wrapInt64 (svc.accessExpiresIn * timeSecond),
              LastActivityAt := now, IsActive := false, AccessToken := "",
              DeviceID := if req.DeviceID ≠ "" then some req.DeviceID else none },
            { ID := "", UserID := user.ID, SessionToken := refreshToken,
              SessionType := "refresh", Platform := req.Platform,
              ExpiresAt := now + wrapInt64 (svc.refreshExpiresIn * timeSecond),
              LastActivityAt := now, IsActive := false, AccessToken := accessToken,
              DeviceID := if req.DeviceID ≠ "" then some req.DeviceID else none },
            rfl, rfl, rfl, rfl, rfl, rfl, rfl, ?_⟩
          generalize Login.create svc f now ent user 3 0 _ _ _ _ _ = out
          rcases out with ⟨res, store2⟩
          cases res with
          | error e =>
            refine ⟨rfl, rfl, ?_, ?_⟩
            · intro e1 he
              cases he
              rfl
            · intro a1 r1 rs1 he
              cases he
          | ok v =>
            rcases v with ⟨a2, r2, rs2⟩
            refine ⟨rfl, rfl, ?_, ?_⟩
            · intro e1 he
              cases he
            · intro a1 r1 rs1 he
              cases he
              rfl

/-! ## Reachable states are consistent -/

theorem Register_Inv (svc : UserService) (a : Bool) (now : Int) (ent : Entropy) (st : State)
    (req : RegisterRequest) (hInv : Inv st.store) :
    Inv (Register svc Faults.none a now ent st req).2.store := by
  unfold Register
  simp only []
  split
  · exact hInv
  · rename_i users user hcreate
    have h := CreateSessionPair_Inv st.store hInv svc.lib.duplicateEntry (ent.uuid 1) now
      ent.jitter
      { ID := "", UserID := user.ID,
        SessionToken := orEmpty (GenerateToken svc.lib now (ent.nonce 0) user.ID user.Username
          svc.jwtSecret svc.accessExpiresIn),
        SessionType := "access", Platform := req.Platform,
        ExpiresAt := now + ent.elapsed + wrapInt64 (svc.accessExpiresIn * timeSecond), LastActivityAt := now,
        IsActive := false, AccessToken := "",
        DeviceID := if req.DeviceID ≠ "" then some req.DeviceID else none }
      { ID := "", UserID := user.ID,
        SessionToken := orEmpty (GenerateToken svc.lib now (ent.nonce 1) user.ID user.Username
          svc.jwtSecret svc.refreshExpiresIn),
        SessionType := "refresh", Platform := req.Platform,
        ExpiresAt := now + wrapInt64 (svc.refreshExpiresIn * timeSecond), LastActivityAt := now,
        IsActive := false, AccessToken := "",
        DeviceID := if req.DeviceID ≠ "" then some req.DeviceID else none }
      rfl rfl
    split
    · rename_i heq
      rw [heq] at h
      exact h
    · rename_i heq
      rw [heq] at h
      exact h

theorem Login_Inv (svc : UserService) (a : Bool) (now : Int) (ent : Entropy) (st : State)
    (req : LoginRequest) (hInv : Inv st.store) :
    Inv (Login svc Faults.none a now ent st req).2.store := by
  rcases Login_cases svc Faults.none a now ent st req with
    ⟨_, h, _⟩ | ⟨user, accessToken, refreshToken, acc, rs, _, h1, h2, h3, _, _, _, h, _⟩
  · rw [h]; exact hInv
  · rw [h]
    exact Login_create_Inv svc now ent user 3 0 _
      (InvalidateAllUserSessions_Inv st.store hInv now user.ID true) accessToken refreshToken acc rs
      (h2.trans h1.symm) h3

theorem Logout_Inv (now : Int) (st : State) (accessToken : String) (hInv : Inv st.store) :
    Inv (Logout Faults.none now st accessToken).2.store :=
  InvalidateSessionPairByAccessToken_Inv st.store hInv now accessToken

theorem ValidateToken_Inv (now : Int) (jit : Jitter) (st : State) (accessToken : String)
    (hInv : Inv st.store) : Inv (ValidateToken Faults.none now jit st accessToken).2.store := by
  have h := GetSession_Inv st.store hInv now jit accessToken true
  unfold ValidateToken
  split
  · rename_i heq
    rw [heq] at h
    exact h
  · rename_i heq
    rw [heq] at h
    exact h

theorem RefreshToken_Inv (svc : UserService) (now : Int) (ent : Entropy) (st : State)
    (refreshToken : String) (hInv : Inv st.store) :
    Inv (RefreshToken svc Faults.none now ent st refreshToken).2.store := by
  unfold RefreshToken
  cases hp : ParseToken svc.lib now refreshToken svc.jwtSecret with
  | error e => exact hInv
  | ok claims =>
    simp only []
    have h1 := GetSession_Inv st.store hInv now ent.jitter refreshToken false
    cases hg : GetSession Faults.none now ent.jitter st.store refreshToken false with
    | mk res store1 =>
      rw [hg] at h1
      cases res with
      | error e => exact h1
      | ok refreshSession =>
        simp only []
        by_cases hnear : refreshSession.ExpiresAt - now < 1 * timeHour
        · rw [if_pos hnear]; exact h1
        · rw [if_neg hnear]
          generalize orEmpty (GenerateToken svc.lib now (ent.nonce 0) claims.UserID ""
            svc.jwtSecret svc.accessExpiresIn) = newAccessToken
          have h2 := RefreshSessionPair_Inv store1 h1 now (ent.jitter.drop 1)
            { ID := "", UserID := claims.UserID, SessionToken := newAccessToken,
              SessionType := "access", Platform := refreshSession.Platform,
              ExpiresAt := now + svc.accessExpiresIn * timeSecond, LastActivityAt := now,
              IsActive := false, AccessToken := "", DeviceID := refreshSession.DeviceID }
            { refreshSession with AccessToken := newAccessToken, LastActivityAt := now }
          cases hr : RefreshSessionPair Faults.none now (ent.jitter.drop 1) store1
              { ID := "", UserID := claims.UserID, SessionToken := newAccessToken,
                SessionType := "access", Platform := refreshSession.Platform,
                ExpiresAt := now + svc.accessExpiresIn * timeSecond, LastActivityAt := now,
                IsActive := false, AccessToken := "", DeviceID := refreshSession.DeviceID }
              { refreshSession with AccessToken := newAccessToken, LastActivityAt := now } with
          | mk e store2 =>
            rw [hr] at h2
            cases e with
            | some e => exact h2
            | none =>
              simp only []
              have h3 := UpdateRefreshSession_Inv store2 h2 now (ent.jitter.drop 5) refreshToken
                newAccessToken
              cases dbGetByID st.users claims.UserID with
              | none => exact h3
              | some user => exact h3

/-- Every reachable state is consistent. -/
theorem Reachable_Inv (svc : UserService) (st : State) (h : Reachable svc st) : Inv st.store := by
  induction h with
  | init => exact Inv_empty
  | register st a now ent req _ ih => exact Register_Inv svc a now ent st req ih
  | login st a now ent req _ ih => exact Login_Inv svc a now ent st req ih
  | logout st now accessToken _ ih => exact Logout_Inv now st accessToken ih
  | refresh st now ent refreshToken _ ih => exact RefreshToken_Inv svc now ent st refreshToken ih
  | validate st now jit accessToken _ ih => exact ValidateToken_Inv now jit st accessToken ih

/-! ## Revocation -/

/-- A token whose access key is not in the cache does not validate. -/
theorem ValidateToken_absent (f : Faults) (now : Int) (jit : Jitter) (st : State) (t : String)
    (h : st.store.redis (accessSessionKey t) = none) :
    (ValidateToken f now jit st t).1 = .error "invalid or expired access token" := by
  unfold ValidateToken
  cases hg : GetSession f now jit st.store t true with
  | mk res store1 =>
    cases res with
    | error e => rfl
    | ok s =>
      have := (GetSession_access_ok_iff f now jit st.store t s).mp (by rw [hg])
      rcases ((redisGet_session_iff _ _ _ _ _).mp this.1).2 with ⟨d, hd, _⟩
      rw [h] at hd
      cases hd

/-- The purge of a user removes every cached session of that user. -/
theorem purge_cached_none (st : Store) (hInv : Inv st) (u : String) (k : String) (s : UserSession)
    (d : Int) (h : st.redis k = some (.json s d)) (hu : s.UserID = u) :
    purge st.redis u k = none := by
  cases hp : purge st.redis u k with
  | none => rfl
  | some v =>
    have hv : v = .json s d := by
      unfold purge at hp
      split at hp
      · cases hp
      · rw [h] at hp
        cases hp
        rfl
    rw [hv] at hp
    exact absurd hu (purge_owner st hInv u k s d hp).2

theorem rows_unique (rows : List UserSession)
    (h : rows.Pairwise (fun a b => a.SessionToken ≠ b.SessionToken)) (a b : UserSession)
    (ha : a ∈ rows) (hb : b ∈ rows) (hab : a.SessionToken = b.SessionToken) : a = b := by
  have hnodup : (rows.map (fun r => r.SessionToken)).Nodup := by
    unfold List.Nodup
    rw [List.pairwise_map]
    exact h
  exact List.inj_on_of_nodup_map hnodup ha hb hab

/-! ## Refreshing -/

theorem dbGetActiveSession_complete (rows : List UserSession) (token : String) (now : Int)
    (row : UserSession) (hrow : row ∈ rows) (htok : row.SessionToken = token)
    (hact : row.IsActive = true) (hlive : now < row.ExpiresAt) :
    ∃ row1, dbGetActiveSession Faults.none rows token now = .ok row1 := by
  unfold dbGetActiveSession
  simp only [Faults.none, Bool.false_eq_true, if_false]
  cases hfind : rows.find? (fun row =>
      decide (row.SessionToken = token ∧ row.IsActive = true ∧ now < row.ExpiresAt)) with
  | some row1 => exact ⟨row1, rfl⟩
  | none =>
    rw [List.find?_eq_none] at hfind
    have := hfind row hrow
    simp [htok, hact, hlive] at this

/-- In a consistent store a refresh token with an active, unexpired row resolves to a session
with the row's owner and expiry, whether or not the cache still holds it. -/
theorem GetSession_refresh_complete (st : Store) (hInv : Inv st) (now : Int) (jit : Jitter)
    (r : String) (row : UserSession) (hrow : row ∈ st.sessions) (htok : row.SessionToken = r)
    (hact : row.IsActive = true) (hlive : now < row.ExpiresAt) :
    ∃ x, (GetSession Faults.none now jit st r false).1 = .ok x ∧
      x.ExpiresAt = row.ExpiresAt ∧ x.UserID = row.UserID := by
  have hdb : ∃ x, GetSession.miss Faults.none now jit st r false (refreshSessionKey r) =
      (.ok x, { st with
        redis := GetSession.writeBack Faults.none now jit st.redis (refreshSessionKey r) x }) ∧
      x.ExpiresAt = row.ExpiresAt ∧ x.UserID = row.UserID := by
    rcases dbGetActiveSession_complete st.sessions r now row hrow htok hact hlive with ⟨row1, h1⟩
    rcases dbGetActiveSession_ok _ _ _ _ _ h1 with ⟨m1, m2, _, m4⟩
    have := rows_unique st.sessions hInv.unique row1 row m1 hrow (m2.trans htok.symm)
    subst this
    refine ⟨row1, ?_, rfl, rfl⟩
    unfold GetSession.miss
    simp only [Bool.not_false, if_true]
    rw [h1]
    simp only []
    rw [if_neg (by omega)]
  unfold GetSession
  simp only [Bool.false_eq_true, if_false]
  cases hg : redisGet Faults.none st.redis now (refreshSessionKey r) with
  | session s =>
    simp only []
    rcases ((redisGet_session_iff _ _ _ _ _).mp hg).2 with ⟨d, hd, _⟩
    rcases hInv.durable r s d hd with ⟨row1, m1, m2, m3, _, m5⟩
    have := rows_unique st.sessions hInv.unique row1 row m1 hrow (m2.trans htok.symm)
    subst this
    rw [if_neg (by omega)]
    exact ⟨s, rfl, m5.symm, m3.symm⟩
  | junk b =>
    rcases hdb with ⟨x, h1, h2⟩
    exact ⟨x, by rw [h1], h2⟩
  | missing =>
    rcases hdb with ⟨x, h1, h2⟩
    exact ⟨x, by rw [h1], h2⟩
  | failed =>
    rcases hdb with ⟨x, h1, h2⟩
    exact ⟨x, by rw [h1], h2⟩

theorem RefreshSession_cache_refresh (f : Faults) (now : Int) (jit : Jitter) (r : Redis)
    (acc e1 : UserSession) (refreshToken : String) :
    RefreshSession.cache f now jit r acc e1 refreshToken (refreshSessionKey refreshToken) =
      if f.redisSet = false then some (.json e1 (now + ttlWithJitter now e1.ExpiresAt (jit 2)))
      else r (refreshSessionKey refreshToken) := by
  unfold RefreshSession.cache
  rw [tolerate_redisSAdd_apply_ne _ _ _ _ _ _ (refreshSessionKey_ne_user _ _),
    tolerate_redisSet_apply, tolerate_redisSet_apply]
  rw [if_neg (by
    rintro ⟨_, h2⟩
    exact accessSessionKey_ne_refresh _ _ h2.symm)]
  simp

theorem RefreshSession_cache_access (f : Faults) (now : Int) (jit : Jitter) (r : Redis)
    (acc e1 : UserSession) (refreshToken : String) :
    RefreshSession.cache f now jit r acc e1 refreshToken (accessSessionKey acc.SessionToken) =
      if f.redisSet = false then some (.json acc (now + ttlWithJitter now acc.ExpiresAt (jit 3)))
      else r (accessSessionKey acc.SessionToken) := by
  unfold RefreshSession.cache
  rw [tolerate_redisSAdd_apply_ne _ _ _ _ _ _ (accessSessionKey_ne_user _ _),
    tolerate_redisSet_apply]
  by_cases hf : f.redisSet = false
  · simp [hf]
  · rw [if_neg (fun h => hf h.1), tolerate_redisSet_apply, if_neg (fun h => hf h.1), if_neg hf]

/-- In a consistent store, `RefreshSession` for a new access token and a refresh token with an
active, unexpired row succeeds (stores not failing); afterwards the cache holds the updated
refresh session and the new access session, both live. -/
theorem RefreshSession_succeeds (st : Store) (hInv : Inv st) (now : Int) (jit : Jitter)
    (acc : UserSession) (r : String) (row : UserSession)
    (hfresh : ∀ s, (GetSession Faults.none now jit st acc.SessionToken true).1 ≠ .ok s)
    (hrow : row ∈ st.sessions) (htok : row.SessionToken = r) (hact : row.IsActive = true)
    (hlive : now < row.ExpiresAt) :
    (RefreshSession Faults.none now jit st acc r).1 = none ∧
    (RefreshSession Faults.none now jit st acc r).2.redis (accessSessionKey acc.SessionToken) =
      some (.json acc (now + ttlWithJitter now acc.ExpiresAt (jit 3))) ∧
    ∃ x, x.ExpiresAt = row.ExpiresAt ∧
      (RefreshSession Faults.none now jit st acc r).2.redis (refreshSessionKey r) =
        some (.json x (now + ttlWithJitter now x.ExpiresAt (jit 2))) := by
  unfold RefreshSession
  have hInv1 := GetSession_Inv st hInv now jit acc.SessionToken true
  have hrows1 := GetSession_sessions Faults.none now jit st acc.SessionToken true
  cases h1 : GetSession Faults.none now jit st acc.SessionToken true with
  | mk res1 st1 =>
    rw [h1] at hInv1 hrows1 hfresh
    simp only [] at hInv1 hrows1 hfresh
    cases res1 with
    | ok s1 => exact absurd rfl (hfresh s1)
    | error e1 =>
      simp only []
      have hInv2 := GetSession_Inv st1 hInv1 now (jit.drop 1) r false
      have hrows2 := GetSession_sessions Faults.none now (jit.drop 1) st1 r false
      rcases GetSession_refresh_complete st1 hInv1 now (jit.drop 1) r row (by rw [hrows1]; exact hrow)
        htok hact hlive with ⟨x, hx, hxE, _⟩
      cases h2 : GetSession Faults.none now (jit.drop 1) st1 r false with
      | mk res2 st2 =>
        rw [h2] at hInv2 hrows2 hx
        simp only [] at hInv2 hrows2 hx
        cases hx
        simp only []
        have hany : st2.sessions.any (fun row =>
            decide (row.SessionToken = r ∧ row.SessionType = "refresh")) = true := by
          rw [List.any_eq_true]
          refine ⟨row, by rw [hrows2, hrows1]; exact hrow, ?_⟩
          simp [htok, hInv.kind row hrow]
        have hupd : ∃ rows, dbUpdateRefreshSession Faults.none st2.sessions r acc.SessionToken now
            = (none, rows) := by
          unfold dbUpdateRefreshSession
          simp only [Faults.none, Bool.false_eq_true, if_false]
          rw [if_pos hany]
          exact ⟨_, rfl⟩
        rcases hupd with ⟨rows, hupd⟩
        rw [hupd]
        simp only []
        refine ⟨trivial, ?_, { x with AccessToken := acc.SessionToken, LastActivityAt := now },
          hxE, ?_⟩
        · rw [RefreshSession_cache_access]
          simp [Faults.none]
        · rw [RefreshSession_cache_refresh]
          simp [Faults.none]

theorem UpdateRefreshSession_access (f : Faults) (now : Int) (jit : Jitter) (st : Store)
    (refreshToken newAccessToken : String) (t : String) :
    (UpdateRefreshSession f now jit st refreshToken newAccessToken).2.redis (accessSessionKey t) =
      st.redis (accessSessionKey t) := by
  unfold UpdateRefreshSession
  simp only []
  split
  · split
    · rfl
    · rename_i r1 hset
      unfold redisSet at hset
      split at hset
      · cases hset
      · cases hset
        simp only []
        rw [Function.update_noteq (accessSessionKey_ne_refresh _ _)]
  · rfl
  · rfl

theorem UpdateRefreshSession_refresh (now : Int) (jit : Jitter) (st : Store)
    (refreshToken newAccessToken : String) (x : UserSession) (d : Int)
    (h : st.redis (refreshSessionKey refreshToken) = some (.json x d)) (hd : now < d) :
    ∃ y d1, y.ExpiresAt = x.ExpiresAt ∧ now < d1 ∧
      (UpdateRefreshSession Faults.none now jit st refreshToken newAccessToken).2.redis
        (refreshSessionKey refreshToken) = some (.json y d1) := by
  have hg : redisGet Faults.none st.redis now (refreshSessionKey refreshToken) = .session x :=
    (redisGet_session_iff _ _ _ _ _).mpr ⟨rfl, d, h, hd⟩
  unfold UpdateRefreshSession
  simp only []
  rw [hg]
  refine ⟨{ x with AccessToken := newAccessToken, LastActivityAt := now },
    now + ttlWithJitter now x.ExpiresAt (jit 0), rfl, ?_, ?_⟩
  · have := ttlWithJitter_pos now x.ExpiresAt (jit 0)
    omega
  · simp [redisSet, Faults.none]

theorem ValidateToken_ok (f : Faults) (now : Int) (jit : Jitter) (st : State) (t : String)
    (s : UserSession) (h : (GetSession f now jit st.store t true).1 = .ok s) :
    (ValidateToken f now jit st t).1 = .ok s := by
  unfold ValidateToken
  cases hg : GetSession f now jit st.store t true with
  | mk res store1 =>
    rw [hg] at h
    simp only [] at h
    subst h
    rfl

/-- C6: in a reachable state, with stores that do not fail, a refresh token that parses, whose
session is found with at least one hour left, for a user that exists, with a newly minted access
token that does not yet resolve and a non-negative access lifetime: `RefreshToken` succeeds, the
response carries the same refresh token and the newly minted access token, the refresh token
still resolves afterwards and the new access token validates. -/
theorem C6_refresh_succeeds (svc : UserService) (st : State) (now : Int) (ent : Entropy)
    (r : String) (claims : Claims) (rs : UserSession) (store1 : Store) (user : User)
    (hR : Reachable svc st)
    (hparse : ParseToken svc.lib now r svc.jwtSecret = .ok claims)
    (hfound : GetSession Faults.none now ent.jitter st.store r false = (.ok rs, store1))
    (hlife : timeHour ≤ rs.ExpiresAt - now)
    (huser : dbGetByID st.users claims.UserID = some user)
    (hfresh : ∀ s, (GetSession Faults.none now ent.jitter st.store
      (orEmpty (GenerateToken svc.lib now (ent.nonce 0) claims.UserID "" svc.jwtSecret
        svc.accessExpiresIn)) true).1 ≠ .ok s)
    (hpos : 0 ≤ svc.accessExpiresIn) (jit : Jitter) :
    ∃ resp, (RefreshToken svc Faults.none now ent st r).1 = .ok resp ∧
      resp.RefreshToken = r ∧
      resp.AccessToken = orEmpty (GenerateToken svc.lib now (ent.nonce 0) claims.UserID ""
        svc.jwtSecret svc.accessExpiresIn) ∧
      (∃ s, (GetSession Faults.none now jit (RefreshToken svc Faults.none now ent st r).2.store
        r false).1 = .ok s) ∧
      (∃ s, (ValidateToken Faults.none now jit (RefreshToken svc Faults.none now ent st r).2
        resp.AccessToken).1 = .ok s) := by
  have hInv := Reachable_Inv svc st hR
  have hInv1 : Inv store1 := by
    have := GetSession_Inv st.store hInv now ent.jitter r false
    rw [hfound] at this
    exact this
  have hhour : (0 : Int) < timeHour := by decide
  -- the durable row behind the refresh session
  rcases GetSession_refresh_ok_cached st.store store1 now ent.jitter r rs hfound with ⟨d0, hd0, _⟩
  rcases hInv1.durable r rs d0 hd0 with ⟨row, hrow, htok, _, hact, hexp⟩
  have hkey : rs.SessionToken = r := hInv1.keyed r rs d0 hd0
  generalize hT : orEmpty (GenerateToken svc.lib now (ent.nonce 0) claims.UserID "" svc.jwtSecret
    svc.accessExpiresIn) = newTok at hfresh ⊢
  -- the stores after the old pair has been purged from the cache
  have hP := InvalidateAllUserSessions_none store1 hInv1 now rs.UserID false
  have hInvP := InvalidateAllUserSessions_Inv store1 hInv1 now rs.UserID false
  have hfreshP : ∀ (acc : UserSession), acc.SessionToken = newTok → ∀ s,
      (GetSession Faults.none now (ent.jitter.drop 1)
        (InvalidateAllUserSessions Faults.none now store1 rs.UserID false).2
        acc.SessionToken true).1 ≠ .ok s := by
    intro acc hacc s hs
    rw [hacc] at hs
    have h1 := (GetSession_access_ok_iff _ _ _ _ _ _).mp hs
    rcases ((redisGet_session_iff _ _ _ _ _).mp h1.1).2 with ⟨d, hd, hlt⟩
    rw [hP] at hd
    simp only [] at hd
    have h2 := (purge_owner store1 hInv1 rs.UserID _ s d hd).1
    have h3 : (GetSession Faults.none now ent.jitter store1 newTok true).1 = .ok s :=
      (GetSession_access_ok_iff _ _ _ _ _ _).mpr
        ⟨(redisGet_session_iff _ _ _ _ _).mpr ⟨rfl, d, h2, hlt⟩, h1.2⟩
    rw [GetSession_refresh_ok_resolves Faults.none now ent.jitter st.store store1 r rs hfound] at h3
    exact hfresh s h3
  have hrowP : row ∈ (InvalidateAllUserSessions Faults.none now store1 rs.UserID false).2.sessions := by
    rw [hP]
    exact hrow
  unfold RefreshToken
  rw [hparse]
  simp only []
  rw [hfound]
  simp only [one_mul]
  rw [if_neg (by omega)]
  simp only [hT]
  unfold RefreshSessionPair
  simp only [hkey]
  have hsucc := RefreshSession_succeeds _ hInvP now (ent.jitter.drop 1)
    { ID := "", UserID := claims.UserID, SessionToken := newTok,
      SessionType := "access", Platform := rs.Platform,
      ExpiresAt := now + svc.accessExpiresIn * timeSecond, LastActivityAt := now,
      IsActive := false, AccessToken := "", DeviceID := rs.DeviceID }
    r row (hfreshP _ rfl) hrowP htok hact (by omega)
  cases hrs : RefreshSession Faults.none now (ent.jitter.drop 1)
      (InvalidateAllUserSessions Faults.none now store1 rs.UserID false).2
      { ID := "", UserID := claims.UserID, SessionToken := newTok,
        SessionType := "access", Platform := rs.Platform,
        ExpiresAt := now + svc.accessExpiresIn * timeSecond, LastActivityAt := now,
        IsActive := false, AccessToken := "", DeviceID := rs.DeviceID } r with
  | mk e store2 =>
    rw [hrs] at hsucc
    simp only [] at hsucc
    rcases hsucc with ⟨he, hacc2, x, hxE, hx2⟩
    subst he
    rw [huser]
    simp only []
    refine ⟨_, rfl, rfl, rfl, ?_, ?_⟩
    · rcases UpdateRefreshSession_refresh now (ent.jitter.drop 5) store2 r newTok x _ hx2
        (by
          have := ttlWithJitter_pos now x.ExpiresAt ((ent.jitter.drop 1) 2)
          omega) with ⟨y, d1, hyE, hd1, hy⟩
      refine ⟨y, ?_⟩
      have hg : redisGet Faults.none
          (UpdateRefreshSession Faults.none now (ent.jitter.drop 5) store2 r newTok).2.redis now
          (refreshSessionKey r) = .session y :=
        (redisGet_session_iff _ _ _ _ _).mpr ⟨rfl, d1, hy, hd1⟩
      unfold GetSession
      simp only [Bool.false_eq_true, if_false]
      rw [hg]
      simp only []
      rw [if_neg (by omega)]
    · refine ⟨{ ID := "", UserID := claims.UserID, SessionToken := newTok,
                SessionType := "access", Platform := rs.Platform,
                ExpiresAt := now + svc.accessExpiresIn * timeSecond, LastActivityAt := now,
                IsActive := false, AccessToken := "", DeviceID := rs.DeviceID },
        ValidateToken_ok _ _ _ _ _ _ ?_⟩
      apply (GetSession_access_ok_iff _ _ _ _ _ _).mpr
      constructor
      · rw [redisGet_session_iff]
        refine ⟨rfl, now + ttlWithJitter now (now + svc.accessExpiresIn * timeSecond)
          ((ent.jitter.drop 1) 3), ?_, ?_⟩
        · simp only []
          rw [UpdateRefreshSession_access]
          exact hacc2
        · have := ttlWithJitter_pos now (now + svc.accessExpiresIn * timeSecond)
            ((ent.jitter.drop 1) 3)
          omega
      · simp only []
        have : 0 ≤ svc.accessExpiresIn * timeSecond := Int.mul_nonneg hpos (by decide)
        omega

/-- C6, witness: `alice` registers at instant `0` and refreshes at instant `10` with the refresh
token `ax` she was given. -/
theorem C6_refresh_succeeds_witness :
    ∃ resp, (RefreshToken sampleService Faults.none 10 (sampleEntropy "b") registeredState "ax").1
        = .ok resp ∧
      resp.RefreshToken = "ax" ∧
      resp.AccessToken = orEmpty (GenerateToken sampleService.lib 10 ((sampleEntropy "b").nonce 0)
        "ida" "" sampleService.jwtSecret sampleService.accessExpiresIn) ∧
      (∃ s, (GetSession Faults.none 10 jitter0
        (RefreshToken sampleService Faults.none 10 (sampleEntropy "b") registeredState "ax").2.store
        "ax" false).1 = .ok s) ∧
      (∃ s, (ValidateToken Faults.none 10 jitter0
        (RefreshToken sampleService Faults.none 10 (sampleEntropy "b") registeredState "ax").2
        resp.AccessToken).1 = .ok s) :=
  C6_refresh_succeeds sampleService registeredState 10 (sampleEntropy "b") "ax"
    { UserID := "ida", Username := "alice", Random := "ax", ExpiresAt := 0, IssuedAt := 0 }
    aliceRefresh registeredState.store aliceRow
    (Reachable.register emptyState false 0 (sampleEntropy "a") registerAlice Reachable.init)
    rfl rfl (by decide) rfl (fun s h => by cases h) (by decide) jitter0

/-! ## Password change -/

/-- Claim C20: `ChangePassword` leaves both tiers of the session store as they were, whether it
succeeds or fails, so `ValidateToken` answers every access token after the call as it did
before it. -/
theorem C20_change_password_keeps_sessions (svc : UserService) (updateFails : Bool)
    (salt : String) (st : State) (userID : String) (req : ChangePasswordRequest) :
    (ChangePassword svc updateFails salt st userID req).2.store = st.store ∧
    ∀ (f : Faults) (now : Int) (jit : Jitter) (accessToken : String),
      (ValidateToken f now jit (ChangePassword svc updateFails salt st userID req).2
          accessToken).1 = (ValidateToken f now jit st accessToken).1 := by
  have hstore : (ChangePassword svc updateFails salt st userID req).2.store = st.store := by
    unfold ChangePassword
    cases dbGetByID st.users userID with
    | none => rfl
    | some user =>
      by_cases hpw : svc.lib.compareHashAndPassword user.PasswordHash req.OldPassword = true
      · simp [hpw]
      · simp [hpw]
  refine ⟨hstore, ?_⟩
  intro f now jit accessToken
  unfold ValidateToken
  rw [hstore]
  cases GetSession f now jit st.store accessToken true with
  | mk r store1 => cases r <;> rfl

/-! ## Expiry in `GetSession` -/

/-- Whatever the stores hold and whichever calls fail, a session that `GetSession` returns has
not expired at the instant of the call. -/
theorem GetSession_ok_unexpired (f : Faults) (now : Int) (jit : Jitter) (st : Store)
    (token : String) (a : Bool) (x : UserSession)
    (h : (GetSession f now jit st token a).1 = .ok x) : now ≤ x.ExpiresAt := by
  cases a with
  | true => exact ((GetSession_access_ok_iff f now jit st token x).1 h).2
  | false =>
    have hp : GetSession f now jit st token false = (.ok x, (GetSession f now jit st token false).2) :=
      Prod.ext h rfl
    rcases GetSession_refresh_ok_cases f now jit st _ token x hp with ⟨_, hle, _⟩ | ⟨_, hdb, _⟩
    · exact hle
    · exact le_of_lt (dbGetActiveSession_ok f st.sessions token now x hdb).2.2.2

/-- The errors of the durable lookup. -/
theorem dbGetActiveSession_error (f : Faults) (rows : List UserSession) (token : String)
    (now : Int) (e : String) (h : dbGetActiveSession f rows token now = .error e) :
    e = dbUnavailable ∨ e = recordNotFound := by
  unfold dbGetActiveSession at h
  by_cases hf : f.dbGetActiveSession = true
  · rw [if_pos hf] at h
    exact Or.inl (Except.error.inj h).symm
  · rw [if_neg hf] at h
    cases hfind : rows.find? (fun row => row.SessionToken = token ∧ row.IsActive = true ∧
        now < row.ExpiresAt) with
    | none =>
      rw [hfind] at h
      exact Or.inr (Except.error.inj h).symm
    | some row =>
      rw [hfind] at h
      cases h

/-- The errors of `GetSession` are `redis.Nil` and those of the durable lookup; `ErrSessionExpired`
is not among them. -/
theorem GetSession_never_ErrSessionExpired (f : Faults) (now : Int) (jit : Jitter) (st : Store)
    (token : String) (a : Bool) :
    (GetSession f now jit st token a).1 ≠ .error ErrSessionExpired := by
  have hnil : redisNil ≠ ErrSessionExpired := by decide
  have hdown : dbUnavailable ≠ ErrSessionExpired := by decide
  have hnot : recordNotFound ≠ ErrSessionExpired := by decide
  have hmiss : ∀ key, (GetSession.miss f now jit st token a key).1 ≠ .error ErrSessionExpired := by
    intro key
    unfold GetSession.miss
    cases a with
    | true =>
      intro h
      exact hnil (Except.error.inj h)
    | false =>
      simp only [Bool.not_false, if_true]
      cases hdb : dbGetActiveSession f st.sessions token now with
      | error e =>
        intro h
        have he : e = ErrSessionExpired := Except.error.inj h
        rcases dbGetActiveSession_error f st.sessions token now e hdb with h1 | h1
        · exact hdown (h1 ▸ he)
        · exact hnot (h1 ▸ he)
      | ok session =>
        simp only []
        by_cases hexp : session.ExpiresAt < now
        · rw [if_pos hexp]
          intro h
          exact hnil (Except.error.inj h)
        · rw [if_neg hexp]
          intro h
          cases h
  unfold GetSession
  simp only []
  generalize (if a = true then accessSessionKey token else refreshSessionKey token) = key
  cases hg : redisGet f st.redis now key with
  | session x =>
    simp only []
    by_cases hexp : x.ExpiresAt < now
    · rw [if_pos hexp]
      intro h
      exact hnil (Except.error.inj h)
    · rw [if_neg hexp]
      intro h
      cases h
  | missing => exact hmiss key
  | failed => exact hmiss key
  | junk b => exact hmiss key

/-- Claim C14, as the code has it: `GetSession` never returns a session whose `ExpiresAt` lies
before `now`. A cached session found past its expiry is not returned: the call fails with
`redis.Nil`, its cache entry is deleted (when `DEL` does not fail), and every other cache key,
the index sets among them, and the durable table are left as they were. `redis.Nil` is also the
error for an access token that is not in the cache; a refresh token that neither tier holds
gives `record not found`; and no call returns `ErrSessionExpired`. -/
theorem C14_expired_not_returned (f : Faults) (now : Int) (jit : Jitter) (st : Store)
    (token : String) (a : Bool) (s : UserSession)
    (hfound : redisGet f st.redis now
      (if a then accessSessionKey token else refreshSessionKey token) = .session s)
    (hpast : s.ExpiresAt < now) :
    (GetSession f now jit st token a).1 = .error redisNil ∧
    (f.redisDel = false → (GetSession f now jit st token a).2.redis
      (if a then accessSessionKey token else refreshSessionKey token) = none) ∧
    (∀ k, k ≠ (if a then accessSessionKey token else refreshSessionKey token) →
      (GetSession f now jit st token a).2.redis k = st.redis k) ∧
    (∀ u, (GetSession f now jit st token a).2.redis (userSessionsKey u)
      = st.redis (userSessionsKey u)) ∧
    (GetSession f now jit st token a).2.sessions = st.sessions ∧
    (∀ (t : String) (b : Bool) (x : UserSession),
      (GetSession f now jit st t b).1 = .ok x → now ≤ x.ExpiresAt) ∧
    (∀ t : String, st.redis (accessSessionKey t) = none →
      (GetSession f now jit st t true).1 = .error redisNil) ∧
    (∀ t : String, st.redis (refreshSessionKey t) = none →
      (∀ row ∈ st.sessions, row.SessionToken ≠ t) → f.dbGetActiveSession = false →
      (GetSession f now jit st t false).1 = .error recordNotFound) ∧
    (∀ (t : String) (b : Bool), (GetSession f now jit st t b).1 ≠ .error ErrSessionExpired) := by
  have hother : ∀ k, k ≠ (if a then accessSessionKey token else refreshSessionKey token) →
      (GetSession f now jit st token a).2.redis k = st.redis k := by
    intro k hk
    unfold GetSession
    simp only [hfound, hpast, if_true]
    rw [tolerate_redisDel_apply, if_neg (fun h => hk h.2)]
  refine ⟨?_, ?_, hother, ?_, GetSession_sessions f now jit st token a, ?_, ?_, ?_, ?_⟩
  · unfold GetSession
    simp only [hfound, hpast, if_true]
  · intro hdel
    unfold GetSession
    simp only [hfound, hpast, if_true]
    rw [tolerate_redisDel_apply]
    simp [hdel]
  · intro u
    apply hother
    cases a with
    | true => exact fun h => accessSessionKey_ne_user token u h.symm
    | false => exact fun h => refreshSessionKey_ne_user token u h.symm
  · intro t b x h
    exact GetSession_ok_unexpired f now jit st t b x h
  · intro t ht
    unfold GetSession
    simp only [if_true]
    have hmiss : ∀ x, redisGet f st.redis now (accessSessionKey t) ≠ .session x := by
      intro x hx
      obtain ⟨_, d, hd, _⟩ := (redisGet_session_iff f st.redis now _ x).1 hx
      rw [ht] at hd
      cases hd
    cases hg : redisGet f st.redis now (accessSessionKey t) with
    | session x => exact absurd hg (hmiss x)
    | _ => simp [GetSession.miss]
  · intro t ht hrows hdb
    unfold GetSession
    simp only [Bool.false_eq_true, if_false]
    have hfind : st.sessions.find? (fun row => row.SessionToken = t ∧ row.IsActive = true ∧
        now < row.ExpiresAt) = none := by
      rw [List.find?_eq_none]
      intro row hrow
      simp [hrows row hrow]
    have hget : redisGet f st.redis now (refreshSessionKey t) = .failed ∨
        redisGet f st.redis now (refreshSessionKey t) = .missing := by
      unfold redisGet Redis.live
      rw [ht]
      by_cases hf : f.redisGet = true
      · exact Or.inl (by rw [if_pos hf])
      · exact Or.inr (by rw [if_neg hf])
    have hdbres : dbGetActiveSession f st.sessions t now = .error recordNotFound := by
      unfold dbGetActiveSession
      rw [if_neg (by simp [hdb]), hfind]
    rcases hget with hg | hg <;>
      simp [hg, GetSession.miss, hdbres]
  · intro t b
    exact GetSession_never_ErrSessionExpired f now jit st t b

/-- Claim C14 at a cached access session that expired at instant `100`, read at instant `150`. -/
theorem C14_expired_not_returned_witness :
    (GetSession Faults.none 150 jitter0 sampleCache.store "tokA" true).1 = .error redisNil ∧
    (Faults.none.redisDel = false →
      (GetSession Faults.none 150 jitter0 sampleCache.store "tokA" true).2.redis
        (if true then accessSessionKey "tokA" else refreshSessionKey "tokA") = none) ∧
    (∀ k, k ≠ (if true then accessSessionKey "tokA" else refreshSessionKey "tokA") →
      (GetSession Faults.none 150 jitter0 sampleCache.store "tokA" true).2.redis k
        = sampleCache.store.redis k) ∧
    (∀ u, (GetSession Faults.none 150 jitter0 sampleCache.store "tokA" true).2.redis
        (userSessionsKey u) = sampleCache.store.redis (userSessionsKey u)) ∧
    (GetSession Faults.none 150 jitter0 sampleCache.store "tokA" true).2.sessions
      = sampleCache.store.sessions ∧
    (∀ (t : String) (b : Bool) (x : UserSession),
      (GetSession Faults.none 150 jitter0 sampleCache.store t b).1 = .ok x →
        (150 : Int) ≤ x.ExpiresAt) ∧
    (∀ t : String, sampleCache.store.redis (accessSessionKey t) = none →
      (GetSession Faults.none 150 jitter0 sampleCache.store t true).1 = .error redisNil) ∧
    (∀ t : String, sampleCache.store.redis (refreshSessionKey t) = none →
      (∀ row ∈ sampleCache.store.sessions, row.SessionToken ≠ t) →
      Faults.none.dbGetActiveSession = false →
      (GetSession Faults.none 150 jitter0 sampleCache.store t false).1 = .error recordNotFound) ∧
    (∀ (t : String) (b : Bool),
      (GetSession Faults.none 150 jitter0 sampleCache.store t b).1 ≠ .error ErrSessionExpired) :=
  C14_expired_not_returned Faults.none 150 jitter0 sampleCache.store "tokA" true sampleAccess rfl
    (by decide)

/-- Claim C14 as stated fails: for a cached session found past its expiry `GetSession` reports
`redis.Nil`, exactly what it reports for an access token that was never stored, and not
`ErrSessionExpired`. -/
theorem C14_counterexample :
    redisGet Faults.none sampleCache.store.redis 150 (accessSessionKey "tokA")
      = .session sampleAccess ∧
    sampleAccess.ExpiresAt < 150 ∧
    (GetSession Faults.none 150 jitter0 sampleCache.store "tokA" true).1 = .error redisNil ∧
    (GetSession Faults.none 150 jitter0 sampleCache.store "never-issued" true).1
      = .error redisNil ∧
    redisNil ≠ ErrSessionExpired := by
  refine ⟨rfl, by decide, rfl, rfl, by decide⟩

/-! ## `InvalidateSession` -/

/-- After a `SREM` that did not fail, the set under the key does not list the removed member. -/
theorem redisSRem_none_index (r : Redis) (now : Int) (key m : String) (ms : List String)
    (h : tolerate r (redisSRem Faults.none r now key m) key = some (.set ms)) : m ∉ ms := by
  unfold tolerate redisSRem Redis.live at h
  simp only [Faults.none, Bool.false_eq_true, if_false] at h
  cases hk : r key with
  | none => simp [hk] at h
  | some v =>
    cases v with
    | json s d =>
      rw [hk] at h
      by_cases hd : now < d
      · simp [hd, hk] at h
      · simp [hd, hk] at h
    | raw b d =>
      rw [hk] at h
      by_cases hd : now < d
      · simp [hd, hk] at h
      · simp [hd, hk] at h
    | set ms0 =>
      rw [hk] at h
      simp only [] at h
      by_cases he : ms0.filter (fun x => x ≠ m) = []
      · rw [if_pos he] at h
        simp at h
      · simp only [he, if_false, Option.getD_some, Function.update_same, Option.some.injEq,
          RedisValue.set.injEq] at h
        intro hm
        rw [← h] at hm
        simp at hm

/-- Claim C15, as the code has it: after `InvalidateSession(token, isAccess)` with store calls
that do not fail, the cache holds no entry under the token's key; when the cache held a session
under that key at the call, the index set of that session's owner does not list the key; and
for a refresh token every durable record with that token is inactive. The index is consulted
only through the cached session: without one it is left as it was. -/
theorem C15_invalidate_session (now : Int) (st : Store) (token : String) (a : Bool) :
    (InvalidateSession Faults.none now st token a).2.redis
      (if a then accessSessionKey token else refreshSessionKey token) = none ∧
    (∀ s, redisGet Faults.none st.redis now
        (if a then accessSessionKey token else refreshSessionKey token) = .session s →
      ∀ ms, (InvalidateSession Faults.none now st token a).2.redis (userSessionsKey s.UserID)
        = some (.set ms) → (if a then accessSessionKey token else refreshSessionKey token) ∉ ms) ∧
    ((∀ s, redisGet Faults.none st.redis now
        (if a then accessSessionKey token else refreshSessionKey token) ≠ .session s) →
      ∀ u, (InvalidateSession Faults.none now st token a).2.redis (userSessionsKey u)
        = st.redis (userSessionsKey u)) ∧
    (a = false → ∀ row ∈ (InvalidateSession Faults.none now st token a).2.sessions,
      row.SessionToken = token → row.IsActive = false) := by
  have hne : ∀ u, userSessionsKey u ≠ (if a then accessSessionKey token else refreshSessionKey token) := by
    intro u
    cases a with
    | true => exact fun h => accessSessionKey_ne_user token u h.symm
    | false => exact fun h => refreshSessionKey_ne_user token u h.symm
  have hredis : ∀ k, (InvalidateSession Faults.none now st token a).2.redis k =
      if k = (if a then accessSessionKey token else refreshSessionKey token) then none
      else (match redisGet Faults.none st.redis now
          (if a then accessSessionKey token else refreshSessionKey token) with
        | .session session =>
            tolerate st.redis (redisSRem Faults.none st.redis now (userSessionsKey session.UserID)
              (if a then accessSessionKey token else refreshSessionKey token))
        | _ => st.redis) k := by
    intro k
    unfold InvalidateSession
    cases a with
    | true =>
      simp only [Bool.not_true, Bool.false_eq_true, if_false, if_true]
      rw [tolerate_redisDel_apply]
      have hdel : Faults.none.redisDel = false := rfl
      simp only [hdel, true_and]
    | false =>
      simp only [Bool.not_false, if_true, Bool.false_eq_true, if_false]
      rw [tolerate_redisDel_apply]
      have hdel : Faults.none.redisDel = false := rfl
      simp only [hdel, true_and]
  refine ⟨?_, ?_, ?_, ?_⟩
  · rw [hredis]
    simp
  · intro s hs ms hms
    rw [hredis, if_neg (hne s.UserID), hs] at hms
    exact redisSRem_none_index st.redis now _ _ ms hms
  · intro hno u
    rw [hredis, if_neg (hne u)]
    cases hg : redisGet Faults.none st.redis now
        (if a then accessSessionKey token else refreshSessionKey token) with
    | session s => exact absurd hg (hno s)
    | junk b => rfl
    | missing => rfl
    | failed => rfl
  · intro ha row hrow htok
    subst ha
    unfold InvalidateSession dbInvalidateSession at hrow
    simp only [Bool.not_false, if_true, Faults.none, Bool.false_eq_true, if_false,
      List.mem_map] at hrow
    obtain ⟨row0, _, hrow0⟩ := hrow
    by_cases h0 : row0.SessionToken = token
    · rw [if_pos h0] at hrow0
      rw [← hrow0]
    · rw [if_neg h0] at hrow0
      rw [← hrow0] at htok
      exact absurd htok h0

/-- Claim C15 as stated fails: after `alice` registered at instant `0`, her access session is
cached under `access_session:a` and listed in her index set; once the TTL of the cache entry has
run out (instant `8000 s`), `InvalidateSession` of that access token finds no cached session,
so it does not learn the owner and her index set still lists the key. -/
theorem C15_counterexample :
    (∃ s d, registeredState.store.redis (accessSessionKey "a") = some (.json s d) ∧
      s.UserID = "ida") ∧
    (InvalidateSession Faults.none (8000 * timeSecond) registeredState.store "a" true).1 = none ∧
    (InvalidateSession Faults.none (8000 * timeSecond) registeredState.store "a" true).2.redis
      (userSessionsKey "ida") = some (.set [accessSessionKey "a", refreshSessionKey "ax"]) ∧
    accessSessionKey "a" ∈ [accessSessionKey "a", refreshSessionKey "ax"] :=
  ⟨⟨_, _, rfl, rfl⟩, rfl, rfl, List.mem_cons_self _ _⟩

/-! ## Idempotence of `InvalidateAllUserSessions` -/

/-- The call in closed form, once `SMEMBERS` has answered with `keys`. -/
theorem InvalidateAllUserSessions_members (now : Int) (st : Store) (u : String) (d : Bool)
    (keys : List String)
    (hkeys : redisSMembers Faults.none st.redis now (userSessionsKey u) = some keys) :
    InvalidateAllUserSessions Faults.none now st u d =
      (none, { redis := fun k => if k = userSessionsKey u ∨ k ∈ keys then none else st.redis k,
               sessions := if d then
                   st.sessions.map (fun row =>
                     if row.UserID = u ∧ row.IsActive = true then { row with IsActive := false }
                     else row)
                 else st.sessions }) := by
  unfold InvalidateAllUserSessions
  simp only []
  rw [hkeys]
  simp only []
  have hr : tolerate (List.foldl (fun r key => tolerate r (redisDel Faults.none r key)) st.redis
        keys)
      (redisDel Faults.none (List.foldl (fun r key => tolerate r (redisDel Faults.none r key))
        st.redis keys) (userSessionsKey u)) =
      fun k => if k = userSessionsKey u ∨ k ∈ keys then none else st.redis k := by
    funext k
    rw [tolerate_redisDel_apply, foldl_redisDel_apply]
    by_cases h1 : k = userSessionsKey u
    · simp [h1, Faults.none]
    · simp [h1]
  rw [hr]
  cases d
  · rfl
  · simp [dbInvalidateAllUserSessions, Faults.none]

/-- The index read answers with no member on a cache that holds nothing under the index key. -/
theorem redisSMembers_absent (r : Redis) (now : Int) (key : String) (h : r key = none) :
    redisSMembers Faults.none r now key = some [] := by
  unfold redisSMembers Redis.live
  rw [h]
  rfl

/-- The index read does not fail on an index key that holds a set, if anything. -/
theorem redisSMembers_typed (r : Redis) (now : Int) (key : String)
    (htyped : ∀ v, r key = some v → ∃ ms, v = .set ms) :
    ∃ keys, redisSMembers Faults.none r now key = some keys := by
  cases hk : r key with
  | none => exact ⟨[], redisSMembers_absent r now key hk⟩
  | some v =>
    obtain ⟨ms, rfl⟩ := htyped v hk
    refine ⟨ms, ?_⟩
    unfold redisSMembers Redis.live
    rw [hk]
    rfl

/-- Claim C16: with store calls that do not fail, running `InvalidateAllUserSessions(p, d)` a
second time returns the same result and leaves the same stores as the first run; the result is
ok whenever the index key of `p` holds a set or nothing, and then a second run at any later
instant is ok and changes nothing; when the index of `p` has no member the call is ok, no key
other than the index key changes, the index key holds nothing afterwards, and a cache that held
nothing under the index key is left exactly as it was. -/
theorem C16_invalidate_all_idempotent (now : Int) (st : Store) (p : String) (d : Bool) :
    InvalidateAllUserSessions Faults.none now
        (InvalidateAllUserSessions Faults.none now st p d).2 p d
      = InvalidateAllUserSessions Faults.none now st p d ∧
    ((∀ v, st.redis (userSessionsKey p) = some v → ∃ ms, v = .set ms) →
      (InvalidateAllUserSessions Faults.none now st p d).1 = none ∧
      ∀ now2, InvalidateAllUserSessions Faults.none now2
          (InvalidateAllUserSessions Faults.none now st p d).2 p d
        = (none, (InvalidateAllUserSessions Faults.none now st p d).2)) ∧
    (redisSMembers Faults.none st.redis now (userSessionsKey p) = some [] →
      (InvalidateAllUserSessions Faults.none now st p d).1 = none ∧
      (∀ k, k ≠ userSessionsKey p →
        (InvalidateAllUserSessions Faults.none now st p d).2.redis k = st.redis k) ∧
      (InvalidateAllUserSessions Faults.none now st p d).2.redis (userSessionsKey p) = none ∧
      (st.redis (userSessionsKey p) = none →
        (InvalidateAllUserSessions Faults.none now st p d).2.redis = st.redis)) := by
  have hagain : ∀ keys, redisSMembers Faults.none st.redis now (userSessionsKey p) = some keys →
      ∀ now2, InvalidateAllUserSessions Faults.none now2
          (InvalidateAllUserSessions Faults.none now st p d).2 p d
        = (none, (InvalidateAllUserSessions Faults.none now st p d).2) := by
    intro keys hkeys now2
    rw [InvalidateAllUserSessions_members now st p d keys hkeys]
    have habs : redisSMembers Faults.none
        (fun k => if k = userSessionsKey p ∨ k ∈ keys then none else st.redis k) now2
        (userSessionsKey p) = some [] :=
      redisSMembers_absent _ now2 _ (by simp)
    rw [InvalidateAllUserSessions_members now2 _ p d [] habs]
    refine Prod.ext rfl ?_
    have hredis : (fun k => if k = userSessionsKey p ∨ k ∈ ([] : List String) then none
        else (if k = userSessionsKey p ∨ k ∈ keys then none else st.redis k)) =
        fun k => if k = userSessionsKey p ∨ k ∈ keys then none else st.redis k := by
      funext k
      by_cases h1 : k = userSessionsKey p
      · simp [h1]
      · simp [h1]
    have hrows : (if d then
          (if d then st.sessions.map (fun row =>
              if row.UserID = p ∧ row.IsActive = true then { row with IsActive := false }
              else row)
            else st.sessions).map (fun row =>
              if row.UserID = p ∧ row.IsActive = true then { row with IsActive := false }
              else row)
        else (if d then st.sessions.map (fun row =>
              if row.UserID = p ∧ row.IsActive = true then { row with IsActive := false }
              else row)
            else st.sessions)) =
        (if d then st.sessions.map (fun row =>
              if row.UserID = p ∧ row.IsActive = true then { row with IsActive := false }
              else row)
            else st.sessions) := by
      cases d with
      | false => rfl
      | true =>
        simp only [if_true, List.map_map]
        apply List.map_congr_left
        intro row _
        simp only [Function.comp]
        by_cases hrow : row.UserID = p ∧ row.IsActive = true
        · simp [hrow]
        · simp [hrow]
    show Store.mk _ _ = Store.mk _ _
    simp only [hredis, hrows]
  refine ⟨?_, ?_, ?_⟩
  · cases hm : redisSMembers Faults.none st.redis now (userSessionsKey p) with
    | none =>
      have h1 : InvalidateAllUserSessions Faults.none now st p d
          = (some "redis: smembers failed", st) := by
        unfold InvalidateAllUserSessions
        simp only []
        rw [hm]
      rw [h1]
      exact h1
    | some keys =>
      rw [hagain keys hm now]
      exact Prod.ext (by rw [InvalidateAllUserSessions_members now st p d keys hm]) rfl
  · intro htyped
    obtain ⟨keys, hkeys⟩ := redisSMembers_typed st.redis now (userSessionsKey p) htyped
    exact ⟨by rw [InvalidateAllUserSessions_members now st p d keys hkeys], hagain keys hkeys⟩
  · intro hempty
    rw [InvalidateAllUserSessions_members now st p d [] hempty]
    refine ⟨rfl, ?_, ?_, ?_⟩
    · intro k hk
      simp [hk]
    · simp
    · intro habs
      funext k
      by_cases hk : k = userSessionsKey p
      · simp [hk, habs]
      · simp [hk]

/-! ## The back-reference written by `RefreshSession` -/

/-- A durable update of a refresh session that succeeds found a row of kind refresh with the
token, and it returns the table with the last-activity time of such rows set. -/
theorem dbUpdateRefreshSession_ok (f : Faults) (rows : List UserSession)
    (refreshToken newAccessToken : String) (t : Int)
    (h : (dbUpdateRefreshSession f rows refreshToken newAccessToken t).1 = none) :
    (dbUpdateRefreshSession f rows refreshToken newAccessToken t).2 =
      rows.map (fun row =>
        if row.SessionToken = refreshToken ∧ row.SessionType = "refresh" then
          { row with LastActivityAt := t }
        else row) ∧
    ∃ row ∈ rows, row.SessionToken = refreshToken ∧ row.SessionType = "refresh" := by
  unfold dbUpdateRefreshSession at h ⊢
  by_cases hf : f.dbUpdateRefreshSession = true
  · simp [hf] at h
  · simp only [hf, Bool.false_eq_true, if_false] at h ⊢
    by_cases hex : ∃ x ∈ rows, x.SessionToken = refreshToken ∧ x.SessionType = "refresh"
    · exact ⟨by simp [hex], hex⟩
    · simp [hex] at h

/-- Claim C19, as the code has it: after a successful `RefreshSession(newAccessSession,
refreshToken)` the cached refresh session (when `SET` did not fail) carries the back-reference
`newAccessSession.SessionToken` and the last-activity time `now`; the durable table holds a
refresh row with the token, every such row carries the last-activity time `now`, and the
back-reference is written to no row: the table has no column for it. -/
theorem C19_refresh_session_update (f : Faults) (now : Int) (jit : Jitter) (st : Store)
    (acc : UserSession) (refreshToken : String)
    (hok : (RefreshSession f now jit st acc refreshToken).1 = none) :
    (f.redisSet = false → ∃ x d,
      (RefreshSession f now jit st acc refreshToken).2.redis (refreshSessionKey refreshToken)
        = some (.json x d) ∧ now < d ∧
      x.AccessToken = acc.SessionToken ∧ x.LastActivityAt = now) ∧
    (∃ row ∈ (RefreshSession f now jit st acc refreshToken).2.sessions,
      row.SessionToken = refreshToken ∧ row.SessionType = "refresh" ∧ row.LastActivityAt = now) ∧
    (∀ row ∈ (RefreshSession f now jit st acc refreshToken).2.sessions,
      row.SessionToken = refreshToken → row.SessionType = "refresh" → row.LastActivityAt = now) ∧
    (RefreshSession f now jit st acc refreshToken).2.sessions.map (fun row => row.AccessToken)
      = st.sessions.map (fun row => row.AccessToken) := by
  unfold RefreshSession at hok ⊢
  have hrows1 := GetSession_sessions f now jit st acc.SessionToken true
  cases h1 : GetSession f now jit st acc.SessionToken true with
  | mk res1 st1 =>
    rw [h1] at hok hrows1
    simp only [] at hok hrows1 ⊢
    cases res1 with
    | ok s1 => simp at hok
    | error e1 =>
      simp only [] at hok ⊢
      have hrows2 := GetSession_sessions f now (jit.drop 1) st1 refreshToken false
      cases h2 : GetSession f now (jit.drop 1) st1 refreshToken false with
      | mk res2 st2 =>
        rw [h2] at hok hrows2
        simp only [] at hok hrows2 ⊢
        cases res2 with
        | error e2 => simp at hok
        | ok existing =>
          simp only [] at hok ⊢
          cases h3 : dbUpdateRefreshSession f st2.sessions refreshToken acc.SessionToken now with
          | mk err rows =>
            rw [h3] at hok
            cases err with
            | some e3 => simp at hok
            | none =>
              simp only []
              have hdb := dbUpdateRefreshSession_ok f st2.sessions refreshToken acc.SessionToken
                now (by rw [h3])
              rw [h3, hrows2, hrows1] at hdb
              simp only [] at hdb
              obtain ⟨hmap, row0, hrow0, htok0, hkind0⟩ := hdb
              refine ⟨?_, ?_, ?_, ?_⟩
              · intro hset
                refine ⟨{ existing with AccessToken := acc.SessionToken, LastActivityAt := now },
                  now + ttlWithJitter now existing.ExpiresAt (jit 2), ?_, ?_, rfl, rfl⟩
                · rw [RefreshSession_cache_refresh, if_pos hset]
                · have := ttlWithJitter_pos now existing.ExpiresAt (jit 2)
                  linarith
              · refine ⟨{ row0 with LastActivityAt := now }, ?_, htok0, hkind0, rfl⟩
                rw [hmap, List.mem_map]
                exact ⟨row0, hrow0, by rw [if_pos ⟨htok0, hkind0⟩]⟩
              · intro row hrow htok hkind
                rw [hmap, List.mem_map] at hrow
                obtain ⟨row1, _, hrow1⟩ := hrow
                by_cases hhit : row1.SessionToken = refreshToken ∧ row1.SessionType = "refresh"
                · rw [if_pos hhit] at hrow1
                  rw [← hrow1]
                · rw [if_neg hhit] at hrow1
                  rw [← hrow1] at htok hkind
                  exact absurd ⟨htok, hkind⟩ hhit
              · rw [hmap, List.map_map]
                apply List.map_congr_left
                intro row _
                simp only [Function.comp]
                by_cases hhit : row.SessionToken = refreshToken ∧ row.SessionType = "refresh"
                · rw [if_pos hhit]
                · rw [if_neg hhit]

/-- Claim C19 at the registered `alice`: a new access session refreshed against her refresh
token at instant `10`. -/
theorem C19_refresh_session_update_witness :
    (Faults.none.redisSet = false → ∃ x d,
      (RefreshSession Faults.none 10 jitter0 registeredState.store sampleNewAccess "ax").2.redis
        (refreshSessionKey "ax") = some (.json x d) ∧ (10 : Int) < d ∧
      x.AccessToken = sampleNewAccess.SessionToken ∧ x.LastActivityAt = 10) ∧
    (∃ row ∈ (RefreshSession Faults.none 10 jitter0 registeredState.store sampleNewAccess
        "ax").2.sessions,
      row.SessionToken = "ax" ∧ row.SessionType = "refresh" ∧ row.LastActivityAt = 10) ∧
    (∀ row ∈ (RefreshSession Faults.none 10 jitter0 registeredState.store sampleNewAccess
        "ax").2.sessions,
      row.SessionToken = "ax" → row.SessionType = "refresh" → row.LastActivityAt = 10) ∧
    (RefreshSession Faults.none 10 jitter0 registeredState.store sampleNewAccess
        "ax").2.sessions.map (fun row => row.AccessToken)
      = registeredState.store.sessions.map (fun row => row.AccessToken) :=
  C19_refresh_session_update Faults.none 10 jitter0 registeredState.store sampleNewAccess "ax" rfl

/-- Claim C19 as stated fails: `RefreshSession` of the registered `alice` succeeds, and the
durable refresh record carries the new last-activity time but not the back-reference to the
new access token `new`. -/
theorem C19_counterexample :
    (RefreshSession Faults.none 10 jitter0 registeredState.store sampleNewAccess "ax").1 = none ∧
    sampleNewAccess.SessionToken = "new" ∧
    (RefreshSession Faults.none 10 jitter0 registeredState.store sampleNewAccess "ax").2.sessions
      = [{ aliceRefresh with LastActivityAt := 10 }] ∧
    ({ aliceRefresh with LastActivityAt := 10 } : UserSession).AccessToken = "" :=
  ⟨rfl, rfl, rfl, rfl⟩

/-! ## Read-through of a refresh session -/

/-- Claim C13: when the cache holds no entry for a refresh token while the durable table holds an
active, unexpired record for it, `GetSession(token, false)` with store calls that do not fail
returns that record; afterwards the cache holds the record under the refresh key, with a TTL
that has not run out, and the index set of the record's owner lists that key. The table's
unique index on the token and an index key that holds a set, if anything, are assumed. -/
theorem C13_refresh_read_through (now : Int) (jit : Jitter) (st : Store) (token : String)
    (row : UserSession)
    (habsent : redisGet Faults.none st.redis now (refreshSessionKey token) = .missing)
    (hrow : row ∈ st.sessions) (htok : row.SessionToken = token) (hact : row.IsActive = true)
    (hlive : now < row.ExpiresAt)
    (hunique : st.sessions.Pairwise (fun a b => a.SessionToken ≠ b.SessionToken))
    (htyped : ∀ v, st.redis (userSessionsKey row.UserID) = some v → ∃ ms, v = .set ms) :
    (GetSession Faults.none now jit st token false).1 = .ok row ∧
    (∃ d, (GetSession Faults.none now jit st token false).2.redis (refreshSessionKey token)
      = some (.json row d) ∧ now < d) ∧
    (∃ ms, (GetSession Faults.none now jit st token false).2.redis (userSessionsKey row.UserID)
      = some (.set ms) ∧ refreshSessionKey token ∈ ms) ∧
    (GetSession Faults.none now jit st token false).2.sessions = st.sessions := by
  obtain ⟨row1, hdb⟩ := dbGetActiveSession_complete st.sessions token now row hrow htok hact hlive
  have h1 := dbGetActiveSession_ok Faults.none st.sessions token now row1 hdb
  have heq : row1 = row := rows_unique st.sessions hunique row1 row h1.1 hrow (by rw [h1.2.1, htok])
  subst heq
  have hnot : ¬ row1.ExpiresAt < now := not_lt.mpr (le_of_lt hlive)
  have hget : GetSession Faults.none now jit st token false =
      (.ok row1, { st with
        redis := GetSession.writeBack Faults.none now jit st.redis (refreshSessionKey token)
          row1 }) := by
    unfold GetSession
    simp only [Bool.false_eq_true, if_false, habsent]
    unfold GetSession.miss
    simp only [Bool.not_false, if_true, hdb, hnot, if_false]
  rw [hget]
  refine ⟨rfl, ?_, ?_, rfl⟩
  · refine ⟨now + ttlWithJitter now row1.ExpiresAt (jit 0), ?_, ?_⟩
    · show GetSession.writeBack Faults.none now jit st.redis (refreshSessionKey token) row1
          (refreshSessionKey token) = _
      rw [writeBack_apply _ _ _ _ _ _ _ (refreshSessionKey_ne_user token row1.UserID)]
      simp [Faults.none]
    · have := ttlWithJitter_pos now row1.ExpiresAt (jit 0)
      linarith
  · show ∃ ms, GetSession.writeBack Faults.none now jit st.redis (refreshSessionKey token) row1
        (userSessionsKey row1.UserID) = some (.set ms) ∧ refreshSessionKey token ∈ ms
    unfold GetSession.writeBack
    have htyped1 : ∀ v, tolerate st.redis (redisSet Faults.none st.redis now
          (refreshSessionKey token) row1 (ttlWithJitter now row1.ExpiresAt (jit 0)))
        (userSessionsKey row1.UserID) = some v → ∃ ms, v = .set ms := by
      intro v hv
      rw [tolerate_redisSet_apply] at hv
      have hne : userSessionsKey row1.UserID ≠ refreshSessionKey token :=
        fun h => refreshSessionKey_ne_user token row1.UserID h.symm
      simp only [hne, and_false, if_false] at hv
      exact htyped v hv
    obtain ⟨ms1, hms1, hmem⟩ := redisSAdd_none_index _ now row1.UserID [refreshSessionKey token]
      htyped1
    exact ⟨ms1, hms1, (hmem _).2 (Or.inl (List.mem_singleton_self _))⟩

/-- Claim C13 at a table that holds the refresh record of `alice` next to an empty cache. -/
theorem C13_refresh_read_through_witness :
    (GetSession Faults.none 5 jitter0
      { redis := fun _ => none, sessions := [{ sampleRefresh with AccessToken := "" }] }
      "refreshA" false).1 = .ok { sampleRefresh with AccessToken := "" } ∧
    (∃ d, (GetSession Faults.none 5 jitter0
      { redis := fun _ => none, sessions := [{ sampleRefresh with AccessToken := "" }] }
      "refreshA" false).2.redis (refreshSessionKey "refreshA")
      = some (.json { sampleRefresh with AccessToken := "" } d) ∧ (5 : Int) < d) ∧
    (∃ ms, (GetSession Faults.none 5 jitter0
      { redis := fun _ => none, sessions := [{ sampleRefresh with AccessToken := "" }] }
      "refreshA" false).2.redis
        (userSessionsKey ({ sampleRefresh with AccessToken := "" } : UserSession).UserID)
      = some (.set ms) ∧ refreshSessionKey "refreshA" ∈ ms) ∧
    (GetSession Faults.none 5 jitter0
      { redis := fun _ => none, sessions := [{ sampleRefresh with AccessToken := "" }] }
      "refreshA" false).2.sessions = [{ sampleRefresh with AccessToken := "" }] :=
  C13_refresh_read_through 5 jitter0
    { redis := fun _ => none, sessions := [{ sampleRefresh with AccessToken := "" }] }
    "refreshA" { sampleRefresh with AccessToken := "" } rfl (List.mem_singleton_self _) rfl rfl
    (by decide) (List.pairwise_singleton _ _) (fun v hv => by cases hv)

/-! ## `CreateSessionPair` on fresh tokens -/

/-- A `GetSession` that fails leaves every cache key as it was, except that it may have deleted
the key it looked up. -/
theorem GetSession_error_redis (f : Faults) (now : Int) (jit : Jitter) (st : Store)
    (token : String) (a : Bool) (e : String)
    (h : (GetSession f now jit st token a).1 = .error e) (k : String) :
    (GetSession f now jit st token a).2.redis k = st.redis k ∨
    (k = (if a then accessSessionKey token else refreshSessionKey token) ∧
      (GetSession f now jit st token a).2.redis k = none) := by
  unfold GetSession at h ⊢
  simp only [] at h ⊢
  cases hg : redisGet f st.redis now
      (if a then accessSessionKey token else refreshSessionKey token) with
  | session s =>
    rw [hg] at h
    simp only [] at h ⊢
    by_cases hexp : s.ExpiresAt < now
    · simp only [hexp, if_true]
      rw [tolerate_redisDel_apply]
      by_cases hc : f.redisDel = false ∧
          k = (if a then accessSessionKey token else refreshSessionKey token)
      · right
        exact ⟨hc.2, by rw [if_pos hc]⟩
      · left
        rw [if_neg hc]
    · simp [hexp] at h
  | junk b =>
    rw [hg] at h
    simp only [] at h ⊢
    left
    unfold GetSession.miss at h ⊢
    cases a with
    | true => rfl
    | false =>
      simp only [Bool.not_false, if_true] at h ⊢
      cases hdb : dbGetActiveSession f st.sessions token now with
      | error e1 => rfl
      | ok s =>
        rw [hdb] at h
        simp only [] at h ⊢
        by_cases hexp : s.ExpiresAt < now
        · simp only [hexp, if_true]
        · simp [hexp] at h
  | missing =>
    rw [hg] at h
    simp only [] at h ⊢
    left
    unfold GetSession.miss at h ⊢
    cases a with
    | true => rfl
    | false =>
      simp only [Bool.not_false, if_true] at h ⊢
      cases hdb : dbGetActiveSession f st.sessions token now with
      | error e1 => rfl
      | ok s =>
        rw [hdb] at h
        simp only [] at h ⊢
        by_cases hexp : s.ExpiresAt < now
        · simp only [hexp, if_true]
        · simp [hexp] at h
  | failed =>
    rw [hg] at h
    simp only [] at h ⊢
    left
    unfold GetSession.miss at h ⊢
    cases a with
    | true => rfl
    | false =>
      simp only [Bool.not_false, if_true] at h ⊢
      cases hdb : dbGetActiveSession f st.sessions token now with
      | error e1 => rfl
      | ok s =>
        rw [hdb] at h
        simp only [] at h ⊢
        by_cases hexp : s.ExpiresAt < now
        · simp only [hexp, if_true]
        · simp [hexp] at h

theorem CreateSessionPair_cache_refresh (f : Faults) (now : Int) (jit : Jitter) (r : Redis)
    (acc rs : UserSession) (t : String) :
    CreateSessionPair.cache f now jit r acc rs (refreshSessionKey t) =
      if f.redisSet = false ∧ t = rs.SessionToken then
        some (.json rs (now + ttlWithJitter now rs.ExpiresAt (jit 3)))
      else r (refreshSessionKey t) := by
  unfold CreateSessionPair.cache
  rw [tolerate_redisSAdd_apply_ne _ _ _ _ _ _ (refreshSessionKey_ne_user _ _),
    tolerate_redisSet_apply, tolerate_redisSet_apply]
  have hne : ¬ (f.redisSet = false ∧
      refreshSessionKey t = accessSessionKey acc.SessionToken) := by
    rintro ⟨_, h2⟩
    exact accessSessionKey_ne_refresh _ _ h2.symm
  rw [if_neg hne]
  simp only [refreshSessionKey_inj]

/-- The durable write of `CreateSessionPair` succeeds at its first attempt when no failure is
injected and no row carries the token or the primary key of the new record. -/
theorem persist_fresh (dup uuid : String) (rows : List UserSession) (s : UserSession)
    (hfresh : ∀ row ∈ rows,
      row.SessionToken ≠ s.SessionToken ∧ row.ID ≠ (sessionDefaults uuid s).ID) :
    CreateSessionPair.persist Faults.none dup uuid 2 0 rows s none =
      (none, rows ++ [{ sessionDefaults uuid s with AccessToken := "" }],
        sessionDefaults uuid s) := by
  have hany : (rows.any fun row =>
      decide (row.SessionToken = (sessionDefaults uuid s).SessionToken ∨
        row.ID = (sessionDefaults uuid s).ID)) = false := by
    rw [List.any_eq_false]
    intro row hrow
    have h := hfresh row hrow
    have htok : (sessionDefaults uuid s).SessionToken = s.SessionToken := rfl
    rw [htok]
    simp [h.1, h.2]
  unfold CreateSessionPair.persist dbCreateSession
  simp only [Faults.none, hany, Bool.false_eq_true, if_false]

/-- A live cached session that has not expired is what `GetSession` returns. -/
theorem GetSession_cached_ok (f : Faults) (now : Int) (jit : Jitter) (st : Store)
    (token : String) (a : Bool) (s : UserSession)
    (hget : redisGet f st.redis now
      (if a then accessSessionKey token else refreshSessionKey token) = .session s)
    (hlive : now ≤ s.ExpiresAt) :
    (GetSession f now jit st token a).1 = .ok s := by
  unfold GetSession
  simp only [hget, not_lt.mpr hlive, if_false]

/-- Claim C11: let neither token resolve to an existing session, let no store call fail (no
injected failure, no row with the token or primary key of the new record, an index key that
holds a set if anything) and let neither session be expired already. Then `CreateSessionPair`
returns ok; afterwards the durable table holds the refresh record, `GetSession(access token,
true)` returns the access session and `GetSession(refresh token, false)` the refresh record as
the durable write left it, and the index set of the principal lists both cache keys. -/
theorem C11_create_session_pair (dup uuid : String) (now : Int) (jit : Jitter) (st : Store)
    (acc rs : UserSession)
    (hacc : ∀ s, (GetSession Faults.none now jit st acc.SessionToken true).1 ≠ .ok s)
    (hrs : ∀ s, (GetSession Faults.none now jit st rs.SessionToken false).1 ≠ .ok s)
    (hfresh : ∀ row ∈ st.sessions,
      row.SessionToken ≠ rs.SessionToken ∧ row.ID ≠ (sessionDefaults uuid rs).ID)
    (htyped : ∀ v, st.redis (userSessionsKey acc.UserID) = some v → ∃ ms, v = .set ms)
    (hlive : now ≤ acc.ExpiresAt ∧ now ≤ rs.ExpiresAt) :
    (CreateSessionPair Faults.none dup uuid now jit st acc rs).1 = none ∧
    (CreateSessionPair Faults.none dup uuid now jit st acc rs).2.2 = sessionDefaults uuid rs ∧
    { sessionDefaults uuid rs with AccessToken := "" } ∈
      (CreateSessionPair Faults.none dup uuid now jit st acc rs).2.1.sessions ∧
    (∀ jit1, (GetSession Faults.none now jit1
      (CreateSessionPair Faults.none dup uuid now jit st acc rs).2.1 acc.SessionToken true).1
        = .ok acc) ∧
    (∀ jit1, (GetSession Faults.none now jit1
      (CreateSessionPair Faults.none dup uuid now jit st acc rs).2.1 rs.SessionToken false).1
        = .ok (sessionDefaults uuid rs)) ∧
    ∃ ms, (CreateSessionPair Faults.none dup uuid now jit st acc rs).2.1.redis
        (userSessionsKey acc.UserID) = some (.set ms) ∧
      accessSessionKey acc.SessionToken ∈ ms ∧ refreshSessionKey rs.SessionToken ∈ ms := by
  have hrows1 := GetSession_sessions Faults.none now jit st acc.SessionToken true
  have hredis1 := fun e h k =>
    GetSession_error_redis Faults.none now jit st acc.SessionToken true e h k
  cases h1 : GetSession Faults.none now jit st acc.SessionToken true with
  | mk res1 st1 =>
    rw [h1] at hrows1 hredis1 hacc
    simp only [] at hrows1 hredis1 hacc
    cases res1 with
    | ok s1 => exact absurd rfl (hacc s1)
    | error e1 =>
      have hidx1 : st1.redis (userSessionsKey acc.UserID) = st.redis (userSessionsKey acc.UserID) := by
        rcases hredis1 e1 rfl (userSessionsKey acc.UserID) with h | ⟨h, _⟩
        · exact h
        · exact absurd h.symm (accessSessionKey_ne_user _ _)
      have hget1 : redisGet Faults.none st1.redis now (refreshSessionKey rs.SessionToken) =
          redisGet Faults.none st.redis now (refreshSessionKey rs.SessionToken) := by
        apply redisGet_congr
        rcases hredis1 e1 rfl (refreshSessionKey rs.SessionToken) with h | ⟨h, _⟩
        · exact h
        · exact absurd h.symm (accessSessionKey_ne_refresh _ _)
      have hfst := GetSession_fst_congr Faults.none now (jit.drop 1) jit st1 st rs.SessionToken
        false hget1 hrows1
      have hrows2 := GetSession_sessions Faults.none now (jit.drop 1) st1 rs.SessionToken false
      have hredis2 := fun e h k =>
        GetSession_error_redis Faults.none now (jit.drop 1) st1 rs.SessionToken false e h k
      cases h2 : GetSession Faults.none now (jit.drop 1) st1 rs.SessionToken false with
      | mk res2 st2 =>
        rw [h2] at hrows2 hredis2 hfst
        simp only [] at hrows2 hredis2 hfst
        cases res2 with
        | ok s2 => exact absurd hfst.symm (hrs s2)
        | error e2 =>
          have hidx2 : st2.redis (userSessionsKey acc.UserID) =
              st.redis (userSessionsKey acc.UserID) := by
            rcases hredis2 e2 rfl (userSessionsKey acc.UserID) with h | ⟨h, _⟩
            · rw [h, hidx1]
            · exact absurd h.symm (refreshSessionKey_ne_user _ _)
          have hcsp : CreateSessionPair Faults.none dup uuid now jit st acc rs =
              (none,
                { redis := CreateSessionPair.cache Faults.none now jit st2.redis acc
                    (sessionDefaults uuid rs),
                  sessions := st.sessions ++ [{ sessionDefaults uuid rs with AccessToken := "" }] },
                sessionDefaults uuid rs) := by
            unfold CreateSessionPair
            simp only [h1, h2]
            rw [hrows2, hrows1, persist_fresh dup uuid st.sessions rs hfresh]
          rw [hcsp]
          have hset : Faults.none.redisSet = false := rfl
          refine ⟨rfl, rfl, ?_, ?_, ?_, ?_⟩
          · exact List.mem_append_right _ (List.mem_singleton_self _)
          · intro jit1
            apply GetSession_cached_ok
            · rw [redisGet_session_iff]
              refine ⟨rfl, now + ttlWithJitter now acc.ExpiresAt (jit 2), ?_, ?_⟩
              · show CreateSessionPair.cache Faults.none now jit st2.redis acc
                    (sessionDefaults uuid rs) (accessSessionKey acc.SessionToken) = _
                rw [CreateSessionPair_cache_access, if_pos ⟨hset, rfl⟩]
              · have := ttlWithJitter_pos now acc.ExpiresAt (jit 2)
                linarith
            · exact hlive.1
          · intro jit1
            apply GetSession_cached_ok
            · rw [redisGet_session_iff]
              refine ⟨rfl, now + ttlWithJitter now (sessionDefaults uuid rs).ExpiresAt (jit 3),
                ?_, ?_⟩
              · show CreateSessionPair.cache Faults.none now jit st2.redis acc
                    (sessionDefaults uuid rs) (refreshSessionKey rs.SessionToken) = _
                rw [CreateSessionPair_cache_refresh, if_pos ⟨hset, rfl⟩]
              · have := ttlWithJitter_pos now (sessionDefaults uuid rs).ExpiresAt (jit 3)
                linarith
            · exact hlive.2
          · show ∃ ms, CreateSessionPair.cache Faults.none now jit st2.redis acc
                (sessionDefaults uuid rs) (userSessionsKey acc.UserID) = some (.set ms) ∧
              accessSessionKey acc.SessionToken ∈ ms ∧ refreshSessionKey rs.SessionToken ∈ ms
            unfold CreateSessionPair.cache
            have htyped2 : ∀ v,
                tolerate
                  (tolerate st2.redis (redisSet Faults.none st2.redis now
                    (accessSessionKey acc.SessionToken) acc
                    (ttlWithJitter now acc.ExpiresAt (jit 2))))
                  (redisSet Faults.none
                    (tolerate st2.redis (redisSet Faults.none st2.redis now
                      (accessSessionKey acc.SessionToken) acc
                      (ttlWithJitter now acc.ExpiresAt (jit 2))))
                    now (refreshSessionKey (sessionDefaults uuid rs).SessionToken)
                    (sessionDefaults uuid rs)
                    (ttlWithJitter now (sessionDefaults uuid rs).ExpiresAt (jit 3)))
                  (userSessionsKey acc.UserID) = some v → ∃ ms, v = .set ms := by
              intro v hv
              rw [tolerate_redisSet_apply, tolerate_redisSet_apply] at hv
              have hne1 : userSessionsKey acc.UserID ≠
                  refreshSessionKey (sessionDefaults uuid rs).SessionToken :=
                fun h => refreshSessionKey_ne_user _ _ h.symm
              have hne2 : userSessionsKey acc.UserID ≠ accessSessionKey acc.SessionToken :=
                fun h => accessSessionKey_ne_user _ _ h.symm
              simp only [hne1, hne2, and_false, if_false] at hv
              rw [hidx2] at hv
              exact htyped v hv
            obtain ⟨ms1, hms1, hmem⟩ := redisSAdd_none_index _ now acc.UserID
              [accessSessionKey acc.SessionToken,
                refreshSessionKey (sessionDefaults uuid rs).SessionToken] htyped2
            refine ⟨ms1, hms1, (hmem _).2 (Or.inl ?_), (hmem _).2 (Or.inl ?_)⟩
            · exact List.mem_cons_self _ _
            · exact List.mem_cons_of_mem _ (List.mem_singleton_self _)

/-- Claim C11 at empty stores and the sample pair of `alice`, at instant `5`. -/
theorem C11_create_session_pair_witness :
    (CreateSessionPair Faults.none "dup" "id1" 5 jitter0 emptyState.store sampleAccess
      sampleRefresh).1 = none ∧
    (CreateSessionPair Faults.none "dup" "id1" 5 jitter0 emptyState.store sampleAccess
      sampleRefresh).2.2 = sessionDefaults "id1" sampleRefresh ∧
    { sessionDefaults "id1" sampleRefresh with AccessToken := "" } ∈
      (CreateSessionPair Faults.none "dup" "id1" 5 jitter0 emptyState.store sampleAccess
        sampleRefresh).2.1.sessions ∧
    (∀ jit1, (GetSession Faults.none 5 jit1
      (CreateSessionPair Faults.none "dup" "id1" 5 jitter0 emptyState.store sampleAccess
        sampleRefresh).2.1 sampleAccess.SessionToken true).1 = .ok sampleAccess) ∧
    (∀ jit1, (GetSession Faults.none 5 jit1
      (CreateSessionPair Faults.none "dup" "id1" 5 jitter0 emptyState.store sampleAccess
        sampleRefresh).2.1 sampleRefresh.SessionToken false).1
        = .ok (sessionDefaults "id1" sampleRefresh)) ∧
    ∃ ms, (CreateSessionPair Faults.none "dup" "id1" 5 jitter0 emptyState.store sampleAccess
        sampleRefresh).2.1.redis (userSessionsKey sampleAccess.UserID) = some (.set ms) ∧
      accessSessionKey sampleAccess.SessionToken ∈ ms ∧
      refreshSessionKey sampleRefresh.SessionToken ∈ ms :=
  C11_create_session_pair "dup" "id1" 5 jitter0 emptyState.store sampleAccess sampleRefresh
    (by
      intro s h
      have h0 : (GetSession Faults.none 5 jitter0 emptyState.store sampleAccess.SessionToken
          true).1 = .error redisNil := rfl
      rw [h0] at h
      cases h)
    (by
      intro s h
      have h0 : (GetSession Faults.none 5 jitter0 emptyState.store sampleRefresh.SessionToken
          false).1 = .error recordNotFound := rfl
      rw [h0] at h
      cases h)
    (by
      intro row hrow
      cases hrow)
    (by
      intro v hv
      cases hv)
    ⟨by decide, by decide⟩

/-! ## The lifetimes of a session pair -/

/-- After a successful `CreateSessionPair` whose cache writes did not fail, the cache holds the
access session under the access key and the refresh record under the refresh key. -/
theorem CreateSessionPair_ok_cached (f : Faults) (dup uuid : String) (now : Int) (jit : Jitter)
    (st : Store) (acc rs : UserSession) (hset : f.redisSet = false)
    (hok : (CreateSessionPair f dup uuid now jit st acc rs).1 = none) :
    (CreateSessionPair f dup uuid now jit st acc rs).2.1.redis (accessSessionKey acc.SessionToken)
      = some (.json acc (now + ttlWithJitter now acc.ExpiresAt (jit 2))) ∧
    (CreateSessionPair f dup uuid now jit st acc rs).2.1.redis (refreshSessionKey rs.SessionToken)
      = some (.json (CreateSessionPair f dup uuid now jit st acc rs).2.2
          (now + ttlWithJitter now (CreateSessionPair f dup uuid now jit st acc rs).2.2.ExpiresAt
            (jit 3))) := by
  have hc := CreateSessionPair_cases f dup uuid now jit st acc rs
  rcases hc with ⟨hc1, g1, _, _, _⟩
  rcases hc1 with ⟨k1, _⟩ | ⟨_, k2, _, _⟩
  · exact absurd hok k1
  · constructor
    · rw [k2]
      simp only []
      rw [CreateSessionPair_cache_access, if_pos ⟨hset, rfl⟩]
    · rw [k2]
      simp only []
      rw [CreateSessionPair_cache_refresh, if_pos ⟨hset, g1.symm⟩]

/-- The retry loop of `Login` ends with one `CreateSessionPair` attempt: on a store with the
rows it started from, for sessions that differ from the first ones in their tokens (and in what
the durable write fills in); the refresh token of that attempt is the first one or one the loop
generated. -/
theorem Login_create_last (svc : UserService) (f : Faults) (now : Int) (ent : Entropy)
    (user : User) (fuel i : Nat) (hfuel : fuel + i = 3) (hi2 : i ≤ 2) (st : Store)
    (accessToken refreshToken : String) (acc rs : UserSession)
    (hacc : acc.SessionToken = accessToken) (hrs : rs.SessionToken = refreshToken) :
    ∃ (j : Nat) (stj : Store) (accj rsj : UserSession),
      stj.sessions = st.sessions ∧ accj.ExpiresAt = acc.ExpiresAt ∧
      rsj.ExpiresAt = rs.ExpiresAt ∧
      (rs.SessionType = "refresh" → rsj.SessionType = "refresh") ∧
      (accj.SessionToken = accessToken ∨ ∃ k, accj.SessionToken =
        orEmpty (GenerateToken svc.lib now (ent.nonce (2 * k + 2)) user.ID user.Username
          svc.jwtSecret svc.accessExpiresIn)) ∧
      (rsj.SessionToken = refreshToken ∨ ∃ k, rsj.SessionToken =
        orEmpty (GenerateToken svc.lib now (ent.nonce (2 * k + 3)) user.ID user.Username
          svc.jwtSecret svc.refreshExpiresIn)) ∧
      (Login.create svc f now ent user fuel i st accessToken refreshToken acc rs).2 =
        (CreateSessionPair f svc.lib.duplicateEntry (ent.uuid 0) now (ent.jitter.drop (4 * j))
          stj accj rsj).2.1 ∧
      (∀ a1 r1 rs1,
        (Login.create svc f now ent user fuel i st accessToken refreshToken acc rs).1
          = .ok (a1, r1, rs1) →
        (CreateSessionPair f svc.lib.duplicateEntry (ent.uuid 0) now (ent.jitter.drop (4 * j))
          stj accj rsj).1 = none ∧
        a1 = accj.SessionToken ∧ r1 = rsj.SessionToken ∧
        rs1 = (CreateSessionPair f svc.lib.duplicateEntry (ent.uuid 0) now
          (ent.jitter.drop (4 * j)) stj accj rsj).2.2) ∧
      (∀ e, (Login.create svc f now ent user fuel i st accessToken refreshToken acc rs).1
          = .error e →
        (CreateSessionPair f svc.lib.duplicateEntry (ent.uuid 0) now (ent.jitter.drop (4 * j))
          stj accj rsj).1 = some e) := by
  induction fuel generalizing i st accessToken refreshToken acc rs with
  | zero => omega
  | succ n ih =>
    have hc := CreateSessionPair_cases f svc.lib.duplicateEntry (ent.uuid 0) now
      (ent.jitter.drop (4 * i)) st acc rs
    have hs1 := GetSession_sessions f now (ent.jitter.drop (4 * i)) st acc.SessionToken true
    have hs2 := GetSession_sessions f now ((ent.jitter.drop (4 * i)).drop 1)
      (GetSession f now (ent.jitter.drop (4 * i)) st acc.SessionToken true).2 rs.SessionToken false
    rw [hs1] at hs2
    cases hcsp : CreateSessionPair f svc.lib.duplicateEntry (ent.uuid 0) now
        (ent.jitter.drop (4 * i)) st acc rs with
    | mk e rest =>
      cases rest with
      | mk st1 rs1 =>
        rw [hcsp] at hc
        simp only [] at hc
        rcases hc with ⟨hc1, g1, g2, g3, g4⟩
        cases e with
        | none =>
          have hp : Login.create svc f now ent user (n + 1) i st accessToken refreshToken acc rs
              = (.ok (accessToken, refreshToken, rs1), st1) := by
            simp only [Login.create, hcsp]
          refine ⟨i, st, acc, rs, rfl, rfl, rfl, fun h => h, Or.inl hacc, Or.inl hrs, ?_, ?_, ?_⟩
          · rw [hp, hcsp]
          · intro a1 r1 rs2 hok
            rw [hp] at hok
            simp only [Except.ok.injEq, Prod.mk.injEq] at hok
            rcases hok with ⟨rfl, rfl, rfl⟩
            rw [hcsp]
            exact ⟨rfl, hacc.symm, hrs.symm, rfl⟩
          · intro e he
            rw [hp] at he
            cases he
        | some e =>
          have hst1 : st1.sessions = st.sessions := by
            rcases hc1 with ⟨_, k | k⟩ | ⟨k1, _⟩
            · rw [k]; exact hs1
            · rw [k]; exact hs2
            · cases k1
          by_cases hretry : (IsDuplicateError (some e) && decide (i < 3 - 1)) = true
          · have hp : Login.create svc f now ent user (n + 1) i st accessToken refreshToken acc rs
                = Login.create svc f now ent user n (i + 1) st1
                  (orEmpty (GenerateToken svc.lib now (ent.nonce (2 * i + 2))
                    user.ID user.Username svc.jwtSecret svc.accessExpiresIn))
                  (orEmpty (GenerateToken svc.lib now (ent.nonce (2 * i + 3))
                    user.ID user.Username svc.jwtSecret svc.refreshExpiresIn))
                  { acc with SessionToken := orEmpty (GenerateToken svc.lib now
                      (ent.nonce (2 * i + 2)) user.ID user.Username svc.jwtSecret
                      svc.accessExpiresIn) }
                  { rs1 with SessionToken := orEmpty (GenerateToken svc.lib now
                      (ent.nonce (2 * i + 3)) user.ID user.Username svc.jwtSecret
                      svc.refreshExpiresIn) } := by
              simp only [Login.create, hcsp, hretry, if_true]
            rw [hp]
            have hi : i < 2 := by
              simp only [Bool.and_eq_true, decide_eq_true_eq] at hretry
              omega
            have ih1 := ih (i + 1) (by omega) (by omega) st1
              (orEmpty (GenerateToken svc.lib now (ent.nonce (2 * i + 2))
                user.ID user.Username svc.jwtSecret svc.accessExpiresIn))
              (orEmpty (GenerateToken svc.lib now (ent.nonce (2 * i + 3))
                user.ID user.Username svc.jwtSecret svc.refreshExpiresIn))
              { acc with SessionToken := orEmpty (GenerateToken svc.lib now
                  (ent.nonce (2 * i + 2)) user.ID user.Username svc.jwtSecret
                  svc.accessExpiresIn) }
              { rs1 with SessionToken := orEmpty (GenerateToken svc.lib now
                  (ent.nonce (2 * i + 3)) user.ID user.Username svc.jwtSecret
                  svc.refreshExpiresIn) } rfl rfl
            obtain ⟨j, stj, accj, rsj, q1, q2, q3, qt, qa, q4, q5, q6, q7⟩ := ih1
            refine ⟨j, stj, accj, rsj, q1.trans hst1, q2, q3.trans g3, ?_, ?_, ?_, q5, q6, q7⟩
            · intro hty
              exact qt ((g4 (by rw [hty]; decide)).trans hty)
            · rcases qa with q | ⟨k, q⟩
              · exact Or.inr ⟨i, q⟩
              · exact Or.inr ⟨k, q⟩
            · rcases q4 with q | ⟨k, q⟩
              · exact Or.inr ⟨i, q⟩
              · exact Or.inr ⟨k, q⟩
          · have hp : Login.create svc f now ent user (n + 1) i st accessToken refreshToken acc rs
                = (.error e, st1) := by
              simp only [Login.create, hcsp, hretry]
              simp
            refine ⟨i, st, acc, rs, rfl, rfl, rfl, fun h => h, Or.inl hacc, Or.inl hrs, ?_, ?_, ?_⟩
            · rw [hp, hcsp]
            · intro a1 r1 rs2 hok
              rw [hp] at hok
              cases hok
            · intro e1 he
              rw [hp] at he
              cases he
              rw [hcsp]

/-- How `Register` ends: with an error before any session is built, or through one
`CreateSessionPair` for the two sessions it builds. -/
theorem Register_run (svc : UserService) (f : Faults) (a : Bool) (now : Int) (ent : Entropy)
    (st : State) (req : RegisterRequest) :
    ((∃ e, (Register svc f a now ent st req).1 = .error e) ∧
      (Register svc f a now ent st req).2.store = st.store) ∨
    ∃ (user : User) (acc rs : UserSession),
      acc.SessionToken = orEmpty (GenerateToken svc.lib now (ent.nonce 0) user.ID user.Username
        svc.jwtSecret svc.accessExpiresIn) ∧
      rs.SessionToken = orEmpty (GenerateToken svc.lib now (ent.nonce 1) user.ID user.Username
        svc.jwtSecret svc.refreshExpiresIn) ∧
      acc.ExpiresAt = now + ent.elapsed + wrapInt64 (svc.accessExpiresIn * timeSecond) ∧
      rs.ExpiresAt = now + wrapInt64 (svc.refreshExpiresIn * timeSecond) ∧
      rs.SessionType = "refresh" ∧
      (Register svc f a now ent st req).2.store =
        (CreateSessionPair f svc.lib.duplicateEntry (ent.uuid 1) now ent.jitter st.store
          acc rs).2.1 ∧
      (∀ resp, (Register svc f a now ent st req).1 = .ok resp →
        (CreateSessionPair f svc.lib.duplicateEntry (ent.uuid 1) now ent.jitter st.store
          acc rs).1 = none ∧
        resp.AccessToken = acc.SessionToken ∧ resp.RefreshToken = rs.SessionToken) := by
  unfold Register
  simp only []
  cases dbCreateUser svc.lib.duplicateEntry (ent.uuid 0) st.users
      { ID := "", Username := req.Username,
        PasswordHash := (svc.lib.generateFromPassword req.Password ent.salt).getD "",
        LoginType := "password",
        Email := if req.Email ≠ "" then some req.Email else none,
        Phone := if req.Phone ≠ "" then some req.Phone else none,
        IsActive := false } with
  | error e => exact Or.inl ⟨⟨_, rfl⟩, rfl⟩
  | ok v =>
    rcases v with ⟨users, user⟩
    simp only []
    right
    refine ⟨user,
      { ID := "", UserID := user.ID,
        SessionToken := orEmpty (GenerateToken svc.lib now (ent.nonce 0) user.ID user.Username
          svc.jwtSecret svc.accessExpiresIn),
        SessionType := "access", Platform := req.Platform,
        ExpiresAt := now + ent.elapsed + wrapInt64 (svc.accessExpiresIn * timeSecond),
        LastActivityAt := now, IsActive := false, AccessToken := "",
        DeviceID := if req.DeviceID ≠ "" then some req.DeviceID else none },
      { ID := "", UserID := user.ID,
        SessionToken := orEmpty (GenerateToken svc.lib now (ent.nonce 1) user.ID user.Username
          svc.jwtSecret svc.refreshExpiresIn),
        SessionType := "refresh", Platform := req.Platform,
        ExpiresAt := now + wrapInt64 (svc.refreshExpiresIn * timeSecond),
        LastActivityAt := now, IsActive := false, AccessToken := "",
        DeviceID := if req.DeviceID ≠ "" then some req.DeviceID else none },
      rfl, rfl, rfl, rfl, rfl, ?_⟩
    generalize CreateSessionPair f svc.lib.duplicateEntry (ent.uuid 1) now ent.jitter st.store
      _ _ = out
    rcases out with ⟨err, store1, rs1⟩
    cases err with
    | some e =>
      refine ⟨rfl, ?_⟩
      intro resp he
      cases he
    | none =>
      refine ⟨rfl, ?_⟩
      intro resp he
      cases he
      exact ⟨rfl, rfl, rfl⟩

/-- How `Login` ends: with an error before any store is touched, or through the retry loop, run
on the stores that `InvalidateAllUserSessions` left, for the two sessions it builds. -/
theorem Login_run (svc : UserService) (f : Faults) (a : Bool) (now : Int) (ent : Entropy)
    (st : State) (req : LoginRequest) :
    ((∃ e, (Login svc f a now ent st req).1 = .error e) ∧
      (Login svc f a now ent st req).2.store = st.store) ∨
    ∃ (user : User) (accessToken refreshToken : String) (acc rs : UserSession),
      GenerateToken svc.lib now (ent.nonce 0) user.ID user.Username svc.jwtSecret
        svc.accessExpiresIn = .ok accessToken ∧
      GenerateToken svc.lib now (ent.nonce 1) user.ID user.Username svc.jwtSecret
        svc.refreshExpiresIn = .ok refreshToken ∧
      acc.SessionToken = accessToken ∧ rs.SessionToken = refreshToken ∧
      acc.ExpiresAt = now + ent.elapsed + wrapInt64 (svc.accessExpiresIn * timeSecond) ∧
      rs.ExpiresAt = now + wrapInt64 (svc.refreshExpiresIn * timeSecond) ∧
      rs.SessionType = "refresh" ∧
      (Login svc f a now ent st req).2.store =
        (Login.create svc f now ent user 3 0
          (InvalidateAllUserSessions f now st.store user.ID true).2
          accessToken refreshToken acc rs).2 ∧
      (∀ resp, (Login svc f a now ent st req).1 = .ok resp →
        ∃ a1 r1 rs1, (Login.create svc f now ent user 3 0
            (InvalidateAllUserSessions f now st.store user.ID true).2
            accessToken refreshToken acc rs).1 = .ok (a1, r1, rs1) ∧
          resp.AccessToken = a1 ∧ resp.RefreshToken = r1) := by
  unfold Login
  cases dbGetByUsername st.users req.Username with
  | none => exact Or.inl ⟨⟨_, rfl⟩, rfl⟩
  | some user =>
    simp only []
    cases svc.lib.compareHashAndPassword user.PasswordHash req.Password with
    | false => exact Or.inl ⟨⟨_, rfl⟩, rfl⟩
    | true =>
      simp only [Bool.not_true, Bool.false_eq_true, if_false]
      cases hgen0 : GenerateToken svc.lib now (ent.nonce 0) user.ID user.Username svc.jwtSecret
          svc.accessExpiresIn with
      | error e => exact Or.inl ⟨⟨_, rfl⟩, rfl⟩
      | ok accessToken =>
        simp only []
        cases hgen : GenerateToken svc.lib now (ent.nonce 1) user.ID user.Username svc.jwtSecret
            svc.refreshExpiresIn with
        | error e => exact Or.inl ⟨⟨_, rfl⟩, rfl⟩
        | ok refreshToken =>
          simp only []
          right
          refine ⟨user, accessToken, refreshToken,
            { ID := "", UserID := user.ID, SessionToken := accessToken,
              SessionType := "access", Platform := req.Platform,
              ExpiresAt := now + ent.elapsed + wrapInt64 (svc.accessExpiresIn * timeSecond),
              LastActivityAt := now, IsActive := false, AccessToken := "",
              DeviceID := if req.DeviceID ≠ "" then some req.DeviceID else none },
            { ID := "", UserID := user.ID, SessionToken := refreshToken,
              SessionType := "refresh", Platform := req.Platform,
              ExpiresAt := now + wrapInt64 (svc.refreshExpiresIn * timeSecond),
              LastActivityAt := now, IsActive := false, AccessToken := accessToken,
              DeviceID := if req.DeviceID ≠ "" then some req.DeviceID else none },
            hgen0, hgen, rfl, rfl, rfl, rfl, rfl, ?_⟩
          generalize Login.create svc f now ent user 3 0 _ _ _ _ _ = out
          rcases out with ⟨res, store2⟩
          cases res with
          | error e =>
            refine ⟨rfl, ?_⟩
            intro resp he
            cases he
          | ok v =>
            rcases v with ⟨a2, r2, rs2⟩
            refine ⟨rfl, ?_⟩
            intro resp he
            cases he
            exact ⟨a2, r2, rs2, rfl, rfl, rfl⟩

/-- A value in the range of `int64` is not changed by the conversion. -/
theorem wrapInt64_eq (x : Int) (h1 : -9223372036854775808 ≤ x) (h2 : x < 9223372036854775808) :
    wrapInt64 x = x := by
  unfold wrapInt64
  norm_num
  omega

/-- A number of seconds up to 9223372036 in absolute value fits a `time.Duration`. -/
theorem wrapInt64_seconds (n : Int) (h1 : -9223372036 ≤ n) (h2 : n ≤ 9223372036) :
    wrapInt64 (n * timeSecond) = n * timeSecond := by
  apply wrapInt64_eq
  · unfold timeSecond
    omega
  · unfold timeSecond
    omega

/-- Claim C17, as the code has it: `NewUserService` accepts every pair of lifetimes. The
session pair that a successful `Register` or `Login` hands to the `CreateSessionPair` that
succeeds (and that the cache then holds, when its writes do not fail) expires at the clock
reading of the refresh session plus `refreshExpiresIn` seconds and at the later clock reading of
the access session plus `accessExpiresIn` seconds, both products taken in `int64`. For lifetimes
that fit a `time.Duration` the access session expires no later than the refresh session exactly
when `accessExpiresIn` seconds plus the time between the two readings is at most
`refreshExpiresIn` seconds. -/
theorem C17_access_expires_first (lib : Lib) (jwtSecret : String) (a r : Int)
    (f : Faults) (auditFails : Bool) (now : Int) (ent : Entropy) (st : State) :
    (∀ req resp,
      (Register (NewUserService lib jwtSecret a r) f auditFails now ent st req).1 = .ok resp →
      ∃ (acc rs : UserSession) (st0 : Store) (uuid : String) (jit : Jitter),
        (CreateSessionPair f lib.duplicateEntry uuid now jit st0 acc rs).1 = none ∧
        (Register (NewUserService lib jwtSecret a r) f auditFails now ent st req).2.store
          = (CreateSessionPair f lib.duplicateEntry uuid now jit st0 acc rs).2.1 ∧
        acc.SessionToken = resp.AccessToken ∧ rs.SessionToken = resp.RefreshToken ∧
        acc.ExpiresAt = now + ent.elapsed + wrapInt64 (a * timeSecond) ∧
        rs.ExpiresAt = now + wrapInt64 (r * timeSecond) ∧
        (-9223372036 ≤ a → a ≤ 9223372036 → -9223372036 ≤ r → r ≤ 9223372036 →
          (acc.ExpiresAt ≤ rs.ExpiresAt ↔ ent.elapsed + a * timeSecond ≤ r * timeSecond)) ∧
        (f.redisSet = false → ∃ rs1 d1 d2,
          (Register (NewUserService lib jwtSecret a r) f auditFails now ent st req).2.store.redis
            (accessSessionKey resp.AccessToken) = some (.json acc d1) ∧
          (Register (NewUserService lib jwtSecret a r) f auditFails now ent st req).2.store.redis
            (refreshSessionKey resp.RefreshToken) = some (.json rs1 d2) ∧
          rs1.ExpiresAt = rs.ExpiresAt)) ∧
    (∀ req resp,
      (Login (NewUserService lib jwtSecret a r) f auditFails now ent st req).1 = .ok resp →
      ∃ (acc rs : UserSession) (st0 : Store) (uuid : String) (jit : Jitter),
        (CreateSessionPair f lib.duplicateEntry uuid now jit st0 acc rs).1 = none ∧
        (Login (NewUserService lib jwtSecret a r) f auditFails now ent st req).2.store
          = (CreateSessionPair f lib.duplicateEntry uuid now jit st0 acc rs).2.1 ∧
        acc.SessionToken = resp.AccessToken ∧ rs.SessionToken = resp.RefreshToken ∧
        acc.ExpiresAt = now + ent.elapsed + wrapInt64 (a * timeSecond) ∧
        rs.ExpiresAt = now + wrapInt64 (r * timeSecond) ∧
        (-9223372036 ≤ a → a ≤ 9223372036 → -9223372036 ≤ r → r ≤ 9223372036 →
          (acc.ExpiresAt ≤ rs.ExpiresAt ↔ ent.elapsed + a * timeSecond ≤ r * timeSecond)) ∧
        (f.redisSet = false → ∃ rs1 d1 d2,
          (Login (NewUserService lib jwtSecret a r) f auditFails now ent st req).2.store.redis
            (accessSessionKey resp.AccessToken) = some (.json acc d1) ∧
          (Login (NewUserService lib jwtSecret a r) f auditFails now ent st req).2.store.redis
            (refreshSessionKey resp.RefreshToken) = some (.json rs1 d2) ∧
          rs1.ExpiresAt = rs.ExpiresAt)) := by
  have horder : ∀ x y : Int, x = now + ent.elapsed + wrapInt64 (a * timeSecond) →
      y = now + wrapInt64 (r * timeSecond) →
      -9223372036 ≤ a → a ≤ 9223372036 → -9223372036 ≤ r → r ≤ 9223372036 →
      (x ≤ y ↔ ent.elapsed + a * timeSecond ≤ r * timeSecond) := by
    intro x y hx hy a1 a2 r1 r2
    rw [hx, hy, wrapInt64_seconds a a1 a2, wrapInt64_seconds r r1 r2]
    constructor <;> intro h <;> omega
  constructor
  · intro req resp h
    rcases Register_run (NewUserService lib jwtSecret a r) f auditFails now ent st req with
      ⟨⟨e, he⟩, _⟩ | ⟨user, acc, rs, _, _, hae, hre, _, hstore, hok⟩
    · rw [he] at h
      cases h
    · obtain ⟨hnone, ha, hr⟩ := hok resp h
      refine ⟨acc, rs, st.store, ent.uuid 1, ent.jitter, hnone, hstore, ha.symm, hr.symm, hae,
        hre, horder _ _ hae hre, ?_⟩
      intro hset
      have hcached := CreateSessionPair_ok_cached f _ _ now _ st.store acc rs hset hnone
      have hexp := (CreateSessionPair_cases f (NewUserService lib jwtSecret a r).lib.duplicateEntry
        (ent.uuid 1) now ent.jitter st.store acc rs).2.2.2.1
      have c1 := hcached.1
      have c2 := hcached.2
      rw [← ha, ← hstore] at c1
      rw [← hr, ← hstore] at c2
      exact ⟨_, _, _, c1, c2, hexp⟩
  · intro req resp h
    rcases Login_run (NewUserService lib jwtSecret a r) f auditFails now ent st req with
      ⟨⟨e, he⟩, _⟩ |
      ⟨user, accessToken, refreshToken, acc, rs, _, _, hacc, hrs, hae, hre, _, hstore, hok⟩
    · rw [he] at h
      cases h
    · obtain ⟨a1, r1, rs1, hcreate, ha, hr⟩ := hok resp h
      obtain ⟨j, stj, accj, rsj, _, q2, q3, _, _, _, q5, q6, _⟩ :=
        Login_create_last (NewUserService lib jwtSecret a r) f now ent user 3 0 rfl (by decide)
          (InvalidateAllUserSessions f now st.store user.ID true).2 accessToken refreshToken
          acc rs hacc hrs
      obtain ⟨hnone, ha1, hr1, _⟩ := q6 a1 r1 rs1 hcreate
      refine ⟨accj, rsj, stj, ent.uuid 0, ent.jitter.drop (4 * j), hnone, hstore.trans q5,
        ha1.symm.trans ha.symm, hr1.symm.trans hr.symm, q2.trans hae, q3.trans hre,
        horder _ _ (q2.trans hae) (q3.trans hre), ?_⟩
      intro hset
      have hcached := CreateSessionPair_ok_cached f _ _ now _ stj accj rsj hset hnone
      have hexp := (CreateSessionPair_cases f (NewUserService lib jwtSecret a r).lib.duplicateEntry
        (ent.uuid 0) now (ent.jitter.drop (4 * j)) stj accj rsj).2.2.2.1
      have c1 := hcached.1
      have c2 := hcached.2
      rw [← ha1, ← ha, ← q5, ← hstore] at c1
      rw [← hr1, ← hr, ← q5, ← hstore] at c2
      exact ⟨_, _, _, c1, c2, hexp⟩

/-- Claim C17 as stated fails. `NewUserService` accepts the lifetimes of `main.go` swapped, and
the login of `alice` then caches an access session that expires after the refresh session
cached with it. It accepts two equal lifetimes, and the access session, stamped 1119
nanoseconds after the refresh session, then expires 1119 nanoseconds after it. And it accepts a
refresh lifetime of 9223372037 seconds, whose nanoseconds wrap around in `int64`: the refresh
session then expires before the instant of the login, and before the access session. -/
theorem C17_counterexample :
    (∃ resp acc rs d1 d2,
      (Login (NewUserService sampleLib "secret" 604800 7200) Faults.none false 10
        (sampleEntropy "b") registeredState loginAlice).1 = .ok resp ∧
      (Login (NewUserService sampleLib "secret" 604800 7200) Faults.none false 10
        (sampleEntropy "b") registeredState loginAlice).2.store.redis
        (accessSessionKey resp.AccessToken) = some (.json acc d1) ∧
      (Login (NewUserService sampleLib "secret" 604800 7200) Faults.none false 10
        (sampleEntropy "b") registeredState loginAlice).2.store.redis
        (refreshSessionKey resp.RefreshToken) = some (.json rs d2) ∧
      rs.ExpiresAt < acc.ExpiresAt) ∧
    (∃ resp acc rs d1 d2,
      (Login (NewUserService sampleLib "secret" 7200 7200) Faults.none false 10
        lateEntropy registeredState loginAlice).1 = .ok resp ∧
      (Login (NewUserService sampleLib "secret" 7200 7200) Faults.none false 10
        lateEntropy registeredState loginAlice).2.store.redis
        (accessSessionKey resp.AccessToken) = some (.json acc d1) ∧
      (Login (NewUserService sampleLib "secret" 7200 7200) Faults.none false 10
        lateEntropy registeredState loginAlice).2.store.redis
        (refreshSessionKey resp.RefreshToken) = some (.json rs d2) ∧
      acc.ExpiresAt = rs.ExpiresAt + 1119) ∧
    (∃ resp acc rs d1 d2,
      (Login (NewUserService sampleLib "secret" 7200 9223372037) Faults.none false 10
        (sampleEntropy "b") registeredState loginAlice).1 = .ok resp ∧
      (Login (NewUserService sampleLib "secret" 7200 9223372037) Faults.none false 10
        (sampleEntropy "b") registeredState loginAlice).2.store.redis
        (accessSessionKey resp.AccessToken) = some (.json acc d1) ∧
      (Login (NewUserService sampleLib "secret" 7200 9223372037) Faults.none false 10
        (sampleEntropy "b") registeredState loginAlice).2.store.redis
        (refreshSessionKey resp.RefreshToken) = some (.json rs d2) ∧
      rs.ExpiresAt < 10 ∧ rs.ExpiresAt < acc.ExpiresAt) :=
  ⟨⟨_, _, _, _, _, rfl, rfl, rfl, by decide⟩, ⟨_, _, _, _, _, rfl, rfl, rfl, by decide⟩,
    ⟨_, _, _, _, _, rfl, rfl, rfl, by decide, by decide⟩⟩

/-! ## Token round trip (`shared/utils/jwt.go`) -/

/-- For a lifetime whose nanoseconds fit a `time.Duration`, `GenerateToken` over the integers is
the function in `int64` arithmetic. -/
theorem GenerateToken_int64_eq (lib : Lib) (now : Int) (nonce : Option String)
    (userID username secret : String) (expiresIn : Int)
    (h1 : -9223372036 ≤ expiresIn) (h2 : expiresIn ≤ 9223372036) :
    GenerateToken.int64 lib now nonce userID username secret expiresIn
      = GenerateToken lib now nonce userID username secret expiresIn := by
  cases nonce with
  | none => rfl
  | some n => simp only [GenerateToken.int64, GenerateToken, wrapInt64_seconds expiresIn h1 h2]

/-- Claim C18, as the code has it: let the JWT library parse the token it signed for the claims
that `GenerateToken` builds back to these claims at every instant before their `ExpiresAt`, and
to nothing from then on. Then for `ttl > 0` `GenerateToken` (its nonce drawn) returns a token
that `ParseToken` under the same secret accepts exactly at the instants before the `ExpiresAt`
it carries, returning claims with the same `UserID` and `Username`. That `ExpiresAt` is the
instant of issue plus `ttl` seconds in `int64` nanoseconds, truncated to whole seconds: for
`ttl ≤ 9223372036` it is `ttl` seconds after the instant of issue, truncated, and lies after
that instant. -/
theorem C18_token_round_trip (lib : Lib) (now : Int) (nonce userID username secret : String)
    (ttl : Int) (httl : 0 < ttl)
    (hjwt : ∀ now1 : Int,
      lib.parseWithClaims secret
        (lib.signedString secret
          { UserID := userID, Username := username, Random := nonce,
            ExpiresAt := (now + wrapInt64 (ttl * timeSecond)) / timeSecond * timeSecond,
            IssuedAt := now / timeSecond * timeSecond }) now1 =
      if now1 < (now + wrapInt64 (ttl * timeSecond)) / timeSecond * timeSecond then
        some { UserID := userID, Username := username, Random := nonce,
               ExpiresAt := (now + wrapInt64 (ttl * timeSecond)) / timeSecond * timeSecond,
               IssuedAt := now / timeSecond * timeSecond }
      else none) :
    ∃ (token : String) (c : Claims),
      GenerateToken.int64 lib now (some nonce) userID username secret ttl = .ok token ∧
      c.UserID = userID ∧ c.Username = username ∧
      c.ExpiresAt = (now + wrapInt64 (ttl * timeSecond)) / timeSecond * timeSecond ∧
      (∀ now1, now1 < c.ExpiresAt → ParseToken lib now1 token secret = .ok c) ∧
      (∀ now1, c.ExpiresAt ≤ now1 → ∃ e, ParseToken lib now1 token secret = .error e) ∧
      (ttl ≤ 9223372036 →
        c.ExpiresAt = (now + ttl * timeSecond) / timeSecond * timeSecond ∧ now < c.ExpiresAt) := by
  refine ⟨_, { UserID := userID, Username := username, Random := nonce,
               ExpiresAt := (now + wrapInt64 (ttl * timeSecond)) / timeSecond * timeSecond,
               IssuedAt := now / timeSecond * timeSecond }, rfl, rfl, rfl, rfl, ?_, ?_, ?_⟩
  · intro now1 h1
    unfold ParseToken
    rw [hjwt now1, if_pos h1]
  · intro now1 h1
    unfold ParseToken
    rw [hjwt now1, if_neg (not_lt.mpr h1)]
    exact ⟨_, rfl⟩
  · intro hfit
    show (now + wrapInt64 (ttl * timeSecond)) / timeSecond * timeSecond
        = (now + ttl * timeSecond) / timeSecond * timeSecond ∧
      now < (now + wrapInt64 (ttl * timeSecond)) / timeSecond * timeSecond
    rw [wrapInt64_seconds ttl (by omega) hfit]
    refine ⟨rfl, ?_⟩
    unfold timeSecond
    omega

/-- Claim C18 with the toy codec, for a token of `alice` minted at instant `0` for two hours. -/
theorem C18_token_round_trip_witness :
    ∃ (token : String) (c : Claims),
      GenerateToken.int64 sampleCodec 0 (some "n1") "u1" "alice" "secret" 7200 = .ok token ∧
      c.UserID = "u1" ∧ c.Username = "alice" ∧
      c.ExpiresAt = (0 + wrapInt64 (7200 * timeSecond)) / timeSecond * timeSecond ∧
      (∀ now1, now1 < c.ExpiresAt → ParseToken sampleCodec now1 token "secret" = .ok c) ∧
      (∀ now1, c.ExpiresAt ≤ now1 → ∃ e, ParseToken sampleCodec now1 token "secret" = .error e) ∧
      ((7200 : Int) ≤ 9223372036 →
        c.ExpiresAt = (0 + 7200 * timeSecond) / timeSecond * timeSecond ∧ 0 < c.ExpiresAt) :=
  C18_token_round_trip sampleCodec 0 "n1" "u1" "alice" "secret" 7200 (by decide)
    (fun _ => rfl)

/-- Claim C18 as stated fails for a lifetime whose nanoseconds do not fit a `time.Duration`: for
`ttl = 10000000000` seconds the product wraps around, the token minted at instant `0` carries an
expiry more than 267 years before that instant, and `ParseToken` rejects it at the instant of
issue and at every later instant, none of which is `ttl` seconds after the issue. -/
theorem C18_counterexample :
    GenerateToken.int64 wrappedCodec 0 (some "n1") "u1" "alice" "secret" 10000000000
      = .ok "n1" ∧
    wrappedCodec.signedString "secret" wrappedClaims = "n1" ∧
    (∀ now1 : Int, wrappedCodec.parseWithClaims "secret" "n1" now1
      = if now1 < wrappedClaims.ExpiresAt then some wrappedClaims else none) ∧
    wrappedClaims.ExpiresAt = -8446744074 * timeSecond ∧
    ParseToken wrappedCodec 0 "n1" "secret" = .error "token is invalid" ∧
    (0 : Int) < 0 + 10000000000 * timeSecond ∧
    (∀ now1 : Int, 0 ≤ now1 →
      ParseToken wrappedCodec now1 "n1" "secret" = .error "token is invalid") := by
  have hexp : wrappedClaims.ExpiresAt = -8446744074 * timeSecond := by decide
  have hparse : ∀ now1 : Int, wrappedCodec.parseWithClaims "secret" "n1" now1
      = if now1 < wrappedClaims.ExpiresAt then some wrappedClaims else none := fun _ => rfl
  have hlate : ∀ now1 : Int, 0 ≤ now1 →
      ParseToken wrappedCodec now1 "n1" "secret" = .error "token is invalid" := by
    intro now1 h0
    unfold ParseToken
    have hnot : ¬ now1 < wrappedClaims.ExpiresAt := by
      rw [hexp]
      unfold timeSecond
      omega
    rw [hparse now1, if_neg hnot]
  exact ⟨rfl, rfl, hparse, hexp, hlate 0 (le_refl 0), by decide, hlate⟩

/-! ## The durable table holds refresh sessions only -/

theorem dbInvalidateAllUserSessions_kinds (f : Faults) (rows : List UserSession) (u : String) :
    (dbInvalidateAllUserSessions f rows u).2.map rowKind = rows.map rowKind := by
  unfold dbInvalidateAllUserSessions
  by_cases hf : f.dbInvalidateAllUserSessions = true
  · simp [hf]
  · simp only [hf, Bool.false_eq_true, if_false, List.map_map]
    apply List.map_congr_left
    intro row _
    simp only [Function.comp]
    by_cases h : row.UserID = u ∧ row.IsActive = true
    · rw [if_pos h]
      rfl
    · rw [if_neg h]

theorem dbUpdateRefreshSession_kinds (f : Faults) (rows : List UserSession)
    (refreshToken newAccessToken : String) (t : Int) :
    (dbUpdateRefreshSession f rows refreshToken newAccessToken t).2.map rowKind
      = rows.map rowKind := by
  have hmap : (rows.map (fun row =>
      if row.SessionToken = refreshToken ∧ row.SessionType = "refresh" then
        { row with LastActivityAt := t }
      else row)).map rowKind = rows.map rowKind := by
    rw [List.map_map]
    apply List.map_congr_left
    intro row _
    simp only [Function.comp]
    by_cases h : row.SessionToken = refreshToken ∧ row.SessionType = "refresh"
    · rw [if_pos h]
      rfl
    · rw [if_neg h]
  unfold dbUpdateRefreshSession
  by_cases hf : f.dbUpdateRefreshSession = true
  · simp [hf]
  · simp only [hf, Bool.false_eq_true, if_false]
    split
    · exact hmap
    · exact hmap

theorem InvalidateAllUserSessions_kinds (f : Faults) (now : Int) (st : Store) (u : String)
    (d : Bool) :
    (InvalidateAllUserSessions f now st u d).2.sessions.map rowKind
      = st.sessions.map rowKind := by
  unfold InvalidateAllUserSessions
  simp only []
  cases redisSMembers f st.redis now (userSessionsKey u) with
  | none => rfl
  | some keys =>
    cases d with
    | false => rfl
    | true => exact dbInvalidateAllUserSessions_kinds f st.sessions u

theorem RefreshSession_kinds (f : Faults) (now : Int) (jit : Jitter) (st : Store)
    (acc : UserSession) (refreshToken : String) :
    (RefreshSession f now jit st acc refreshToken).2.sessions.map rowKind
      = st.sessions.map rowKind := by
  unfold RefreshSession
  have hrows1 := GetSession_sessions f now jit st acc.SessionToken true
  cases h1 : GetSession f now jit st acc.SessionToken true with
  | mk res1 st1 =>
    rw [h1] at hrows1
    simp only [] at hrows1 ⊢
    cases res1 with
    | ok s1 =>
      simp only []
      rw [hrows1]
    | error e1 =>
      simp only []
      have hrows2 := GetSession_sessions f now (jit.drop 1) st1 refreshToken false
      cases h2 : GetSession f now (jit.drop 1) st1 refreshToken false with
      | mk res2 st2 =>
        rw [h2] at hrows2
        simp only [] at hrows2 ⊢
        cases res2 with
        | error e2 =>
          simp only []
          rw [hrows2, hrows1]
        | ok existing =>
          simp only []
          have hk := dbUpdateRefreshSession_kinds f st2.sessions refreshToken acc.SessionToken now
          rw [hrows2, hrows1] at hk
          cases h3 : dbUpdateRefreshSession f st2.sessions refreshToken acc.SessionToken now with
          | mk err rows =>
            rw [hrows2, hrows1] at h3
            rw [h3] at hk
            cases err with
            | some e3 => exact hk
            | none => exact hk

theorem UpdateRefreshSession_kinds (f : Faults) (now : Int) (jit : Jitter) (st : Store)
    (refreshToken newAccessToken : String) :
    (UpdateRefreshSession f now jit st refreshToken newAccessToken).2.sessions.map rowKind
      = st.sessions.map rowKind := by
  unfold UpdateRefreshSession
  simp only []
  cases redisGet f st.redis now (refreshSessionKey refreshToken) with
  | session s =>
    simp only []
    cases redisSet f st.redis now (refreshSessionKey refreshToken)
        { s with AccessToken := newAccessToken, LastActivityAt := now }
        (ttlWithJitter now s.ExpiresAt (jit 0)) with
    | none => rfl
    | some r1 => exact dbUpdateRefreshSession_kinds f st.sessions refreshToken newAccessToken now
  | junk b => rfl
  | missing => rfl
  | failed => rfl

theorem RefreshSessionPair_kinds (f : Faults) (now : Int) (jit : Jitter) (st : Store)
    (acc rs : UserSession) :
    (RefreshSessionPair f now jit st acc rs).2.sessions.map rowKind
      = st.sessions.map rowKind := by
  unfold RefreshSessionPair
  simp only []
  rw [RefreshSession_kinds, InvalidateAllUserSessions_kinds]

theorem InvalidateSessionPairByAccessToken_kinds (f : Faults) (now : Int) (st : Store)
    (accessToken : String) :
    (InvalidateSessionPairByAccessToken f now st accessToken).2.sessions.map rowKind
      = st.sessions.map rowKind := by
  unfold InvalidateSessionPairByAccessToken
  cases redisGet f st.redis now (accessSessionKey accessToken) with
  | session s =>
    simp only []
    by_cases hu : s.UserID = ""
    · rw [if_pos hu]
    · rw [if_neg hu]
      exact InvalidateAllUserSessions_kinds f now st s.UserID true
  | junk b => rfl
  | missing => rfl
  | failed => rfl

/-- The durable table after `CreateSessionPair` for a refresh session: as before, or with one
more row of kind refresh that carries the refresh token. -/
theorem CreateSessionPair_kinds (f : Faults) (dup uuid : String) (now : Int) (jit : Jitter)
    (st : Store) (acc rs : UserSession) (hty : rs.SessionType = "refresh") :
    (CreateSessionPair f dup uuid now jit st acc rs).2.1.sessions.map rowKind
        = st.sessions.map rowKind ∨
    (CreateSessionPair f dup uuid now jit st acc rs).2.1.sessions.map rowKind
        = st.sessions.map rowKind ++ [("refresh", rs.SessionToken)] := by
  have hs1 := GetSession_sessions f now jit st acc.SessionToken true
  have hs2 := GetSession_sessions f now (jit.drop 1)
    (GetSession f now jit st acc.SessionToken true).2 rs.SessionToken false
  rw [hs1] at hs2
  rcases CreateSessionPair_cases f dup uuid now jit st acc rs with ⟨hc1, g1, _, _, g4⟩
  rcases hc1 with ⟨_, k | k⟩ | ⟨_, k2, _, _⟩
  · left
    rw [k, hs1]
  · left
    rw [k, hs2]
  · right
    rw [k2]
    simp only [List.map_append, List.map_cons, List.map_nil]
    have h4 := g4 (by rw [hty]; decide)
    unfold rowKind
    simp only []
    rw [h4, hty, g1]

/-- The durable table after the retry loop of `Login`: as before, or with one more row of kind
refresh whose token is the first refresh token or one the loop generated. -/
theorem Login_create_kinds (svc : UserService) (f : Faults) (now : Int) (ent : Entropy)
    (user : User) (st : Store) (accessToken refreshToken : String) (acc rs : UserSession)
    (hacc : acc.SessionToken = accessToken) (hrs : rs.SessionToken = refreshToken)
    (hty : rs.SessionType = "refresh") :
    (Login.create svc f now ent user 3 0 st accessToken refreshToken acc rs).2.sessions.map rowKind
        = st.sessions.map rowKind ∨
    ∃ t, (t = refreshToken ∨ ∃ k, t =
        orEmpty (GenerateToken svc.lib now (ent.nonce (2 * k + 3)) user.ID user.Username
          svc.jwtSecret svc.refreshExpiresIn)) ∧
      (Login.create svc f now ent user 3 0 st accessToken refreshToken acc rs).2.sessions.map
        rowKind = st.sessions.map rowKind ++ [("refresh", t)] := by
  obtain ⟨j, stj, accj, rsj, q1, _, _, qt, _, q4, q5, _, _⟩ :=
    Login_create_last svc f now ent user 3 0 rfl (by decide) st accessToken refreshToken acc rs
      hacc hrs
  rw [q5]
  rcases CreateSessionPair_kinds f svc.lib.duplicateEntry (ent.uuid 0) now
      (ent.jitter.drop (4 * j)) stj accj rsj (qt hty) with h | h
  · left
    rw [h, q1]
  · right
    refine ⟨rsj.SessionToken, q4, ?_⟩
    rw [h, q1]

theorem Register_kinds (svc : UserService) (f : Faults) (a : Bool) (now : Int) (ent : Entropy)
    (st : State) (req : RegisterRequest) :
    (Register svc f a now ent st req).2.store.sessions.map rowKind
        = st.store.sessions.map rowKind ∨
    ∃ userID username,
      (Register svc f a now ent st req).2.store.sessions.map rowKind
        = st.store.sessions.map rowKind ++
          [("refresh", orEmpty (GenerateToken svc.lib now (ent.nonce 1) userID username
            svc.jwtSecret svc.refreshExpiresIn))] := by
  rcases Register_run svc f a now ent st req with ⟨_, h⟩ | ⟨user, acc, rs, _, hrt, _, _, hty, hstore, _⟩
  · left
    rw [h]
  · rw [hstore]
    rcases CreateSessionPair_kinds f svc.lib.duplicateEntry (ent.uuid 1) now ent.jitter st.store
        acc rs hty with h | h
    · exact Or.inl h
    · right
      refine ⟨user.ID, user.Username, ?_⟩
      rw [h, hrt]

theorem Login_kinds (svc : UserService) (f : Faults) (a : Bool) (now : Int) (ent : Entropy)
    (st : State) (req : LoginRequest) :
    (Login svc f a now ent st req).2.store.sessions.map rowKind
        = st.store.sessions.map rowKind ∨
    ∃ userID username k,
      (Login svc f a now ent st req).2.store.sessions.map rowKind
        = st.store.sessions.map rowKind ++
          [("refresh", orEmpty (GenerateToken svc.lib now (ent.nonce k) userID username
            svc.jwtSecret svc.refreshExpiresIn))] := by
  rcases Login_run svc f a now ent st req with
    ⟨_, h⟩ |
      ⟨user, accessToken, refreshToken, acc, rs, _, hgen, hacc, hrs, _, _, hty, hstore, _⟩
  · left
    rw [h]
  · rw [hstore]
    have hinv := InvalidateAllUserSessions_kinds f now st.store user.ID true
    rcases Login_create_kinds svc f now ent user
        (InvalidateAllUserSessions f now st.store user.ID true).2 accessToken refreshToken acc rs
        hacc hrs hty with h | ⟨t, ht, h⟩
    · left
      rw [h, hinv]
    · right
      rcases ht with ht | ⟨k, ht⟩
      · refine ⟨user.ID, user.Username, 1, ?_⟩
        rw [h, hinv, ht, hgen]
        rfl
      · refine ⟨user.ID, user.Username, 2 * k + 3, ?_⟩
        rw [h, hinv, ht]

theorem Logout_kinds (f : Faults) (now : Int) (st : State) (accessToken : String) :
    (Logout f now st accessToken).2.store.sessions.map rowKind
      = st.store.sessions.map rowKind := by
  unfold Logout
  exact InvalidateSessionPairByAccessToken_kinds f now st.store accessToken

theorem ValidateToken_kinds (f : Faults) (now : Int) (jit : Jitter) (st : State)
    (accessToken : String) :
    (ValidateToken f now jit st accessToken).2.store.sessions.map rowKind
      = st.store.sessions.map rowKind := by
  unfold ValidateToken
  have h := GetSession_sessions f now jit st.store accessToken true
  cases hg : GetSession f now jit st.store accessToken true with
  | mk res store1 =>
    rw [hg] at h
    simp only [] at h
    cases res with
    | ok s =>
      simp only []
      rw [h]
    | error e =>
      simp only []
      rw [h]

theorem RefreshToken_kinds (svc : UserService) (f : Faults) (now : Int) (ent : Entropy)
    (st : State) (refreshToken : String) :
    (RefreshToken svc f now ent st refreshToken).2.store.sessions.map rowKind
      = st.store.sessions.map rowKind := by
  unfold RefreshToken
  cases ParseToken svc.lib now refreshToken svc.jwtSecret with
  | error e => rfl
  | ok claims =>
    simp only []
    have h := GetSession_sessions f now ent.jitter st.store refreshToken false
    cases hg : GetSession f now ent.jitter st.store refreshToken false with
    | mk res store1 =>
      rw [hg] at h
      simp only [] at h
      cases res with
      | error e =>
        simp only []
        rw [h]
      | ok refreshSession =>
        simp only []
        by_cases hexp : refreshSession.ExpiresAt - now < 1 * timeHour
        · rw [if_pos hexp]
          simp only []
          rw [h]
        · rw [if_neg hexp]
          have hpair := RefreshSessionPair_kinds f now (ent.jitter.drop 1) store1
            { ID := "", UserID := claims.UserID,
              SessionToken := orEmpty (GenerateToken svc.lib now (ent.nonce 0) claims.UserID ""
                svc.jwtSecret svc.accessExpiresIn),
              SessionType := "access", Platform := refreshSession.Platform,
              ExpiresAt := now + svc.accessExpiresIn * timeSecond, LastActivityAt := now,
              IsActive := false, AccessToken := "", DeviceID := refreshSession.DeviceID }
            { refreshSession with
              AccessToken := orEmpty (GenerateToken svc.lib now (ent.nonce 0) claims.UserID ""
                svc.jwtSecret svc.accessExpiresIn),
              LastActivityAt := now }
          rw [h] at hpair
          cases hp : RefreshSessionPair f now (ent.jitter.drop 1) store1
            { ID := "", UserID := claims.UserID,
              SessionToken := orEmpty (GenerateToken svc.lib now (ent.nonce 0) claims.UserID ""
                svc.jwtSecret svc.accessExpiresIn),
              SessionType := "access", Platform := refreshSession.Platform,
              ExpiresAt := now + svc.accessExpiresIn * timeSecond, LastActivityAt := now,
              IsActive := false, AccessToken := "", DeviceID := refreshSession.DeviceID }
            { refreshSession with
              AccessToken := orEmpty (GenerateToken svc.lib now (ent.nonce 0) claims.UserID ""
                svc.jwtSecret svc.accessExpiresIn),
              LastActivityAt := now } with
          | mk err store2 =>
            rw [hp] at hpair
            simp only [] at hpair
            cases err with
            | some e =>
              simp only []
              exact hpair
            | none =>
              simp only []
              have hupd := UpdateRefreshSession_kinds f now (ent.jitter.drop 5) store2 refreshToken
                (orEmpty (GenerateToken svc.lib now (ent.nonce 0) claims.UserID ""
                  svc.jwtSecret svc.accessExpiresIn))
              cases dbGetByID st.users claims.UserID with
              | none =>
                simp only []
                rw [hupd, hpair]
              | some user =>
                simp only []
                rw [hupd, hpair]

/-- A token generated with a drawn nonce is one `GenerateToken` can return. -/
theorem mintedWith_orEmpty (svc : UserService) (now : Int) (ent : Entropy) (k : Nat)
    (userID username : String) (expiresIn : Int) (hent : ∀ n, ent.nonce n ≠ none) :
    mintedWith svc expiresIn
      (orEmpty (GenerateToken svc.lib now (ent.nonce k) userID username svc.jwtSecret
        expiresIn)) := by
  cases h : ent.nonce k with
  | none => exact absurd h (hent k)
  | some n => exact ⟨now, n, userID, username, rfl⟩

/-- Whichever store calls fail, every row of the `user_sessions` table is of kind refresh and
carries a token that `GenerateToken` returned for the refresh lifetime. -/
theorem ReachableFaulty_rows (svc : UserService) (st : State) (h : ReachableFaulty svc st) :
    ∀ p ∈ st.store.sessions.map rowKind,
      p.1 = "refresh" ∧ mintedWith svc svc.refreshExpiresIn p.2 := by
  induction h with
  | init =>
    intro p hp
    cases hp
  | register st f a now ent req hent _ ih =>
    rcases Register_kinds svc f a now ent st req with h | ⟨u, w, h⟩
    · rw [h]
      exact ih
    · rw [h]
      intro p hp
      rcases List.mem_append.1 hp with hp | hp
      · exact ih p hp
      · rw [List.mem_singleton] at hp
        subst hp
        exact ⟨rfl, mintedWith_orEmpty svc now ent 1 u w svc.refreshExpiresIn hent⟩
  | login st f a now ent req hent _ ih =>
    rcases Login_kinds svc f a now ent st req with h | ⟨u, w, k, h⟩
    · rw [h]
      exact ih
    · rw [h]
      intro p hp
      rcases List.mem_append.1 hp with hp | hp
      · exact ih p hp
      · rw [List.mem_singleton] at hp
        subst hp
        exact ⟨rfl, mintedWith_orEmpty svc now ent k u w svc.refreshExpiresIn hent⟩
  | logout st f now accessToken _ ih =>
    rw [Logout_kinds]
    exact ih
  | refresh st f now ent refreshToken _ ih =>
    rw [RefreshToken_kinds]
    exact ih
  | validate st f now jit accessToken _ ih =>
    rw [ValidateToken_kinds]
    exact ih

/-- Claim C12: in every state reached through `Register`, `Login`, `RefreshToken`, `Logout` (and
`ValidateToken`), whichever store calls fail, every row of the durable table is of kind refresh;
and when the token codec never returns the same string for the access lifetime and for the
refresh lifetime, no value that `GenerateToken` returns for the access lifetime is the token of
a durable row. The token nonces of `Register` and `Login` are drawn without failure. -/
theorem C12_durable_rows_refresh_only (svc : UserService) (st : State)
    (hreach : ReachableFaulty svc st)
    (hdisj : ∀ t, mintedWith svc svc.accessExpiresIn t →
      ¬ mintedWith svc svc.refreshExpiresIn t) :
    ∀ row ∈ st.store.sessions,
      row.SessionType = "refresh" ∧
      ∀ t, mintedWith svc svc.accessExpiresIn t → row.SessionToken ≠ t := by
  intro row hrow
  have h := ReachableFaulty_rows svc st hreach (rowKind row) (List.mem_map_of_mem rowKind hrow)
  refine ⟨h.1, ?_⟩
  intro t ht heq
  apply hdisj t ht
  rw [← heq]
  exact h.2

/-- The tokens of `kindLib` for two hours start with the letter `A`, those for seven days with
the letter `R`. -/
theorem kindService_disjoint (t : String)
    (ha : mintedWith kindService kindService.accessExpiresIn t) :
    ¬ mintedWith kindService kindService.refreshExpiresIn t := by
  rintro ⟨now2, n2, u2, w2, h2⟩
  obtain ⟨now1, n1, u1, w1, h1⟩ := ha
  have e1 : (now1 + 7200 * 1000000000) / 1000000000 * 1000000000
      - now1 / 1000000000 * 1000000000 = 7200 * 1000000000 := by omega
  have e2 : ¬ (now2 + 604800 * 1000000000) / 1000000000 * 1000000000
      - now2 / 1000000000 * 1000000000 = 7200 * 1000000000 := by omega
  simp only [GenerateToken, kindService, kindLib, timeSecond, e1, e2, if_true, if_false,
    Except.ok.injEq] at h1 h2
  rw [← h1] at h2
  have h3 := congrArg String.data h2
  simp at h3

/-- Claim C12 at the state in which `alice` has registered with the service over `kindLib`, for
the one row the table then holds. -/
theorem C12_durable_rows_refresh_only_witness :
    { aliceRefresh with SessionToken := "Rax" } ∈
      (Register kindService Faults.none false 0 (sampleEntropy "a") emptyState
        registerAlice).2.store.sessions ∧
    ({ aliceRefresh with SessionToken := "Rax" } : UserSession).SessionType = "refresh" ∧
    ∀ t, mintedWith kindService kindService.accessExpiresIn t →
      ({ aliceRefresh with SessionToken := "Rax" } : UserSession).SessionToken ≠ t :=
  have hmem : { aliceRefresh with SessionToken := "Rax" } ∈
      (Register kindService Faults.none false 0 (sampleEntropy "a") emptyState
        registerAlice).2.store.sessions := by
    have hrows : (Register kindService Faults.none false 0 (sampleEntropy "a") emptyState
        registerAlice).2.store.sessions = [{ aliceRefresh with SessionToken := "Rax" }] := rfl
    rw [hrows]
    exact List.mem_singleton_self _
  ⟨hmem, C12_durable_rows_refresh_only kindService _
    (ReachableFaulty.register emptyState Faults.none false 0 (sampleEntropy "a") registerAlice
      (fun n h => by cases h) ReachableFaulty.init)
    kindService_disjoint _ hmem⟩

/-- The access token of every response is a value `GenerateToken` returned for the access
lifetime (nonces drawn without failure). -/
theorem issued_access_minted (svc : UserService) (f : Faults) (a : Bool) (now : Int)
    (ent : Entropy) (st : State) (hent : ∀ n, ent.nonce n ≠ none) (resp : LoginResponse) :
    (∀ req, (Register svc f a now ent st req).1 = .ok resp →
      mintedWith svc svc.accessExpiresIn resp.AccessToken) ∧
    (∀ req, (Login svc f a now ent st req).1 = .ok resp →
      mintedWith svc svc.accessExpiresIn resp.AccessToken) ∧
    (∀ refreshToken, (RefreshToken svc f now ent st refreshToken).1 = .ok resp →
      mintedWith svc svc.accessExpiresIn resp.AccessToken) := by
  refine ⟨?_, ?_, ?_⟩
  · intro req h
    rcases Register_run svc f a now ent st req with
      ⟨⟨e, he⟩, _⟩ | ⟨user, acc, rs, hat, _, _, _, _, _, hok⟩
    · rw [he] at h
      cases h
    · rw [(hok resp h).2.1, hat]
      exact mintedWith_orEmpty svc now ent 0 _ _ _ hent
  · intro req h
    rcases Login_run svc f a now ent st req with
      ⟨⟨e, he⟩, _⟩ |
      ⟨user, accessToken, refreshToken, acc, rs, hgen0, _, hacc, hrs, _, _, _, _, hok⟩
    · rw [he] at h
      cases h
    · obtain ⟨a1, r1, rs1, hcreate, ha, _⟩ := hok resp h
      obtain ⟨j, stj, accj, rsj, _, _, _, _, qa, _, _, q6, _⟩ :=
        Login_create_last svc f now ent user 3 0 rfl (by decide)
          (InvalidateAllUserSessions f now st.store user.ID true).2 accessToken refreshToken
          acc rs hacc hrs
      rw [ha, (q6 a1 r1 rs1 hcreate).2.1]
      rcases qa with q | ⟨k, q⟩
      · rw [q]
        have h0 := mintedWith_orEmpty svc now ent 0 user.ID user.Username svc.accessExpiresIn hent
        rw [hgen0] at h0
        exact h0
      · rw [q]
        exact mintedWith_orEmpty svc now ent (2 * k + 2) _ _ _ hent
  · intro refreshToken h
    unfold RefreshToken at h
    cases hparse : ParseToken svc.lib now refreshToken svc.jwtSecret with
    | error e =>
      rw [hparse] at h
      cases h
    | ok claims =>
      rw [hparse] at h
      simp only [] at h
      have hm := mintedWith_orEmpty svc now ent 0 claims.UserID "" svc.accessExpiresIn hent
      generalize orEmpty (GenerateToken svc.lib now (ent.nonce 0) claims.UserID ""
        svc.jwtSecret svc.accessExpiresIn) = tok at h hm
      cases hg : GetSession f now ent.jitter st.store refreshToken false with
      | mk res store1 =>
        rw [hg] at h
        cases res with
        | error e => cases h
        | ok refreshSession =>
          simp only [] at h
          by_cases hexp : refreshSession.ExpiresAt - now < 1 * timeHour
          · rw [if_pos hexp] at h
            cases h
          · rw [if_neg hexp] at h
            generalize RefreshSessionPair f now (ent.jitter.drop 1) store1 _ _ = out at h
            rcases out with ⟨err, store2⟩
            cases err with
            | some e => cases h
            | none =>
              simp only [] at h
              cases hu : dbGetByID st.users claims.UserID with
              | none =>
                rw [hu] at h
                cases h
              | some user =>
                rw [hu] at h
                simp only [Except.ok.injEq] at h
                rw [← h]
                exact hm

/-! ## `contains` and `IsDuplicateError` (`utils/errors.go`) -/

/-- The function `contains` is the prefix test: it is true exactly when `substr` is an initial
segment of `s`. -/
theorem contains_iff_initial (s substr : String) :
    contains s substr = true ↔ substr.data <+: s.data := by
  unfold contains
  simp only [Bool.and_eq_true, decide_eq_true_eq, beq_iff_eq]
  constructor
  · rintro ⟨_, h⟩
    rw [← h]
    exact List.take_prefix _ _
  · intro h
    refine ⟨h.length_le, ?_⟩
    obtain ⟨t, ht⟩ := h
    rw [← ht, List.take_left']
    rfl

/-- Claim C25 at the message of the MySQL driver for a violated unique index: the message
holds `1062` and `Duplicate entry` as substrings, `contains` answers `false` for both because
neither starts the message, and `IsDuplicateError` is `false` on it. -/
theorem C25_duplicate_message_not_recognised :
    "1062".data <:+: "Error 1062: Duplicate entry 'x' for key 'session_token'".data ∧
    "Duplicate entry".data <:+: "Error 1062: Duplicate entry 'x' for key 'session_token'".data ∧
    contains "Error 1062: Duplicate entry 'x' for key 'session_token'" "1062" = false ∧
    contains "Error 1062: Duplicate entry 'x' for key 'session_token'" "Duplicate entry"
      = false ∧
    IsDuplicateError (some "Error 1062: Duplicate entry 'x' for key 'session_token'")
      = false := by
  refine ⟨⟨"Error ".data, ": Duplicate entry 'x' for key 'session_token'".data, by decide⟩,
    ⟨"Error 1062: ".data, " 'x' for key 'session_token'".data, by decide⟩, by decide, by decide,
    by decide⟩

/-! ## `ttlWithJitter` -/

/-- As long as the remaining lifetime and five minutes of jitter fit a `time.Duration`,
`ttlWithJitter` over the integers is the function in `int64` arithmetic. -/
theorem ttlWithJitter_int64_eq (now expiresAt : Int) (draw : Fin 300)
    (hfit : expiresAt - now ≤ maxDuration - 299 * timeSecond) :
    ttlWithJitter.int64 now expiresAt draw = ttlWithJitter now expiresAt draw := by
  have hd : (draw.val : Int) < 300 := by exact_mod_cast draw.isLt
  have hd0 : (0 : Int) ≤ (draw.val : Int) := Int.ofNat_nonneg _
  have hfit1 : expiresAt - now ≤ 9223372036854775807 - 299 * 1000000000 := by
    have h := hfit
    unfold maxDuration timeSecond at h
    norm_num at h ⊢
    exact h
  have hj : wrapInt64 ((draw.val : Int) * timeSecond) = (draw.val : Int) * timeSecond :=
    wrapInt64_seconds _ (by omega) (by omega)
  unfold ttlWithJitter.int64 ttlWithJitter timeUntil
  simp only []
  rw [hj]
  by_cases hmin : expiresAt - now < minDuration
  · have hneg : expiresAt - now ≤ 0 := by
      unfold minDuration at hmin
      norm_num at hmin
      omega
    have hmin0 : minDuration ≤ 0 := by
      unfold minDuration
      norm_num
    rw [if_pos hmin, if_pos hmin0, if_pos hneg]
  · rw [if_neg hmin]
    have hmax : ¬ maxDuration < expiresAt - now := by
      unfold maxDuration
      norm_num
      omega
    rw [if_neg hmax]
    by_cases h0 : expiresAt - now ≤ 0
    · rw [if_pos h0, if_pos h0]
    · rw [if_neg h0, if_neg h0]
      apply wrapInt64_eq
      · unfold timeSecond
        omega
      · unfold timeSecond
        omega

/-- Claim C26, as the code has it, in the `int64` arithmetic of `time.Duration`: with remaining
lifetime `r = expiresAt - now`, `ttlWithJitter` returns one second when `r ≤ 0`, and `r` plus
`j` seconds for the draw `j < 300` when `r > 0` and that sum fits a `time.Duration`. For every
`r` that leaves room for five minutes of jitter the TTL is positive and never shorter than `r`,
and it exceeds `r` by less than 300 seconds as long as the expiry lies less than 299 seconds in
the past. -/
theorem C26_ttlWithJitter (now expiresAt : Int) (draw : Fin 300) :
    (expiresAt - now ≤ 0 → ttlWithJitter.int64 now expiresAt draw = timeSecond) ∧
    (0 < expiresAt - now →
      expiresAt - now + (draw.val : Int) * timeSecond ≤ maxDuration →
      ttlWithJitter.int64 now expiresAt draw
        = (expiresAt - now) + (draw.val : Int) * timeSecond) ∧
    draw.val < redisJitterMax ∧
    (expiresAt - now ≤ maxDuration - 299 * timeSecond →
      0 < ttlWithJitter.int64 now expiresAt draw ∧
      expiresAt - now ≤ ttlWithJitter.int64 now expiresAt draw ∧
      (-299 * timeSecond < expiresAt - now →
        ttlWithJitter.int64 now expiresAt draw - (expiresAt - now) < 300 * timeSecond)) := by
  have hd : (draw.val : Int) < 300 := by exact_mod_cast draw.isLt
  have hd0 : (0 : Int) ≤ (draw.val : Int) := Int.ofNat_nonneg _
  have hts : timeSecond = 1000000000 := rfl
  have hmaxv : maxDuration = 9223372036854775807 := by
    unfold maxDuration
    norm_num
  have hminv : minDuration = -9223372036854775808 := by
    unfold minDuration
    norm_num
  have hj : wrapInt64 ((draw.val : Int) * timeSecond) = (draw.val : Int) * timeSecond :=
    wrapInt64_seconds _ (by omega) (by omega)
  refine ⟨?_, ?_, draw.isLt, ?_⟩
  · intro h
    unfold ttlWithJitter.int64 timeUntil
    simp only []
    have : (if expiresAt - now < minDuration then minDuration
        else if maxDuration < expiresAt - now then maxDuration else expiresAt - now) ≤ 0 := by
      rw [hmaxv, hminv]
      split
      · omega
      · split
        · omega
        · exact h
    rw [if_pos this]
  · intro h hfit
    rw [hmaxv, hts] at hfit
    unfold ttlWithJitter.int64 timeUntil
    simp only []
    rw [hj, hmaxv, hminv, if_neg (by omega), if_neg (by omega), if_neg (by omega)]
    apply wrapInt64_eq
    · rw [hts]
      omega
    · rw [hts]
      omega
  · intro hfit
    rw [ttlWithJitter_int64_eq now expiresAt draw hfit]
    unfold ttlWithJitter
    simp only []
    rw [hts]
    by_cases h : expiresAt - now ≤ 0
    · rw [if_pos h]
      refine ⟨by decide, by omega, ?_⟩
      intro h1
      omega
    · rw [if_neg h]
      refine ⟨by omega, by omega, ?_⟩
      intro h1
      omega

/-- Claim C26 as stated fails: for an expiry one hour in the past the TTL is one second, which
exceeds the remaining lifetime by more than 300 seconds; and for the largest remaining lifetime
a `time.Duration` holds, one second of jitter makes the sum wrap around to a negative TTL. -/
theorem C26_counterexample :
    ttlWithJitter.int64 0 (-3600 * timeSecond) ⟨0, by decide⟩ = timeSecond ∧
    ¬ (ttlWithJitter.int64 0 (-3600 * timeSecond) ⟨0, by decide⟩ - (-3600 * timeSecond - 0)
      < 300 * timeSecond) ∧
    ttlWithJitter.int64 0 maxDuration ⟨1, by decide⟩ = -9223372035854775809 ∧
    ¬ (0 < ttlWithJitter.int64 0 maxDuration ⟨1, by decide⟩) := by
  refine ⟨?_, ?_, ?_, ?_⟩
  · decide
  · decide
  · decide
  · decide

/-! ## The durable-write loop of `CreateSessionPair` -/

/-- Claim C24, as the code has it: the durable write of `CreateSessionPair` is attempted at most
twice. The outcome of the first attempt is returned when it succeeds or when it fails with an
error that `IsDuplicateError` recognises; after any other failure a second attempt is made and
its outcome is returned, whatever it is. When neither token resolves to an existing session,
the error of `CreateSessionPair` is the error of that loop. -/
theorem C24_durable_write_retry (f : Faults) (dup uuid : String) (rows : List UserSession)
    (s : UserSession) :
    ((dbCreateSession (f.dbCreateSession 0) dup uuid rows s).1 = none →
      CreateSessionPair.persist f dup uuid 2 0 rows s none =
        dbCreateSession (f.dbCreateSession 0) dup uuid rows s) ∧
    (∀ e, (dbCreateSession (f.dbCreateSession 0) dup uuid rows s).1 = some e →
      IsDuplicateError (some e) = true →
      CreateSessionPair.persist f dup uuid 2 0 rows s none =
        dbCreateSession (f.dbCreateSession 0) dup uuid rows s) ∧
    (∀ e, (dbCreateSession (f.dbCreateSession 0) dup uuid rows s).1 = some e →
      IsDuplicateError (some e) = false →
      CreateSessionPair.persist f dup uuid 2 0 rows s none =
        dbCreateSession (f.dbCreateSession 1) dup uuid
          (dbCreateSession (f.dbCreateSession 0) dup uuid rows s).2.1
          (dbCreateSession (f.dbCreateSession 0) dup uuid rows s).2.2) ∧
    (∀ (now : Int) (jit : Jitter) (st : Store) (acc : UserSession),
      st.sessions = rows →
      (∀ x, (GetSession f now jit st acc.SessionToken true).1 ≠ .ok x) →
      (∀ x, (GetSession f now (jit.drop 1) (GetSession f now jit st acc.SessionToken true).2
        s.SessionToken false).1 ≠ .ok x) →
      (CreateSessionPair f dup uuid now jit st acc s).1 =
        (CreateSessionPair.persist f dup uuid 2 0 rows s none).1) := by
  refine ⟨?_, ?_, ?_, ?_⟩
  · intro h0
    cases hd : dbCreateSession (f.dbCreateSession 0) dup uuid rows s with
    | mk e rest =>
      rw [hd] at h0
      simp only [] at h0
      subst h0
      rcases rest with ⟨rows1, s1⟩
      simp only [CreateSessionPair.persist, hd]
  · intro e h0 hdup
    cases hd : dbCreateSession (f.dbCreateSession 0) dup uuid rows s with
    | mk e0 rest =>
      rw [hd] at h0
      simp only [] at h0
      subst h0
      rcases rest with ⟨rows1, s1⟩
      simp only [CreateSessionPair.persist, hd, hdup, if_true]
  · intro e h0 hdup
    cases hd : dbCreateSession (f.dbCreateSession 0) dup uuid rows s with
    | mk e0 rest =>
      rw [hd] at h0
      simp only [] at h0
      subst h0
      rcases rest with ⟨rows1, s1⟩
      simp only [CreateSessionPair.persist, hd, hdup, Bool.false_eq_true, if_false, zero_add]
      cases hd1 : dbCreateSession (f.dbCreateSession 1) dup uuid rows1 s1 with
      | mk e1 rest1 =>
        rcases rest1 with ⟨rows2, s2⟩
        cases e1 with
        | none => rfl
        | some e1 =>
          simp only []
          by_cases hdup1 : IsDuplicateError (some e1) = true
          · rw [if_pos hdup1]
          · rw [if_neg hdup1]
  · intro now jit st acc hrows h1 h2
    subst hrows
    unfold CreateSessionPair
    have hs1 := GetSession_sessions f now jit st acc.SessionToken true
    cases hg1 : GetSession f now jit st acc.SessionToken true with
    | mk res1 st1 =>
      rw [hg1] at h1 h2 hs1
      simp only [] at h1 h2 hs1
      cases res1 with
      | ok x => exact absurd rfl (h1 x)
      | error e1 =>
        simp only []
        have hs2 := GetSession_sessions f now (jit.drop 1) st1 s.SessionToken false
        cases hg2 : GetSession f now (jit.drop 1) st1 s.SessionToken false with
        | mk res2 st2 =>
          rw [hg2] at h2 hs2
          simp only [] at h2 hs2
          cases res2 with
          | ok x => exact absurd rfl (h2 x)
          | error e2 =>
            simp only []
            rw [hs2, hs1]
            cases CreateSessionPair.persist f dup uuid 2 0 st.sessions s none with
            | mk e rest =>
              rcases rest with ⟨rows1, s1⟩
              cases e <;> rfl

/-- Claim C24 as stated fails, both ways: after a first insert that fails for a cause other than
a duplicate the insert is tried again (here it then succeeds, so the failure is not returned),
and a first insert that fails with a recognised duplicate error is returned at once although
the next insert would work. -/
theorem C24_counterexample :
    flakyInsert.dbCreateSession 0 = some "driver: bad connection" ∧
    IsDuplicateError (some "driver: bad connection") = false ∧
    (CreateSessionPair flakyInsert "dup" "id1" 5 jitter0 emptyState.store sampleAccess
      sampleRefresh).1 = none ∧
    duplicateInsert.dbCreateSession 0
      = some "Duplicate entry 'refreshA' for key 'session_token'" ∧
    IsDuplicateError (some "Duplicate entry 'refreshA' for key 'session_token'") = true ∧
    duplicateInsert.dbCreateSession 1 = none ∧
    (CreateSessionPair duplicateInsert "dup" "id1" 5 jitter0 emptyState.store sampleAccess
      sampleRefresh).1 = some "Duplicate entry 'refreshA' for key 'session_token'" := by
  refine ⟨rfl, by decide, rfl, rfl, by decide, rfl, rfl⟩

/-! ## A failed index read in `InvalidateAllUserSessions` -/

/-- When `SMEMBERS` fails, `InvalidateAllUserSessions` returns the error at once: neither tier is
touched, whatever `invalidateDB` says. -/
theorem InvalidateAllUserSessions_index_read_fails (f : Faults) (hf : f.redisSMembers = true)
    (now : Int) (st : Store) (p : String) (d : Bool) :
    InvalidateAllUserSessions f now st p d = (some "redis: smembers failed", st) := by
  unfold InvalidateAllUserSessions redisSMembers
  simp only [hf, if_true]

/-- Claim C22 at the failing input: `alice` holds one active refresh record; with a failing
index read `InvalidateAllUserSessions(alice, true)` returns the error and leaves her record
active, and the login that proceeds succeeds and leaves her with two active refresh records. -/
theorem C22_index_read_failure_skips_durable_update :
    registeredState.store.sessions.map (fun row => (row.UserID, row.SessionToken, row.IsActive))
      = [("ida", "ax", true)] ∧
    InvalidateAllUserSessions indexReadFails 10 registeredState.store "ida" true
      = (some "redis: smembers failed", registeredState.store) ∧
    (Login sampleService indexReadFails false 10 (sampleEntropy "b") registeredState
      loginAlice).1 = .ok (aliceResponse "b") ∧
    (Login sampleService indexReadFails false 10 (sampleEntropy "b") registeredState
      loginAlice).2.store.sessions.map
        (fun row => (row.UserID, row.SessionToken, row.IsActive))
      = [("ida", "ax", true), ("ida", "bx", true)] := by
  refine ⟨rfl, InvalidateAllUserSessions_index_read_fails indexReadFails rfl _ _ _ _, rfl, rfl⟩

/-! ## The audit entries of `Login` -/

/-- What `LogFailure` stores: nothing when the write fails, else one entry with the reason, the
user ID and no session ID. -/
theorem LogFailure_append (a : Bool) (uuid : String) (logs : List LoginLog)
    (userID reason platform deviceID : String) :
    ∃ entry : LoginLog, entry.FailureReason = some reason ∧ entry.SessionID = none ∧
      entry.UserID = userID ∧
      LogFailure a uuid logs userID reason platform deviceID
        = logs ++ (if a then [] else [entry]) := by
  unfold LogFailure dbCreateLoginLog
  cases a with
  | true => exact ⟨⟨"", userID, "", "", none, false, some reason, none⟩, rfl, rfl, rfl, by simp⟩
  | false => exact ⟨_, rfl, rfl, rfl, rfl⟩

/-- What `LogSuccess` stores: nothing when the write fails, else one entry with the session ID,
the user ID and no failure reason. -/
theorem LogSuccess_append (a : Bool) (uuid : String) (logs : List LoginLog)
    (userID sessionID platform deviceID : String) :
    ∃ entry : LoginLog, entry.FailureReason = none ∧ entry.SessionID = some sessionID ∧
      entry.UserID = userID ∧
      LogSuccess a uuid logs userID sessionID platform deviceID
        = logs ++ (if a then [] else [entry]) := by
  unfold LogSuccess dbCreateLoginLog
  cases a with
  | true => exact ⟨⟨"", userID, "", "", none, true, none, some sessionID⟩, rfl, rfl, rfl, by simp⟩
  | false => exact ⟨_, rfl, rfl, rfl, rfl⟩

/-- Every entry the audit table receives is stored with `IsSuccess = true`, the failure entries
of `LogFailure` included. -/
theorem dbCreateLoginLog_flag (fails : Bool) (logs : List LoginLog) (uuid : String)
    (entry : LoginLog) :
    ∃ added : List LoginLog, (dbCreateLoginLog fails logs uuid entry).2 = logs ++ added ∧
      ∀ e ∈ added, e.IsSuccess = true := by
  unfold dbCreateLoginLog
  cases fails with
  | true => exact ⟨[], by simp, by simp⟩
  | false =>
    refine ⟨_, rfl, ?_⟩
    intro e he
    rw [List.mem_singleton] at he
    rw [he]
    cases entry.IsSuccess <;> rfl

/-- Claim C27, as the code has it: `Login` only appends to the audit table, at most two entries,
and none when the audit writes fail. With audit writes that do not fail it appends nothing for
an unknown username and nothing when the generation of either token fails; one entry with the
reason `invalid password` for a password that does not verify; and, once both tokens are
generated, one warning entry exactly when the bulk invalidation returned an error, followed by
one entry carrying a session ID exactly when the login succeeds. -/
theorem C27_login_audit_entries (svc : UserService) (f : Faults) (now : Int) (ent : Entropy)
    (st : State) (req : LoginRequest) :
    (∀ a, ∃ added : List LoginLog,
      (Login svc f a now ent st req).2.loginLogs = st.loginLogs ++ added ∧ added.length ≤ 2) ∧
    (Login svc f true now ent st req).2.loginLogs = st.loginLogs ∧
    (dbGetByUsername st.users req.Username = none →
      (Login svc f false now ent st req).2.loginLogs = st.loginLogs) ∧
    (∀ user, dbGetByUsername st.users req.Username = some user →
      svc.lib.compareHashAndPassword user.PasswordHash req.Password = false →
      ∃ entry, (Login svc f false now ent st req).2.loginLogs = st.loginLogs ++ [entry] ∧
        entry.FailureReason = some "invalid password" ∧ entry.SessionID = none ∧
        entry.UserID = user.ID) ∧
    (∀ user, dbGetByUsername st.users req.Username = some user →
      svc.lib.compareHashAndPassword user.PasswordHash req.Password = true →
      ((∃ e, GenerateToken svc.lib now (ent.nonce 0) user.ID user.Username svc.jwtSecret
          svc.accessExpiresIn = .error e) ∨
        (∃ e, GenerateToken svc.lib now (ent.nonce 1) user.ID user.Username svc.jwtSecret
          svc.refreshExpiresIn = .error e)) →
      (Login svc f false now ent st req).2.loginLogs = st.loginLogs) ∧
    (∀ user accessToken refreshToken, dbGetByUsername st.users req.Username = some user →
      svc.lib.compareHashAndPassword user.PasswordHash req.Password = true →
      GenerateToken svc.lib now (ent.nonce 0) user.ID user.Username svc.jwtSecret
        svc.accessExpiresIn = .ok accessToken →
      GenerateToken svc.lib now (ent.nonce 1) user.ID user.Username svc.jwtSecret
        svc.refreshExpiresIn = .ok refreshToken →
      ∃ warning : List LoginLog,
        ((InvalidateAllUserSessions f now st.store user.ID true).1 = none → warning = []) ∧
        ((InvalidateAllUserSessions f now st.store user.ID true).1 ≠ none →
          ∃ w, warning = [w] ∧
            w.FailureReason = some "warning: failed to invalidate old sessions" ∧
            w.SessionID = none ∧ w.UserID = user.ID) ∧
        (∀ e, (Login svc f false now ent st req).1 = .error e →
          (Login svc f false now ent st req).2.loginLogs = st.loginLogs ++ warning) ∧
        (∀ resp, (Login svc f false now ent st req).1 = .ok resp →
          ∃ entry sid, (Login svc f false now ent st req).2.loginLogs
              = st.loginLogs ++ warning ++ [entry] ∧
            entry.FailureReason = none ∧ entry.SessionID = some sid ∧
            entry.UserID = user.ID)) := by
  refine ⟨?_, ?_, ?_, ?_, ?_, ?_⟩
  · intro a
    unfold Login
    cases dbGetByUsername st.users req.Username with
    | none => exact ⟨[], (by simp), (by decide)⟩
    | some user =>
      simp only []
      cases svc.lib.compareHashAndPassword user.PasswordHash req.Password with
      | false =>
        obtain ⟨entry, _, _, _, h⟩ := LogFailure_append a (ent.uuid 1) st.loginLogs user.ID
          "invalid password" req.Platform req.DeviceID
        refine ⟨if a then [] else [entry], h, ?_⟩
        cases a <;> simp
      | true =>
        simp only [Bool.not_true, Bool.false_eq_true, if_false]
        cases GenerateToken svc.lib now (ent.nonce 0) user.ID user.Username svc.jwtSecret
            svc.accessExpiresIn with
        | error e => exact ⟨[], (by simp), (by decide)⟩
        | ok accessToken =>
          simp only []
          cases GenerateToken svc.lib now (ent.nonce 1) user.ID user.Username svc.jwtSecret
              svc.refreshExpiresIn with
          | error e => exact ⟨[], (by simp), (by decide)⟩
          | ok refreshToken =>
            simp only []
            obtain ⟨w, _, _, _, hw⟩ := LogFailure_append a (ent.uuid 2) st.loginLogs user.ID
              "warning: failed to invalidate old sessions" req.Platform req.DeviceID
            have hlogs1 : ∃ pre : List LoginLog, pre.length ≤ 1 ∧
                (if (InvalidateAllUserSessions f now st.store user.ID true).1.isSome = true then
                  LogFailure a (ent.uuid 2) st.loginLogs user.ID
                    "warning: failed to invalidate old sessions" req.Platform req.DeviceID
                else st.loginLogs) = st.loginLogs ++ pre := by
              by_cases hinv : (InvalidateAllUserSessions f now st.store user.ID true).1.isSome
                  = true
              · rw [if_pos hinv, hw]
                refine ⟨if a then [] else [w], ?_, rfl⟩
                cases a <;> simp
              · rw [if_neg hinv]
                exact ⟨[], (by decide), (by simp)⟩
            obtain ⟨pre, hpre, hl⟩ := hlogs1
            rw [hl]
            generalize Login.create svc f now ent user 3 0 _ _ _ _ _ = out
            rcases out with ⟨res, store2⟩
            cases res with
            | error e => exact ⟨pre, rfl, (by omega)⟩
            | ok v =>
              rcases v with ⟨a2, r2, rs2⟩
              simp only []
              obtain ⟨entry, _, _, _, he⟩ := LogSuccess_append a (ent.uuid 1)
                (st.loginLogs ++ pre) user.ID rs2.ID req.Platform req.DeviceID
              rw [he, List.append_assoc]
              refine ⟨pre ++ (if a then [] else [entry]), rfl, ?_⟩
              rw [List.length_append]
              cases a
              · simp only [Bool.false_eq_true, if_false, List.length_singleton]
                omega
              · simp only [if_true, List.length_nil]
                omega
  · unfold Login
    cases dbGetByUsername st.users req.Username with
    | none => rfl
    | some user =>
      simp only []
      cases svc.lib.compareHashAndPassword user.PasswordHash req.Password with
      | false => rfl
      | true =>
        simp only [Bool.not_true, Bool.false_eq_true, if_false]
        cases GenerateToken svc.lib now (ent.nonce 0) user.ID user.Username svc.jwtSecret
            svc.accessExpiresIn with
        | error e => rfl
        | ok accessToken =>
          simp only []
          cases GenerateToken svc.lib now (ent.nonce 1) user.ID user.Username svc.jwtSecret
              svc.refreshExpiresIn with
          | error e => rfl
          | ok refreshToken =>
            simp only []
            have hl : (if (InvalidateAllUserSessions f now st.store user.ID true).1.isSome = true
                then LogFailure true (ent.uuid 2) st.loginLogs user.ID
                    "warning: failed to invalidate old sessions" req.Platform req.DeviceID
                else st.loginLogs) = st.loginLogs := by
              split <;> rfl
            rw [hl]
            generalize Login.create svc f now ent user 3 0 _ _ _ _ _ = out
            rcases out with ⟨res, store2⟩
            cases res with
            | error e => rfl
            | ok v => rfl
  · intro hu
    unfold Login
    rw [hu]
  · intro user hu hpw
    unfold Login
    rw [hu]
    simp only [hpw, Bool.not_false, if_true]
    obtain ⟨entry, h1, h2, h3, h⟩ := LogFailure_append false (ent.uuid 1) st.loginLogs user.ID
      "invalid password" req.Platform req.DeviceID
    exact ⟨entry, h, h1, h2, h3⟩
  · intro user hu hpw hgen
    unfold Login
    rw [hu]
    simp only [hpw, Bool.not_true, Bool.false_eq_true, if_false]
    cases hA : GenerateToken svc.lib now (ent.nonce 0) user.ID user.Username svc.jwtSecret
        svc.accessExpiresIn with
    | error e => rfl
    | ok accessToken =>
      rcases hgen with ⟨e, he⟩ | ⟨e, he⟩
      · rw [hA] at he
        cases he
      · simp only [he]
  · intro user accessToken refreshToken hu hpw hA hR
    unfold Login
    rw [hu]
    simp only [hpw, Bool.not_true, Bool.false_eq_true, if_false, hA, hR]
    obtain ⟨w, hw1, hw2, hw3, hw⟩ := LogFailure_append false (ent.uuid 2) st.loginLogs user.ID
      "warning: failed to invalidate old sessions" req.Platform req.DeviceID
    simp only [Bool.false_eq_true, if_false] at hw
    generalize Login.create svc f now ent user 3 0 _ _ _ _ _ = out
    rcases out with ⟨res, store2⟩
    by_cases hinv : (InvalidateAllUserSessions f now st.store user.ID true).1.isSome = true
    · have hne : (InvalidateAllUserSessions f now st.store user.ID true).1 ≠ none := by
        intro h0
        rw [h0] at hinv
        cases hinv
      rw [if_pos hinv, hw]
      refine ⟨[w], (fun h0 => absurd h0 hne), (fun _ => ⟨w, rfl, hw1, hw2, hw3⟩), ?_, ?_⟩
      · intro e he
        cases res with
        | error e1 => rfl
        | ok v => cases he
      · intro resp hr
        cases res with
        | error e1 => cases hr
        | ok v =>
          rcases v with ⟨a2, r2, rs2⟩
          obtain ⟨entry, he1, he2, he3, he⟩ := LogSuccess_append false (ent.uuid 1)
            (st.loginLogs ++ [w]) user.ID rs2.ID req.Platform req.DeviceID
          exact ⟨entry, rs2.ID, he, he1, he2, he3⟩
    · have hnone : (InvalidateAllUserSessions f now st.store user.ID true).1 = none := by
        cases h0 : (InvalidateAllUserSessions f now st.store user.ID true).1 with
        | none => rfl
        | some e0 =>
          rw [h0] at hinv
          exact absurd rfl hinv
      rw [if_neg hinv]
      refine ⟨[], (fun _ => rfl), (fun h0 => absurd hnone h0), ?_, ?_⟩
      · intro e he
        cases res with
        | error e1 => simp
        | ok v => cases he
      · intro resp hr
        cases res with
        | error e1 => cases hr
        | ok v =>
          rcases v with ⟨a2, r2, rs2⟩
          obtain ⟨entry, he1, he2, he3, he⟩ := LogSuccess_append false (ent.uuid 1)
            st.loginLogs user.ID rs2.ID req.Platform req.DeviceID
          exact ⟨entry, rs2.ID, by simpa using he, he1, he2, he3⟩

/-- Claim C27 as stated fails: a login for an unknown username appends no audit entry, and a
successful login after a failed bulk invalidation appends two. -/
theorem C27_counterexample :
    (Login sampleService Faults.none false 10 (sampleEntropy "b") registeredState
      { loginAlice with Username := "nobody" }).1 = .error "invalid username or password" ∧
    (Login sampleService Faults.none false 10 (sampleEntropy "b") registeredState
      { loginAlice with Username := "nobody" }).2.loginLogs = registeredState.loginLogs ∧
    (Login sampleService indexReadFails false 10 (sampleEntropy "b") registeredState
      loginAlice).1 = .ok (aliceResponse "b") ∧
    (Login sampleService indexReadFails false 10 (sampleEntropy "b") registeredState
      loginAlice).2.loginLogs.length = registeredState.loginLogs.length + 2 := by
  refine ⟨rfl, rfl, rfl, rfl⟩

/-! ## The access token minted by `RefreshToken` -/

/-- A successful `RefreshToken` parsed the refresh token, returns that refresh token, and
returns as access token what `GenerateToken` gave for the parsed user ID and the empty
username. -/
theorem RefreshToken_ok_tokens (svc : UserService) (f : Faults) (now : Int) (ent : Entropy)
    (st : State) (refreshToken : String) (resp : LoginResponse)
    (h : (RefreshToken svc f now ent st refreshToken).1 = .ok resp) :
    ∃ claims, ParseToken svc.lib now refreshToken svc.jwtSecret = .ok claims ∧
      resp.AccessToken = orEmpty (GenerateToken svc.lib now (ent.nonce 0) claims.UserID ""
        svc.jwtSecret svc.accessExpiresIn) ∧
      resp.RefreshToken = refreshToken := by
  unfold RefreshToken at h
  cases hparse : ParseToken svc.lib now refreshToken svc.jwtSecret with
  | error e =>
    rw [hparse] at h
    cases h
  | ok claims =>
    rw [hparse] at h
    simp only [] at h
    refine ⟨claims, rfl, ?_⟩
    generalize orEmpty (GenerateToken svc.lib now (ent.nonce 0) claims.UserID ""
      svc.jwtSecret svc.accessExpiresIn) = tok at h ⊢
    cases hg : GetSession f now ent.jitter st.store refreshToken false with
    | mk res store1 =>
      rw [hg] at h
      cases res with
      | error e => cases h
      | ok refreshSession =>
        simp only [] at h
        by_cases hexp : refreshSession.ExpiresAt - now < 1 * timeHour
        · rw [if_pos hexp] at h
          cases h
        · rw [if_neg hexp] at h
          generalize RefreshSessionPair f now (ent.jitter.drop 1) store1 _ _ = out at h
          rcases out with ⟨err, store2⟩
          cases err with
          | some e => cases h
          | none =>
            simp only [] at h
            cases hu : dbGetByID st.users claims.UserID with
            | none =>
              rw [hu] at h
              cases h
            | some user =>
              rw [hu] at h
              simp only [Except.ok.injEq] at h
              rw [← h]
              exact ⟨rfl, rfl⟩

/-- Claim C30: let `RefreshToken(r)` succeed, its nonce drawn, with a positive access lifetime,
and let the JWT library parse the token it signed for the claims `GenerateToken` builds back to
these claims until their expiry. Then the returned access token parses, at the instant of the
call, to claims with the user ID of the claims of `r` and the empty username, whatever username
`r` carried; and the gateway forwards a request that carries it with that user ID and an empty
`X-Username`. -/
theorem C30_refreshed_token_has_no_username (svc : UserService) (f : Faults) (now : Int)
    (ent : Entropy) (st : State) (r : String) (resp : LoginResponse) (claims : Claims)
    (nonce : String)
    (hok : (RefreshToken svc f now ent st r).1 = .ok resp)
    (hclaims : ParseToken svc.lib now r svc.jwtSecret = .ok claims)
    (hnonce : ent.nonce 0 = some nonce)
    (hpos : 0 < svc.accessExpiresIn)
    (hjwt : ∀ now1 : Int,
      svc.lib.parseWithClaims svc.jwtSecret
        (svc.lib.signedString svc.jwtSecret
          { UserID := claims.UserID, Username := "", Random := nonce,
            ExpiresAt := (now + svc.accessExpiresIn * timeSecond) / timeSecond * timeSecond,
            IssuedAt := now / timeSecond * timeSecond }) now1 =
      if now1 < (now + svc.accessExpiresIn * timeSecond) / timeSecond * timeSecond then
        some { UserID := claims.UserID, Username := "", Random := nonce,
               ExpiresAt := (now + svc.accessExpiresIn * timeSecond) / timeSecond * timeSecond,
               IssuedAt := now / timeSecond * timeSecond }
      else none) :
    ∃ c, ParseToken svc.lib now resp.AccessToken svc.jwtSecret = .ok c ∧
      c.UserID = claims.UserID ∧ c.Username = "" ∧
      ∀ authorization, authorization ≠ "" → bearerToken authorization = resp.AccessToken →
        AuthMiddleware svc.lib now svc.jwtSecret authorization = .next claims.UserID "" := by
  obtain ⟨claims1, hc1, hacc, _⟩ := RefreshToken_ok_tokens svc f now ent st r resp hok
  rw [hclaims] at hc1
  cases hc1
  have hlt : now < (now + svc.accessExpiresIn * timeSecond) / timeSecond * timeSecond := by
    unfold timeSecond
    omega
  have hparse : ParseToken svc.lib now resp.AccessToken svc.jwtSecret =
      .ok { UserID := claims.UserID, Username := "", Random := nonce,
            ExpiresAt := (now + svc.accessExpiresIn * timeSecond) / timeSecond * timeSecond,
            IssuedAt := now / timeSecond * timeSecond } := by
    rw [hacc, hnonce]
    unfold ParseToken GenerateToken orEmpty
    simp only []
    rw [hjwt now, if_pos hlt]
  refine ⟨_, hparse, rfl, rfl, ?_⟩
  intro authorization hne hbearer
  unfold AuthMiddleware
  rw [if_neg hne, hbearer, hparse]

/-- Claim C30 for the registered `alice`: her refresh token `ax`, which carries the username
`alice`, refreshed at instant `10` with the nonce `n`. -/
theorem C30_refreshed_token_has_no_username_witness :
    ∃ c, ParseToken refreshService.lib 10 "n" refreshService.jwtSecret = .ok c ∧
      c.UserID = "ida" ∧ c.Username = "" ∧
      ∀ authorization, authorization ≠ "" → bearerToken authorization = "n" →
        AuthMiddleware refreshService.lib 10 refreshService.jwtSecret authorization
          = .next "ida" "" :=
  C30_refreshed_token_has_no_username refreshService Faults.none 10 (sampleEntropy "n")
    registeredState "ax"
    { AccessToken := "n", RefreshToken := "ax", AccessExpiresIn := 7200,
      RefreshExpiresIn := 604799,
      User := { ID := "ida", Username := "alice", Email := none, Phone := none } }
    { UserID := "ida", Username := "alice", Random := "ax", ExpiresAt := 0, IssuedAt := 0 }
    "n" rfl rfl rfl (by decide) (fun _ => rfl)

/-! ## `ChangePassword` and the stored hash -/

/-- What `ChangePassword` guarantees: it succeeds only for an old password that verifies; for one
that does not it fails and leaves every store as it was; and when it succeeds and the new
password was hashed, the row of the user holds that hash. -/
theorem ChangePassword_spec (svc : UserService) (updateFails : Bool) (salt : String)
    (st : State) (userID : String) (req : ChangePasswordRequest) :
    ((ChangePassword svc updateFails salt st userID req).1 = none →
      ∃ user, dbGetByID st.users userID = some user ∧
        svc.lib.compareHashAndPassword user.PasswordHash req.OldPassword = true ∧
        (ChangePassword svc updateFails salt st userID req).2.users =
          st.users.map (fun u => if u.ID = user.ID then
            { user with
              PasswordHash := (svc.lib.generateFromPassword req.NewPassword salt).getD "" }
            else u)) ∧
    (∀ user, dbGetByID st.users userID = some user →
      svc.lib.compareHashAndPassword user.PasswordHash req.OldPassword = false →
      ChangePassword svc updateFails salt st userID req = (some "invalid old password", st)) := by
  unfold ChangePassword
  cases hu : dbGetByID st.users userID with
  | none =>
    exact ⟨(fun h => by cases h), (fun user h => by cases h)⟩
  | some user =>
    simp only []
    cases hpw : svc.lib.compareHashAndPassword user.PasswordHash req.OldPassword with
    | false =>
      refine ⟨(fun h => by cases h), ?_⟩
      intro user1 h1 _
      cases h1
      rfl
    | true =>
      simp only [Bool.not_true, Bool.false_eq_true, if_false]
      constructor
      · intro h
        refine ⟨user, rfl, hpw, ?_⟩
        unfold dbUpdateUser at h ⊢
        cases updateFails with
        | true => cases h
        | false => rfl
      · intro user1 h1 hpw1
        cases h1
        rw [hpw] at hpw1
        cases hpw1

/-- Claim C29 at the failing input: `alice` changes her password `pw` to one of 73 bytes.
Hashing fails, the error is dropped, `ChangePassword` reports success, the empty hash is
persisted, and the new password does not verify against it. -/
theorem C29_long_password_persists_empty_hash :
    strictLib.generateFromPassword longPasswordChange.NewPassword "salt" = none ∧
    (ChangePassword strictService false "salt" aliceState "u1" longPasswordChange).1 = none ∧
    (ChangePassword strictService false "salt" aliceState "u1" longPasswordChange).2.users
      = [{ alice with PasswordHash := "" }] ∧
    strictLib.compareHashAndPassword "" longPasswordChange.NewPassword = false := by
  refine ⟨by decide, by decide, by decide, by decide⟩

/-! ## Rotation of the access token by `RefreshToken` -/

theorem RefreshSession_cache_access_ne (f : Faults) (now : Int) (jit : Jitter) (r : Redis)
    (acc e1 : UserSession) (refreshToken t : String) (ht : t ≠ acc.SessionToken) :
    RefreshSession.cache f now jit r acc e1 refreshToken (accessSessionKey t)
      = r (accessSessionKey t) := by
  unfold RefreshSession.cache
  rw [tolerate_redisSAdd_apply_ne _ _ _ _ _ _ (accessSessionKey_ne_user _ _),
    tolerate_redisSet_apply, tolerate_redisSet_apply]
  have h1 : ¬ (f.redisSet = false ∧ accessSessionKey t = accessSessionKey acc.SessionToken) := by
    rintro ⟨_, h⟩
    exact ht (accessSessionKey_inj.1 h)
  have h2 : ¬ (f.redisSet = false ∧ accessSessionKey t = refreshSessionKey refreshToken) := by
    rintro ⟨_, h⟩
    exact accessSessionKey_ne_refresh _ _ h
  rw [if_neg h1, if_neg h2]

/-- An access key that holds nothing, other than that of the new access token, holds nothing
after `RefreshSession`. -/
theorem RefreshSession_access_absent (f : Faults) (now : Int) (jit : Jitter) (st : Store)
    (acc : UserSession) (refreshToken t : String) (ht : t ≠ acc.SessionToken)
    (h : st.redis (accessSessionKey t) = none) :
    (RefreshSession f now jit st acc refreshToken).2.redis (accessSessionKey t) = none := by
  unfold RefreshSession
  have hf1 := GetSession_access_frame f now jit st acc.SessionToken true t
  cases h1 : GetSession f now jit st acc.SessionToken true with
  | mk res1 st1 =>
    rw [h1] at hf1
    simp only [] at hf1
    have hn1 : st1.redis (accessSessionKey t) = none := by
      rcases hf1 with h0 | h0
      · rw [h0]; exact h
      · exact h0
    cases res1 with
    | ok s1 => exact hn1
    | error e1 =>
      simp only []
      have hf2 := GetSession_access_frame f now (jit.drop 1) st1 refreshToken false t
      cases h2 : GetSession f now (jit.drop 1) st1 refreshToken false with
      | mk res2 st2 =>
        rw [h2] at hf2
        simp only [] at hf2
        have hn2 : st2.redis (accessSessionKey t) = none := by
          rcases hf2 with h0 | h0
          · rw [h0]; exact hn1
          · exact h0
        cases res2 with
        | error e2 => exact hn2
        | ok existing =>
          simp only []
          cases dbUpdateRefreshSession f st2.sessions refreshToken acc.SessionToken now with
          | mk err rows =>
            cases err with
            | some e3 => exact hn2
            | none =>
              simp only []
              rw [RefreshSession_cache_access_ne f now jit st2.redis acc _ refreshToken t ht]
              exact hn2

/-- The stores after a successful `RefreshToken`: the refresh session was found, then
`RefreshSessionPair` and `UpdateRefreshSession` ran for the new access session. -/
theorem RefreshToken_ok_store (svc : UserService) (f : Faults) (now : Int) (ent : Entropy)
    (st : State) (r : String) (resp : LoginResponse)
    (hok : (RefreshToken svc f now ent st r).1 = .ok resp) :
    ∃ (rs : UserSession) (store1 : Store) (newAcc rs1 : UserSession),
      GetSession f now ent.jitter st.store r false = (.ok rs, store1) ∧
      newAcc.SessionToken = resp.AccessToken ∧ rs1.UserID = rs.UserID ∧
      (RefreshToken svc f now ent st r).2.store =
        (UpdateRefreshSession f now (ent.jitter.drop 5)
          (RefreshSessionPair f now (ent.jitter.drop 1) store1 newAcc rs1).2 r
          resp.AccessToken).2 := by
  unfold RefreshToken at hok ⊢
  cases hparse : ParseToken svc.lib now r svc.jwtSecret with
  | error e =>
    rw [hparse] at hok
    cases hok
  | ok claims =>
    rw [hparse] at hok
    simp only [] at hok ⊢
    cases hg : GetSession f now ent.jitter st.store r false with
    | mk res store1 =>
      rw [hg] at hok
      cases res with
      | error e => cases hok
      | ok rs =>
        simp only [] at hok ⊢
        by_cases hexp : rs.ExpiresAt - now < 1 * timeHour
        · rw [if_pos hexp] at hok
          cases hok
        · rw [if_neg hexp] at hok ⊢
          refine ⟨rs, store1,
            { ID := "", UserID := claims.UserID,
              SessionToken := orEmpty (GenerateToken svc.lib now (ent.nonce 0) claims.UserID ""
                svc.jwtSecret svc.accessExpiresIn),
              SessionType := "access", Platform := rs.Platform,
              ExpiresAt := now + svc.accessExpiresIn * timeSecond, LastActivityAt := now,
              IsActive := false, AccessToken := "", DeviceID := rs.DeviceID },
            { rs with
              AccessToken := orEmpty (GenerateToken svc.lib now (ent.nonce 0) claims.UserID ""
                svc.jwtSecret svc.accessExpiresIn),
              LastActivityAt := now }, rfl, ?_⟩
          cases hp : RefreshSessionPair f now (ent.jitter.drop 1) store1
            { ID := "", UserID := claims.UserID,
              SessionToken := orEmpty (GenerateToken svc.lib now (ent.nonce 0) claims.UserID ""
                svc.jwtSecret svc.accessExpiresIn),
              SessionType := "access", Platform := rs.Platform,
              ExpiresAt := now + svc.accessExpiresIn * timeSecond, LastActivityAt := now,
              IsActive := false, AccessToken := "", DeviceID := rs.DeviceID }
            { rs with
              AccessToken := orEmpty (GenerateToken svc.lib now (ent.nonce 0) claims.UserID ""
                svc.jwtSecret svc.accessExpiresIn),
              LastActivityAt := now } with
          | mk err store2 =>
            rw [hp] at hok
            cases err with
            | some e => cases hok
            | none =>
              simp only [] at hok
              cases hu : dbGetByID st.users claims.UserID with
              | none =>
                rw [hu] at hok
                cases hok
              | some user =>
                rw [hu] at hok
                simp only [Except.ok.injEq] at hok
                rw [← hok]
                exact ⟨rfl, rfl, rfl⟩

/-! ## The retry loop of `Login` -/

/-- The retry loop of `Login`, unrolled: at most three `CreateSessionPair` attempts. An attempt
that succeeds ends the loop with its tokens; an attempt that fails with an error that
`IsDuplicateError` does not recognise ends it with that error; after a recognised duplicate
both tokens are regenerated and the next attempt runs on the stores the failed one left; the
third attempt's error ends the loop whatever it is. -/
theorem Login_create_unrolled (svc : UserService) (f : Faults) (now : Int) (ent : Entropy)
    (user : User) (st : Store) (accessToken refreshToken : String) (acc rs : UserSession) :
    let attempt := fun (i : Nat) (st : Store) (acc rs : UserSession) =>
      CreateSessionPair f svc.lib.duplicateEntry (ent.uuid 0) now (ent.jitter.drop (4 * i))
        st acc rs
    let newAccess := fun (i : Nat) =>
      orEmpty (GenerateToken svc.lib now (ent.nonce (2 * i + 2)) user.ID user.Username
        svc.jwtSecret svc.accessExpiresIn)
    let newRefresh := fun (i : Nat) =>
      orEmpty (GenerateToken svc.lib now (ent.nonce (2 * i + 3)) user.ID user.Username
        svc.jwtSecret svc.refreshExpiresIn)
    let A0 := attempt 0 st acc rs
    let A1 := attempt 1 A0.2.1 { acc with SessionToken := newAccess 0 }
      { A0.2.2 with SessionToken := newRefresh 0 }
    let A2 := attempt 2 A1.2.1 { acc with SessionToken := newAccess 1 }
      { A1.2.2 with SessionToken := newRefresh 1 }
    let out := Login.create svc f now ent user 3 0 st accessToken refreshToken acc rs
    (A0.1 = none → out = (.ok (accessToken, refreshToken, A0.2.2), A0.2.1)) ∧
    (∀ e0, A0.1 = some e0 → IsDuplicateError (some e0) = false →
      out = (.error e0, A0.2.1)) ∧
    (∀ e0, A0.1 = some e0 → IsDuplicateError (some e0) = true →
      (A1.1 = none → out = (.ok (newAccess 0, newRefresh 0, A1.2.2), A1.2.1)) ∧
      (∀ e1, A1.1 = some e1 → IsDuplicateError (some e1) = false →
        out = (.error e1, A1.2.1)) ∧
      (∀ e1, A1.1 = some e1 → IsDuplicateError (some e1) = true →
        (A2.1 = none → out = (.ok (newAccess 1, newRefresh 1, A2.2.2), A2.2.1)) ∧
        (∀ e2, A2.1 = some e2 → out = (.error e2, A2.2.1)))) := by
  intro attempt newAccess newRefresh A0 A1 A2 out
  have hA0 : CreateSessionPair f svc.lib.duplicateEntry (ent.uuid 0) now
      (ent.jitter.drop (4 * 0)) st acc rs = (A0.1, A0.2.1, A0.2.2) := rfl
  have hA1 : CreateSessionPair f svc.lib.duplicateEntry (ent.uuid 0) now
      (ent.jitter.drop (4 * (0 + 1))) A0.2.1 { acc with SessionToken := newAccess 0 }
      { A0.2.2 with SessionToken := newRefresh 0 } = (A1.1, A1.2.1, A1.2.2) := rfl
  have hA2 : CreateSessionPair f svc.lib.duplicateEntry (ent.uuid 0) now
      (ent.jitter.drop (4 * (0 + 1 + 1))) A1.2.1 { acc with SessionToken := newAccess 1 }
      { A1.2.2 with SessionToken := newRefresh 1 } = (A2.1, A2.2.1, A2.2.2) := rfl
  refine ⟨?_, ?_, ?_⟩
  · intro h0
    show Login.create svc f now ent user 3 0 st accessToken refreshToken acc rs = _
    rw [Login.create, hA0, h0]
  · intro e0 h0 hd0
    show Login.create svc f now ent user 3 0 st accessToken refreshToken acc rs = _
    rw [Login.create, hA0, h0]
    simp only [hd0, Bool.false_and, Bool.false_eq_true, if_false]
  · intro e0 h0 hd0
    have hstep0 : Login.create svc f now ent user 3 0 st accessToken refreshToken acc rs =
        Login.create svc f now ent user 2 (0 + 1) A0.2.1 (newAccess 0) (newRefresh 0)
          { acc with SessionToken := newAccess 0 }
          { A0.2.2 with SessionToken := newRefresh 0 } := by
      rw [Login.create, hA0, h0]
      simp only [hd0, Bool.true_and]
      rfl
    refine ⟨?_, ?_, ?_⟩
    · intro h1
      show Login.create svc f now ent user 3 0 st accessToken refreshToken acc rs = _
      rw [hstep0, Login.create, hA1, h1]
    · intro e1 h1 hd1
      show Login.create svc f now ent user 3 0 st accessToken refreshToken acc rs = _
      rw [hstep0, Login.create, hA1, h1]
      simp only [hd1, Bool.false_and, Bool.false_eq_true, if_false]
    · intro e1 h1 hd1
      have hstep1 : Login.create svc f now ent user 3 0 st accessToken refreshToken acc rs =
          Login.create svc f now ent user 1 (0 + 1 + 1) A1.2.1 (newAccess 1) (newRefresh 1)
            { acc with SessionToken := newAccess 1 }
            { A1.2.2 with SessionToken := newRefresh 1 } := by
        rw [hstep0, Login.create, hA1, h1]
        simp only [hd1, Bool.true_and]
        rfl
      refine ⟨?_, ?_⟩
      · intro h2
        show Login.create svc f now ent user 3 0 st accessToken refreshToken acc rs = _
        rw [hstep1, Login.create, hA2, h2]
      · intro e2 h2
        show Login.create svc f now ent user 3 0 st accessToken refreshToken acc rs = _
        rw [hstep1, Login.create, hA2, h2]
        simp only [Nat.reduceAdd, Nat.reduceSub, Nat.lt_irrefl, decide_False, Bool.and_false,
          Bool.false_eq_true, if_false]

/-- Claim C23 at the failing input: `alice`, registered with the tokens `a` and `ax`, logs in
and draws the same two nonces again. The insert of the refresh session violates the unique
index, the driver's message is not recognised by `IsDuplicateError`, and `Login` returns that
error after its first `CreateSessionPair` call. The tokens a retry would generate do not
collide: with a duplicate message that `IsDuplicateError` recognises, the same login succeeds
at its second attempt with the regenerated tokens. -/
theorem C23_collision_surfaces_without_retry :
    (Login sampleService Faults.none false 10 (sampleEntropy "a") registeredState
      loginAlice).1 = .error "Error 1062 (23000): Duplicate entry" ∧
    sampleService.lib.duplicateEntry = "Error 1062 (23000): Duplicate entry" ∧
    IsDuplicateError (some "Error 1062 (23000): Duplicate entry") = false ∧
    IsDuplicateError (some recognisedService.lib.duplicateEntry) = true ∧
    (Login recognisedService Faults.none false 10 (sampleEntropy "a") registeredState
      loginAlice).1 = .ok
        { AccessToken := "axx", RefreshToken := "axxx", AccessExpiresIn := 7200,
          RefreshExpiresIn := 604800,
          User := { ID := "ida", Username := "alice", Email := none, Phone := none } } := by
  refine ⟨rfl, rfl, by decide, by decide, rfl⟩

/-! ## The per-username lock of `Login` -/

/-- Run one after the other, the two halves of the body are `Login`. -/
theorem Login_split (svc : UserService) (f : Faults) (a : Bool) (now : Int) (ent : Entropy)
    (st : State) (req : LoginRequest) :
    Login svc f a now ent st req =
      match Login.prepare svc f a now ent st req with
      | (.error e, st1) => (.error e, st1)
      | (.ok (user, accessToken, refreshToken), st1) =>
        Login.complete svc f a now ent st1 req user accessToken refreshToken := by
  unfold Login Login.prepare Login.complete
  cases dbGetByUsername st.users req.Username with
  | none => rfl
  | some user =>
    simp only []
    cases svc.lib.compareHashAndPassword user.PasswordHash req.Password with
    | false => rfl
    | true =>
      simp only [Bool.not_true, Bool.false_eq_true, if_false]
      cases GenerateToken svc.lib now (ent.nonce 0) user.ID user.Username svc.jwtSecret
          svc.accessExpiresIn with
      | error e => rfl
      | ok accessToken =>
        simp only []
        cases GenerateToken svc.lib now (ent.nonce 1) user.ID user.Username svc.jwtSecret
            svc.refreshExpiresIn with
        | error e => rfl
        | ok refreshToken =>
          simp only []

/-- Claim C21 at the failing schedule: three logins of `alice`. After the first call has run
its deferred `Delete` and `Unlock`, the second call locks the mutex it loaded before, and the
third call, finding no map entry, stores and locks a new mutex: two calls hold a lock for the
same username at once, both in the body of `Login`. Their bodies interleave, both logins
succeed, and `alice` ends with two active refresh records, both of which resolve. -/
theorem C21_two_logins_in_critical_section :
    (Concurrent.run sampleService threeLogins overlapOpening threeLoginsStart).pcs.map
      LoginPc.inBody = [false, true, true] ∧
    (Concurrent.run sampleService threeLogins overlapOpening threeLoginsStart).mutexes
      = [true, true] ∧
    (Concurrent.run sampleService threeLogins (overlapOpening ++ overlapRest)
      threeLoginsStart).pcs =
        [.returned (.ok (aliceResponse "b")), .returned (.ok (aliceResponse "c")),
          .returned (.ok (aliceResponse "d"))] ∧
    (Concurrent.run sampleService threeLogins (overlapOpening ++ overlapRest)
      threeLoginsStart).state.store.sessions.map
        (fun row => (row.UserID, row.SessionToken, row.IsActive))
      = [("ida", "ax", false), ("ida", "bx", false), ("ida", "cx", true), ("ida", "dx", true)] ∧
    (∃ s, (GetSession Faults.none 20 jitter0
      (Concurrent.run sampleService threeLogins (overlapOpening ++ overlapRest)
        threeLoginsStart).state.store "cx" false).1 = .ok s) ∧
    (∃ s, (GetSession Faults.none 20 jitter0
      (Concurrent.run sampleService threeLogins (overlapOpening ++ overlapRest)
        threeLoginsStart).state.store "dx" false).1 = .ok s) := by
  refine ⟨rfl, rfl, rfl, rfl, ⟨_, rfl⟩, ⟨_, rfl⟩⟩

/-! ## Login leaves one active refresh session -/

/-- A bulk invalidation that returns no error has cleared the active flag of every row of the
user, whichever cache calls failed. -/
theorem InvalidateAllUserSessions_ok_sessions (f : Faults) (now : Int) (st : Store) (u : String)
    (h : (InvalidateAllUserSessions f now st u true).1 = none) :
    (InvalidateAllUserSessions f now st u true).2.sessions =
      st.sessions.map (fun row =>
        if row.UserID = u ∧ row.IsActive = true then { row with IsActive := false } else row) := by
  unfold InvalidateAllUserSessions at h ⊢
  simp only [] at h ⊢
  cases hm : redisSMembers f st.redis now (userSessionsKey u) with
  | none =>
    rw [hm] at h
    cases h
  | some keys =>
    rw [hm] at h
    simp only [Bool.not_true, Bool.false_eq_true, if_false] at h ⊢
    unfold dbInvalidateAllUserSessions at h ⊢
    by_cases hf : f.dbInvalidateAllUserSessions = true
    · rw [if_pos hf] at h
      cases h
    · rw [if_neg hf]

/-- C3, as the code has it: for every store state, whichever store calls fail, and every `Login`
that succeeds and whose bulk invalidation returned no error, the session table afterwards holds
exactly one active row of the logged-in user: the row created by this `Login`, of kind refresh
and carrying the returned refresh token; every row the user had before is in the table with its
active flag cleared. -/
theorem C3_one_active_refresh (svc : UserService) (f : Faults) (a : Bool) (now : Int)
    (ent : Entropy) (st : State) (req : LoginRequest) (resp : LoginResponse)
    (hok : (Login svc f a now ent st req).1 = .ok resp)
    (hinv : (InvalidateAllUserSessions f now st.store resp.User.ID true).1 = none) :
    ∃ row,
      (Login svc f a now ent st req).2.store.sessions.filter
        (fun r => decide (r.UserID = resp.User.ID ∧ r.IsActive = true)) = [row] ∧
      row.SessionToken = resp.RefreshToken ∧ row.SessionType = "refresh" ∧
      (∀ old ∈ st.store.sessions, old.UserID = resp.User.ID →
        { old with IsActive := false } ∈ (Login svc f a now ent st req).2.store.sessions) := by
  rcases Login_cases svc f a now ent st req with
    ⟨⟨e, he⟩, _, _⟩ | ⟨user, accessToken, refreshToken, acc, rs, _, h1, h2, h3, h4, h5, _, hst, _,
      herr, hsucc⟩
  · rw [he] at hok
    cases hok
  · have hspec := Login_create_spec svc f now ent user 3 0 rfl (by decide)
      (InvalidateAllUserSessions f now st.store user.ID true).2 accessToken refreshToken
      acc rs h4 h5
    rw [hst]
    cases hlc : (Login.create svc f now ent user 3 0
        (InvalidateAllUserSessions f now st.store user.ID true).2 accessToken refreshToken
        acc rs).1 with
    | error e =>
      rw [herr e hlc] at hok
      cases hok
    | ok v =>
      rcases v with ⟨a1, r1, rs1⟩
      rw [hsucc a1 r1 rs1 hlc] at hok
      cases hok
      simp only [convertToUserInfo] at hinv
      rcases hspec.2 a1 r1 rs1 hlc with ⟨q1, q2, q3, q4, q5, _, _⟩
      rw [q1, InvalidateAllUserSessions_ok_sessions f now st.store user.ID hinv]
      simp only [convertToUserInfo]
      refine ⟨{ rs1 with AccessToken := "" }, ?_, q2, ?_, ?_⟩
      · rw [List.filter_append]
        have hnil : List.filter (fun r => decide (r.UserID = user.ID ∧ r.IsActive = true))
            (st.store.sessions.map (fun row =>
              if row.UserID = user.ID ∧ row.IsActive = true then { row with IsActive := false }
              else row)) = [] := by
          rw [List.filter_eq_nil_iff]
          intro x hx
          rw [List.mem_map] at hx
          rcases hx with ⟨row, _, hrow⟩
          by_cases hc : row.UserID = user.ID ∧ row.IsActive = true
          · rw [if_pos hc] at hrow
            rw [← hrow]
            simp
          · rw [if_neg hc] at hrow
            rw [← hrow]
            simpa using hc
        rw [hnil]
        simp [q3, h2, q4]
      · simp only []
        rw [q5 (by rw [h3]; decide), h3]
      · intro old hold hu
        apply List.mem_append_left
        rw [List.mem_map]
        refine ⟨old, hold, ?_⟩
        by_cases hact : old.IsActive = true
        · rw [if_pos ⟨hu, hact⟩]
        · rw [if_neg (fun h => hact h.2)]
          cases old
          simp only [Bool.not_eq_true] at hact
          simp only []
          rw [hact]

/-- C3, witness: `alice` registers at instant `0` and logs in at instant `10`. -/
theorem C3_one_active_refresh_witness :
    ∃ row,
      (Login sampleService Faults.none false 10 (sampleEntropy "b") registeredState
        loginAlice).2.store.sessions.filter
        (fun r => decide (r.UserID = (aliceResponse "b").User.ID ∧ r.IsActive = true)) = [row] ∧
      row.SessionToken = (aliceResponse "b").RefreshToken ∧ row.SessionType = "refresh" ∧
      (∀ old ∈ registeredState.store.sessions, old.UserID = (aliceResponse "b").User.ID →
        { old with IsActive := false } ∈ (Login sampleService Faults.none false 10
          (sampleEntropy "b") registeredState loginAlice).2.store.sessions) :=
  C3_one_active_refresh sampleService Faults.none false 10 (sampleEntropy "b") registeredState
    loginAlice (aliceResponse "b") rfl rfl

/-- Claim C3 as stated fails: `Login` only logs an error of the bulk invalidation and carries
on. With the bulk `UPDATE` failing, the login of `alice` succeeds and leaves her with two active
refresh records, the one of her registration and the new one. -/
theorem C3_counterexample :
    registeredState.store.sessions.map (fun row => (row.UserID, row.SessionToken, row.IsActive))
      = [("ida", "ax", true)] ∧
    (InvalidateAllUserSessions bulkUpdateFails 10 registeredState.store "ida" true).1
      = some dbUnavailable ∧
    (Login sampleService bulkUpdateFails false 10 (sampleEntropy "b") registeredState
      loginAlice).1 = .ok (aliceResponse "b") ∧
    ((Login sampleService bulkUpdateFails false 10 (sampleEntropy "b") registeredState
      loginAlice).2.store.sessions.filter
        (fun r => decide (r.UserID = (aliceResponse "b").User.ID ∧ r.IsActive = true))).map
      (fun row => row.SessionToken) = ["ax", "bx"] := by
  refine ⟨rfl, rfl, rfl, rfl⟩

/-! ## Revocation when cache calls fail -/

/-- From a consistent store, a `Login` in which no store call fails lists its access token in the
index set of the user. -/
theorem Login_lists_access_token (svc : UserService) (a : Bool) (now : Int) (ent : Entropy)
    (st : State) (req : LoginRequest) (resp : LoginResponse) (hInv : Inv st.store)
    (h1 : (Login svc Faults.none a now ent st req).1 = .ok resp) :
    ∃ ms, (Login svc Faults.none a now ent st req).2.store.redis
        (userSessionsKey resp.User.ID) = some (.set ms) ∧
      accessSessionKey resp.AccessToken ∈ ms := by
  have hInv1 : Inv (Login svc Faults.none a now ent st req).2.store :=
    Login_Inv svc a now ent st req hInv
  rcases Login_cases svc Faults.none a now ent st req with
    ⟨⟨e, he⟩, _, _⟩ | ⟨user, accessToken, refreshToken, acc, rs, hu, g1, _, _, g4, g5, _, hst,
      husers, herr, hsucc⟩
  · rw [he] at h1
    cases h1
  · have hspec := Login_create_spec svc Faults.none now ent user 3 0 rfl (by decide)
      (InvalidateAllUserSessions Faults.none now st.store user.ID true).2 accessToken
      refreshToken acc rs g4 g5
    cases hlc : (Login.create svc Faults.none now ent user 3 0
        (InvalidateAllUserSessions Faults.none now st.store user.ID true).2 accessToken
        refreshToken acc rs).1 with
    | error e =>
      rw [herr e hlc] at h1
      cases h1
    | ok v =>
      rcases v with ⟨t1, r1, rs1⟩
      rw [hsucc t1 r1 rs1 hlc] at h1
      cases h1
      rcases (hspec.2 t1 r1 rs1 hlc).2.2.2.2.2.1 rfl with ⟨acc1, d, k1, _, k3, _⟩
      rw [← hst] at k1
      obtain ⟨ms, hms, hmem⟩ := hInv1.indexed _ acc1 d k1
      rw [k3, g1] at hms
      exact ⟨ms, hms, hmem⟩

/-- In a consistent store, an access token that validates is listed in the index set of its
owner. -/
theorem validated_token_listed (st : State) (hInv : Inv st.store) (f : Faults) (now : Int)
    (jit : Jitter) (t : String) (s : UserSession)
    (hold : (ValidateToken f now jit st t).1 = .ok s) :
    ∃ ms, st.store.redis (userSessionsKey s.UserID) = some (.set ms) ∧
      accessSessionKey t ∈ ms := by
  have hget : (GetSession f now jit st.store t true).1 = .ok s := by
    unfold ValidateToken at hold
    cases hg : GetSession f now jit st.store t true with
    | mk res store1 =>
      rw [hg] at hold
      cases res with
      | error e => cases hold
      | ok x =>
        simp only [Except.ok.injEq] at hold
        rw [hold]
  obtain ⟨hredis, _⟩ := (GetSession_access_ok_iff f now jit st.store t s).1 hget
  obtain ⟨_, d, hd, _⟩ := (redisGet_session_iff f st.store.redis now _ s).1 hredis
  exact hInv.indexed _ s d hd

/-- A `DEL` that does not fail does what the fault-free `DEL` does. -/
theorem redisDel_eq_none (f : Faults) (hdel : f.redisDel = false) (r : Redis) (key : String) :
    redisDel f r key = redisDel Faults.none r key := by
  unfold redisDel
  rw [hdel]
  rfl

/-- An `SMEMBERS` that does not fail returns what the fault-free `SMEMBERS` returns. -/
theorem redisSMembers_eq_none (f : Faults) (hsm : f.redisSMembers = false) (r : Redis) (now : Int)
    (key : String) : redisSMembers f r now key = redisSMembers Faults.none r now key := by
  unfold redisSMembers
  rw [hsm]
  rfl

/-- The cache after a bulk invalidation in which neither `SMEMBERS` nor a `DEL` fails is the
cache after the fault-free bulk invalidation, whatever the durable update does. -/
theorem InvalidateAllUserSessions_redis (f : Faults) (hsm : f.redisSMembers = false)
    (hdel : f.redisDel = false) (now : Int) (st : Store) (u : String) (d : Bool) :
    (InvalidateAllUserSessions f now st u d).2.redis
      = (InvalidateAllUserSessions Faults.none now st u d).2.redis := by
  unfold InvalidateAllUserSessions
  simp only []
  rw [redisSMembers_eq_none f hsm]
  cases redisSMembers Faults.none st.redis now (userSessionsKey u) with
  | none => rfl
  | some keys =>
    simp only []
    have hfold : ∀ r : Redis, List.foldl (fun r key => tolerate r (redisDel f r key)) r keys
        = List.foldl (fun r key => tolerate r (redisDel Faults.none r key)) r keys := by
      intro r
      congr 1
      funext r0 key
      rw [redisDel_eq_none f hdel]
    rw [hfold, redisDel_eq_none f hdel]
    cases d <;> rfl

/-- A bulk invalidation that returns no error did not fail in `SMEMBERS`. -/
theorem InvalidateAllUserSessions_ok_index_read (f : Faults) (now : Int) (st : Store) (u : String)
    (d : Bool) (h : (InvalidateAllUserSessions f now st u d).1 = none) :
    f.redisSMembers = false := by
  cases hf : f.redisSMembers with
  | false => rfl
  | true =>
    rw [InvalidateAllUserSessions_index_read_fails f hf] at h
    cases h

/-- C2, as the code has it: from a consistent store, let `Logout a` succeed with no `DEL`
failing. Then the cache held a session of some principal under `a`, and afterwards, at any
instant and whichever calls fail then, `a` no longer validates, no refresh token of that
principal resolves, and every row of that principal in the session table is inactive. -/
theorem C2_logout_revokes_pair (f : Faults) (st : State) (a : String) (now : Int)
    (hInv : Inv st.store) (hdel : f.redisDel = false) (hok : (Logout f now st a).1 = none) :
    ∃ s d, st.store.redis (accessSessionKey a) = some (.json s d) ∧
      (∀ f1 now1 jit, (ValidateToken f1 now1 jit (Logout f now st a).2 a).1
        = .error "invalid or expired access token") ∧
      (∀ r f1 now1 jit, (∃ row ∈ st.store.sessions, row.SessionToken = r ∧ row.UserID = s.UserID) →
        ∃ e, (GetSession f1 now1 jit (Logout f now st a).2.store r false).1 = .error e) ∧
      (∀ row ∈ (Logout f now st a).2.store.sessions,
        row.UserID = s.UserID → row.IsActive = false) := by
  unfold Logout InvalidateSessionPairByAccessToken at hok ⊢
  cases hg : redisGet f st.store.redis now (accessSessionKey a) with
  | missing => rw [hg] at hok; cases hok
  | failed => rw [hg] at hok; cases hok
  | junk b => rw [hg] at hok; cases hok
  | session s =>
    rw [hg] at hok
    simp only [] at hok ⊢
    by_cases hempty : s.UserID = ""
    · rw [if_pos hempty] at hok
      cases hok
    · rw [if_neg hempty] at hok ⊢
      have hsm := InvalidateAllUserSessions_ok_index_read f now st.store s.UserID true hok
      have hredis : (InvalidateAllUserSessions f now st.store s.UserID true).2.redis
          = purge st.store.redis s.UserID := by
        rw [InvalidateAllUserSessions_redis f hsm hdel,
          InvalidateAllUserSessions_none st.store hInv]
      have hrows := InvalidateAllUserSessions_ok_sessions f now st.store s.UserID hok
      rcases ((redisGet_session_iff _ _ _ _ _).mp hg).2 with ⟨d, hd, _⟩
      refine ⟨s, d, hd, ?_, ?_, ?_⟩
      · intro f1 now1 jit
        apply ValidateToken_absent
        simp only []
        rw [hredis]
        exact purge_cached_none st.store hInv s.UserID _ s d hd rfl
      · rintro r f1 now1 jit ⟨row, hrow, htok, hown⟩
        cases hres : GetSession f1 now1 jit
            (InvalidateAllUserSessions f now st.store s.UserID true).2 r false with
        | mk res store1 =>
          cases res with
          | error e => exact ⟨e, rfl⟩
          | ok x =>
            exfalso
            rcases GetSession_refresh_ok_cases f1 now1 jit _ store1 r x hres with
              ⟨h1, _, _⟩ | ⟨_, h1, _⟩
            · rcases ((redisGet_session_iff _ _ _ _ _).mp h1).2 with ⟨d1, hd1, _⟩
              rw [hredis] at hd1
              rcases purge_owner st.store hInv s.UserID _ x d1 hd1 with ⟨k1, k2⟩
              rcases hInv.durable r x d1 k1 with ⟨row1, m1, m2, m3, _, _⟩
              have := rows_unique st.store.sessions hInv.unique row1 row m1 hrow (m2.trans htok.symm)
              rw [this] at m3
              exact k2 (m3.symm.trans hown)
            · rcases dbGetActiveSession_ok _ _ _ _ _ h1 with ⟨m1, m2, m3, _⟩
              rw [hrows, List.mem_map] at m1
              rcases m1 with ⟨row0, n1, n2⟩
              have htok0 : row0.SessionToken = r := by
                rw [← m2, ← n2]
                split <;> rfl
              have := rows_unique st.store.sessions hInv.unique row0 row n1 hrow (htok0.trans htok.symm)
              subst this
              by_cases hact : row0.IsActive = true
              · rw [if_pos ⟨hown, hact⟩] at n2
                rw [← n2] at m3
                cases m3
              · rw [if_neg (fun h => hact h.2)] at n2
                rw [← n2] at m3
                exact hact m3
      · intro row hrow hown
        rw [hrows, List.mem_map] at hrow
        rcases hrow with ⟨row0, _, n2⟩
        by_cases hc : row0.UserID = s.UserID ∧ row0.IsActive = true
        · rw [if_pos hc] at n2
          rw [← n2]
        · rw [if_neg hc] at n2
          rw [← n2] at hown ⊢
          simpa [hown] using hc

/-- C2, witness: `alice` registers at instant `0` and logs out at instant `5` with the access
token `a` she was given. -/
theorem C2_logout_revokes_pair_witness :
    ∃ s d, registeredState.store.redis (accessSessionKey "a") = some (.json s d) ∧
      (∀ f1 now1 jit, (ValidateToken f1 now1 jit
        (Logout Faults.none 5 registeredState "a").2 "a").1
        = .error "invalid or expired access token") ∧
      (∀ r f1 now1 jit,
        (∃ row ∈ registeredState.store.sessions, row.SessionToken = r ∧ row.UserID = s.UserID) →
        ∃ e, (GetSession f1 now1 jit
          (Logout Faults.none 5 registeredState "a").2.store r false).1 = .error e) ∧
      (∀ row ∈ (Logout Faults.none 5 registeredState "a").2.store.sessions,
        row.UserID = s.UserID → row.IsActive = false) :=
  C2_logout_revokes_pair Faults.none registeredState "a" 5
    (Reachable_Inv sampleService registeredState
      (Reachable.register emptyState false 0 (sampleEntropy "a") registerAlice Reachable.init))
    rfl rfl

/-- Claim C2 as stated fails, because the session manager only logs a failed cache write or
deletion. After a registration during which `SADD` failed, the sessions of `alice` are cached
but not listed in her index set: `Logout` of her access token `a` succeeds, and `a` still
validates and her refresh token `ax` still resolves. Likewise when the `DEL`s fail during the
logout of a regularly registered `alice`. -/
theorem C2_counterexample :
    (Register sampleService indexWriteFails false 0 (sampleEntropy "a") emptyState
      registerAlice).1 = .ok (aliceResponse "a") ∧
    (Logout Faults.none 5 unindexedState "a").1 = none ∧
    (∃ s, (ValidateToken Faults.none 6 jitter0 (Logout Faults.none 5 unindexedState "a").2 "a").1
      = .ok s) ∧
    (∃ s, (GetSession Faults.none 6 jitter0 (Logout Faults.none 5 unindexedState "a").2.store
      "ax" false).1 = .ok s) ∧
    (Logout deleteFails 5 registeredState "a").1 = none ∧
    (∃ s, (ValidateToken Faults.none 6 jitter0 (Logout deleteFails 5 registeredState "a").2 "a").1
      = .ok s) ∧
    (∃ s, (GetSession Faults.none 6 jitter0 (Logout deleteFails 5 registeredState "a").2.store
      "ax" false).1 = .ok s) := by
  refine ⟨rfl, rfl, ⟨_, rfl⟩, ⟨_, rfl⟩, rfl, ⟨_, rfl⟩, ⟨_, rfl⟩⟩

/-- C4, as the code has it: let `Login` succeed twice in a row for one username, whichever calls
fail during the first login. If after the first login its access token is listed in the index
set of the user, neither `SMEMBERS` nor a `DEL` fails during the second login, and the second
login's access token differs from the first, then the first login's access token no longer
validates, at any later instant and whichever calls fail then. -/
theorem C4_second_login_revokes_first (svc : UserService) (f1 f2 : Faults) (a1 a2 : Bool)
    (now1 now2 : Int) (ent1 ent2 : Entropy) (st : State) (req1 req2 : LoginRequest)
    (resp1 resp2 : LoginResponse) (hname : req2.Username = req1.Username)
    (h1 : (Login svc f1 a1 now1 ent1 st req1).1 = .ok resp1)
    (hlisted : ∃ ms, (Login svc f1 a1 now1 ent1 st req1).2.store.redis
        (userSessionsKey resp1.User.ID) = some (.set ms) ∧
      accessSessionKey resp1.AccessToken ∈ ms)
    (hsm : f2.redisSMembers = false) (hdel : f2.redisDel = false)
    (h2 : (Login svc f2 a2 now2 ent2 (Login svc f1 a1 now1 ent1 st req1).2 req2).1 = .ok resp2)
    (hfresh : resp2.AccessToken ≠ resp1.AccessToken) (f3 : Faults) (now3 : Int) (jit : Jitter) :
    (ValidateToken f3 now3 jit
      (Login svc f2 a2 now2 ent2 (Login svc f1 a1 now1 ent1 st req1).2 req2).2
      resp1.AccessToken).1 = .error "invalid or expired access token" := by
  -- the first login was for the user of `req1`
  have hfirst : ∃ user, dbGetByUsername st.users req1.Username = some user ∧
      (Login svc f1 a1 now1 ent1 st req1).2.users = st.users ∧ resp1.User.ID = user.ID := by
    rcases Login_cases svc f1 a1 now1 ent1 st req1 with
      ⟨⟨e, he⟩, _, _⟩ | ⟨user, accessToken, refreshToken, acc, rs, hu, _, _, _, _, _, _, _,
        husers, herr, hsucc⟩
    · rw [he] at h1
      cases h1
    · cases hlc : (Login.create svc f1 now1 ent1 user 3 0
          (InvalidateAllUserSessions f1 now1 st.store user.ID true).2 accessToken
          refreshToken acc rs).1 with
      | error e =>
        rw [herr e hlc] at h1
        cases h1
      | ok v =>
        rcases v with ⟨t1, r1, rs1⟩
        rw [hsucc t1 r1 rs1 hlc] at h1
        cases h1
        exact ⟨user, hu, husers, rfl⟩
  rcases hfirst with ⟨user, hu, husers, hid⟩
  obtain ⟨ms, hms, hmem⟩ := hlisted
  rw [hid] at hms
  apply ValidateToken_absent
  rcases Login_cases svc f2 a2 now2 ent2 (Login svc f1 a1 now1 ent1 st req1).2 req2
    with ⟨⟨e, he⟩, _, _⟩ | ⟨user2, accessToken, refreshToken, acc, rs, hu2, _, _, _, g4, g5, _, hst,
      _, herr, hsucc⟩
  · rw [he] at h2
    cases h2
  · rw [husers, hname, hu] at hu2
    cases hu2
    have hspec := Login_create_spec svc f2 now2 ent2 user 3 0 rfl (by decide)
      (InvalidateAllUserSessions f2 now2 (Login svc f1 a1 now1 ent1 st req1).2.store
        user.ID true).2 accessToken refreshToken acc rs g4 g5
    rw [hst]
    cases hlc : (Login.create svc f2 now2 ent2 user 3 0
        (InvalidateAllUserSessions f2 now2
          (Login svc f1 a1 now1 ent1 st req1).2.store user.ID true).2 accessToken
        refreshToken acc rs).1 with
    | error e =>
      rw [herr e hlc] at h2
      cases h2
    | ok v =>
      rcases v with ⟨t2, r2, rs2⟩
      rw [hsucc t2 r2 rs2 hlc] at h2
      cases h2
      refine (hspec.2 t2 r2 rs2 hlc).2.2.2.2.2.2 resp1.AccessToken (Ne.symm hfresh) ?_
      have hkeys : redisSMembers Faults.none (Login svc f1 a1 now1 ent1 st req1).2.store.redis
          now2 (userSessionsKey user.ID) = some ms := by
        unfold redisSMembers Redis.live
        rw [hms]
        rfl
      rw [InvalidateAllUserSessions_redis f2 hsm hdel,
        InvalidateAllUserSessions_members now2 _ user.ID true ms hkeys]
      simp only []
      rw [if_pos (Or.inr hmem)]

/-- C4, witness: `alice` registers, then logs in at instants `10` and `20`. -/
theorem C4_second_login_revokes_first_witness :
    (ValidateToken Faults.none 30 jitter0
      (Login sampleService Faults.none false 20 (sampleEntropy "c")
        (Login sampleService Faults.none false 10 (sampleEntropy "b") registeredState
          loginAlice).2 loginAlice).2
      (aliceResponse "b").AccessToken).1 = .error "invalid or expired access token" :=
  C4_second_login_revokes_first sampleService Faults.none Faults.none false false 10 20
    (sampleEntropy "b") (sampleEntropy "c") registeredState loginAlice loginAlice
    (aliceResponse "b") (aliceResponse "c") rfl rfl
    ⟨["access_session:b", "refresh_session:bx"], rfl, by decide⟩
    rfl rfl rfl (by decide) Faults.none 30 jitter0

/-- Claim C4 as stated fails, because `Login` and the session manager only log a failed cache
call. `alice` logs in at instants `10` and `20`, both logins succeed, and the access token `b`
of the first login still validates at instant `30`: when `SADD` failed during the first login
(the token was never listed in her index set), when the `DEL`s fail during the second, when
`SMEMBERS` fails during the second, and when the second login draws the token `b` again. -/
theorem C4_counterexample :
    (Login sampleService indexWriteFails false 10 (sampleEntropy "b") registeredState
      loginAlice).1 = .ok (aliceResponse "b") ∧
    (Login sampleService Faults.none false 20 (sampleEntropy "c")
      (Login sampleService indexWriteFails false 10 (sampleEntropy "b") registeredState
        loginAlice).2 loginAlice).1 = .ok (aliceResponse "c") ∧
    (∃ s, (ValidateToken Faults.none 30 jitter0
      (Login sampleService Faults.none false 20 (sampleEntropy "c")
        (Login sampleService indexWriteFails false 10 (sampleEntropy "b") registeredState
          loginAlice).2 loginAlice).2 "b").1 = .ok s) ∧
    (Login sampleService Faults.none false 10 (sampleEntropy "b") registeredState
      loginAlice).1 = .ok (aliceResponse "b") ∧
    (Login sampleService deleteFails false 20 (sampleEntropy "c")
      (Login sampleService Faults.none false 10 (sampleEntropy "b") registeredState
        loginAlice).2 loginAlice).1 = .ok (aliceResponse "c") ∧
    (∃ s, (ValidateToken Faults.none 30 jitter0
      (Login sampleService deleteFails false 20 (sampleEntropy "c")
        (Login sampleService Faults.none false 10 (sampleEntropy "b") registeredState
          loginAlice).2 loginAlice).2 "b").1 = .ok s) ∧
    (Login sampleService indexReadFails false 20 (sampleEntropy "c")
      (Login sampleService Faults.none false 10 (sampleEntropy "b") registeredState
        loginAlice).2 loginAlice).1 = .ok (aliceResponse "c") ∧
    (∃ s, (ValidateToken Faults.none 30 jitter0
      (Login sampleService indexReadFails false 20 (sampleEntropy "c")
        (Login sampleService Faults.none false 10 (sampleEntropy "b") registeredState
          loginAlice).2 loginAlice).2 "b").1 = .ok s) ∧
    (Login sampleService Faults.none false 20 repeatedNonce
      (Login sampleService Faults.none false 10 (sampleEntropy "b") registeredState
        loginAlice).2 loginAlice).1 = .ok { aliceResponse "c" with AccessToken := "b" } ∧
    (∃ s, (ValidateToken Faults.none 30 jitter0
      (Login sampleService Faults.none false 20 repeatedNonce
        (Login sampleService Faults.none false 10 (sampleEntropy "b") registeredState
          loginAlice).2 loginAlice).2 "b").1 = .ok s) := by
  refine ⟨rfl, rfl, ⟨_, rfl⟩, rfl, rfl, ⟨_, rfl⟩, rfl, ⟨_, rfl⟩, rfl, ⟨_, rfl⟩⟩

/-- A member of an index set stays a member through an `SADD`, failed or not. -/
theorem listed_redisSAdd (f : Faults) (r : Redis) (now : Int) (key : String)
    (members : List String) (u : String) (ms : List String) (k : String)
    (h : r (userSessionsKey u) = some (.set ms)) (hk : k ∈ ms) :
    ∃ ms1, tolerate r (redisSAdd f r now key members) (userSessionsKey u) = some (.set ms1) ∧
      k ∈ ms1 := by
  by_cases hkey : userSessionsKey u = key
  · subst hkey
    unfold tolerate redisSAdd Redis.live
    rw [h]
    cases hf : f.redisSAdd
    · simp only [Bool.false_eq_true, if_false, Option.getD_some, Function.update_same]
      exact ⟨ms ∪ members, rfl, List.mem_union_iff.2 (Or.inl hk)⟩
    · simp only [if_true, Option.getD_none]
      exact ⟨ms, h, hk⟩
  · rw [tolerate_redisSAdd_apply_ne f r now key members _ hkey]
    exact ⟨ms, h, hk⟩

/-- A member of an index set stays a member through `GetSession`, whichever calls fail. -/
theorem listed_GetSession (f : Faults) (now : Int) (jit : Jitter) (st : Store) (token : String)
    (a : Bool) (u : String) (ms : List String) (k : String)
    (h : st.redis (userSessionsKey u) = some (.set ms)) (hk : k ∈ ms) :
    ∃ ms1, (GetSession f now jit st token a).2.redis (userSessionsKey u) = some (.set ms1) ∧
      k ∈ ms1 := by
  rcases GetSession_store_cases f now jit st token a with h0 | h0 | ⟨_, session, h0⟩
  · rw [h0]
    exact ⟨ms, h, hk⟩
  · rw [h0]
    simp only []
    rw [tolerate_redisDel_apply]
    have hne : ¬ (f.redisDel = false ∧
        userSessionsKey u = (if a then accessSessionKey token else refreshSessionKey token)) := by
      rintro ⟨_, h1⟩
      cases a
      · exact refreshSessionKey_ne_user _ _ h1.symm
      · exact accessSessionKey_ne_user _ _ h1.symm
    rw [if_neg hne]
    exact ⟨ms, h, hk⟩
  · rw [h0]
    simp only []
    unfold GetSession.writeBack
    apply listed_redisSAdd
    · rw [tolerate_redisSet_apply]
      have hne : ¬ (f.redisSet = false ∧ userSessionsKey u = refreshSessionKey token) := by
        rintro ⟨_, h1⟩
        exact refreshSessionKey_ne_user _ _ h1.symm
      rw [if_neg hne]
      exact h
    · exact hk

/-- Claim C28, as the code has it: let `RefreshToken(r)` succeed for the refresh session of
principal `p`, with neither `SMEMBERS` nor a `DEL` failing during the call. Then every access
token whose cache key is listed in the index set of `p` before the call, other than the string
the call returns as new access token, fails to validate afterwards, at every instant and
whichever calls fail then. -/
theorem C28_refresh_rotates_access (svc : UserService) (f : Faults) (st : State)
    (now : Int) (ent : Entropy) (r : String) (resp : LoginResponse) (rs : UserSession)
    (hsm : f.redisSMembers = false) (hdel : f.redisDel = false)
    (hok : (RefreshToken svc f now ent st r).1 = .ok resp)
    (hrs : (GetSession f now ent.jitter st.store r false).1 = .ok rs)
    (t : String)
    (hlisted : ∃ ms, st.store.redis (userSessionsKey rs.UserID) = some (.set ms) ∧
      accessSessionKey t ∈ ms)
    (hfresh : t ≠ resp.AccessToken)
    (f3 : Faults) (now3 : Int) (jit : Jitter) :
    (ValidateToken f3 now3 jit (RefreshToken svc f now ent st r).2 t).1
      = .error "invalid or expired access token" := by
  obtain ⟨rs0, store1, newAcc, rs1, hget, hnew, hu1, hstore⟩ :=
    RefreshToken_ok_store svc f now ent st r resp hok
  have hrs0 : rs = rs0 := by
    rw [hget] at hrs
    simp only [Except.ok.injEq] at hrs
    exact hrs.symm
  subst hrs0
  have hstore1 : store1 = (GetSession f now ent.jitter st.store r false).2 := by
    rw [hget]
  obtain ⟨ms, hms, hmem⟩ := hlisted
  obtain ⟨ms1, hms1, hmem1⟩ := listed_GetSession f now ent.jitter st.store r false rs.UserID ms
    (accessSessionKey t) hms hmem
  rw [← hstore1, ← hu1] at hms1
  apply ValidateToken_absent
  rw [hstore, UpdateRefreshSession_access]
  unfold RefreshSessionPair
  simp only []
  apply RefreshSession_access_absent
  · rw [hnew]
    exact hfresh
  · have hkeys : redisSMembers Faults.none store1.redis now (userSessionsKey rs1.UserID)
        = some ms1 := by
      unfold redisSMembers Redis.live
      rw [hms1]
      rfl
    rw [InvalidateAllUserSessions_redis f hsm hdel,
      InvalidateAllUserSessions_members now store1 rs1.UserID false ms1 hkeys]
    simp only []
    rw [if_pos (Or.inr hmem1)]

/-- Claim C28 for the registered `alice`: after her refresh token `ax` is refreshed at instant
`10`, the access token `a` of her registration no longer validates. -/
theorem C28_refresh_rotates_access_witness :
    (ValidateToken Faults.none 20 jitter0
      (RefreshToken sampleService Faults.none 10 (sampleEntropy "n") registeredState "ax").2
      "a").1 = .error "invalid or expired access token" :=
  C28_refresh_rotates_access sampleService Faults.none registeredState
    10 (sampleEntropy "n") "ax"
    { AccessToken := "n", RefreshToken := "ax", AccessExpiresIn := 7200,
      RefreshExpiresIn := 604799,
      User := { ID := "ida", Username := "alice", Email := none, Phone := none } }
    aliceRefresh rfl rfl rfl rfl "a"
    ⟨["access_session:a", "refresh_session:ax"], rfl, by decide⟩
    (by decide) Faults.none 20 jitter0

/-- Claim C28 as stated fails, because the session manager only logs a failed cache call. The
access token `a` of `alice` validates before and after a successful `RefreshToken` of her
refresh token `ax`: when `SADD` failed during her registration (the token was never listed in
her index set), when the `DEL`s fail during the call, and when `SMEMBERS` fails during the
call. -/
theorem C28_counterexample :
    (∃ s, (ValidateToken Faults.none 5 jitter0 unindexedState "a").1 = .ok s) ∧
    (∃ resp, (RefreshToken sampleService Faults.none 10 (sampleEntropy "n") unindexedState
      "ax").1 = .ok resp) ∧
    (∃ s, (ValidateToken Faults.none 20 jitter0
      (RefreshToken sampleService Faults.none 10 (sampleEntropy "n") unindexedState "ax").2
      "a").1 = .ok s) ∧
    (∃ s, (ValidateToken Faults.none 5 jitter0 registeredState "a").1 = .ok s) ∧
    (∃ resp, (RefreshToken sampleService deleteFails 10 (sampleEntropy "n") registeredState
      "ax").1 = .ok resp) ∧
    (∃ s, (ValidateToken Faults.none 20 jitter0
      (RefreshToken sampleService deleteFails 10 (sampleEntropy "n") registeredState "ax").2
      "a").1 = .ok s) ∧
    (∃ resp, (RefreshToken sampleService indexReadFails 10 (sampleEntropy "n") registeredState
      "ax").1 = .ok resp) ∧
    (∃ s, (ValidateToken Faults.none 20 jitter0
      (RefreshToken sampleService indexReadFails 10 (sampleEntropy "n") registeredState "ax").2
      "a").1 = .ok s) := by
  refine ⟨⟨_, rfl⟩, ⟨_, rfl⟩, ⟨_, rfl⟩, ⟨_, rfl⟩, ⟨_, rfl⟩, ⟨_, rfl⟩, ⟨_, rfl⟩, ⟨_, rfl⟩⟩

end ReadingMicroservices
